import Mathlib

/-!
# ASConnector: reply guard, deferred-work queue, subscription registry, call correlation

A shallow embedding of the parts of `Source/asconnector` that the request/reply
guard and the request parser (`asrequest.cpp`), the cross-thread dispatcher, the
event listeners and the tag-based timers and handlers (`eventloop.cpp`), the
`Timer` and `IONotifier` objects (`timer.cpp`, `ionotifier.cpp`), the timed wait
of the semaphore (`safesemaphore_p.h`), the subscription registry and the signal
match rules (`asservice.cpp`) and the outgoing calls, their timeout and their
correlation (`dbusconnection.cpp`) are made of.

Conventions of the embedding

* A C++ object is a Lean structure holding its member variables; a member
  function takes the structure as `self` and returns the updated structure
  together with its return value.
* Calls into sd-bus are the boundary of the model.  For replies their return
  codes are supplied by an explicit record of functions (`Bus`); what was
  passed to sd-bus is appended to a log carried in the state.  Building and
  sending a signal, and the calls on the `sd_bus_track` object, are taken to
  succeed.
* The thread a member function is called on is an explicit Boolean
  (`onEventLoopThread`), as is the outcome of the `write` on the wake-up
  eventfd.
* `std::function<void()>` values stored in the deferred-work queue are values
  of a type `F` of closures; an empty `std::function` is `none`.
* Calls into sd-event are a boundary too: the library keeps a table of sources
  named by numbers, and whether it creates a source is an explicit Boolean.
* A callback registered with the reactor (event listener, timer) is a number;
  what it does is given by the list of reactor calls it makes while it runs.
* `int` tags and counters are unbounded integers: they start at small positive
  values and signed overflow is undefined in C++.
-/

set_option autoImplicit false

/-! ## Part I: definitions -/

/-! ### eventloop.cpp: the deferred-work queue -/

/-- The members of `EventLoopPrivate` that the dispatcher uses: `m_methods`, the
`std::queue<std::function<void()>>` of deferred closures (front of the queue is
the head of the list). -/
structure EventLoopPrivate (F : Type) where
  m_methods : List (Option F)
deriving Repr, DecidableEq

namespace EventLoopPrivate

variable {F σ : Type}

/-- `EventLoopPrivate::invokeMethod`: push `func` at the back of `m_methods`, then
write to the eventfd; `wrote` says whether that `write` returned `sizeof(wake)`.
The return value is `wrote`; the closure is queued in both cases. -/
def invokeMethod (self : EventLoopPrivate F) (func : Option F) (wrote : Bool) :
    Bool × EventLoopPrivate F :=
  let self1 : EventLoopPrivate F := { m_methods := self.m_methods ++ [func] }
  if !wrote then (false, self1) else (true, self1)

/-- The state a drain works on: the loop, the state `σ` the closures act on, and
(as a ghost record) the closures executed so far, oldest first. -/
structure Drain (F σ : Type) where
  loop : EventLoopPrivate F
  state : σ
  executed : List F

/-- `EventLoopPrivate::executeAllMethods`: `while (!m_methods.empty())` take the
front closure, pop it, and call it if it is non-empty.  `run f s` is the effect
of calling closure `f` in state `s`: the new state and the closures that `f`
itself hands to `invokeMethod` while it runs (appended at the back, in order).
`fuel` bounds the number of loop iterations: closures may keep queueing work, so
the C++ loop need not terminate. -/
def executeAllMethods (run : F → σ → σ × List (Option F)) :
    Nat → Drain F σ → Drain F σ
  | 0, d => d
  | fuel + 1, d =>
    match d.loop.m_methods with
    | [] => d
    | none :: rest =>
      executeAllMethods run fuel { d with loop := { m_methods := rest } }
    | some fn :: rest =>
      let r := run fn d.state
      executeAllMethods run fuel
        { loop := { m_methods := rest ++ r.2 }, state := r.1,
          executed := d.executed ++ [fn] }

/-- Calling the closures `cs` one after the other, each once, in list order:
the resulting state and the closures they queued meanwhile. -/
def runInOrder (run : F → σ → σ × List (Option F)) :
    List F → σ → σ × List (Option F)
  | [], s => (s, [])
  | c :: cs, s =>
    let r := run c s
    let r2 := runInOrder run cs r.1
    (r2.1, r.2 ++ r2.2)

/-- Submitting the closures `cs` with `invokeMethod`, in list order; `wrote i`
is the outcome of the eventfd write of the `i`-th submission. -/
def invokeAll (self : EventLoopPrivate F) : List (F × Bool) → EventLoopPrivate F
  | [] => self
  | (c, wrote) :: cs => invokeAll (self.invokeMethod (some c) wrote).2 cs

end EventLoopPrivate

/-! ### asrequest.cpp: the request/reply guard -/

namespace ASRequest

/-- `ASRequest::HeaderMap`, as the sequence of its (key, value) entries. -/
abbrev HeaderMap := List (String × String)

end ASRequest

/-- The arguments of one call of `ASRequestPrivate::marshallAndSendReply`:
the detached reply message (`none` is `nullptr`), the status code, the headers
and the body. -/
structure ReplyCall where
  reply : Option Nat
  code : Nat
  headers : ASRequest.HeaderMap
  body : String
deriving Repr, DecidableEq

/-- Return codes of the sd-bus calls made when replying: `marshallReply` is the
code returned by `ASRequestPrivate::marshallReply` (the first negative code of
its `sd_bus_message_*` calls, else 0), `sd_bus_send` the code of the final
`sd_bus_send`. -/
structure Bus where
  marshallReply : ReplyCall → Int
  sd_bus_send : ReplyCall → Int

/-- What reached the reply transport: `handed` lists every call of
`marshallAndSendReply`, `wire` those whose message `sd_bus_send` accepted. -/
structure Transport where
  handed : List ReplyCall
  wire : List ReplyCall
deriving Repr, DecidableEq

/-- The members of `ASRequestPrivate` that guard the reply: `m_reply` (the
pre-allocated reply message, `none` is `nullptr`) and `m_sentReply`. -/
structure ASRequestPrivate where
  m_reply : Option Nat
  m_sentReply : Bool
deriving Repr, DecidableEq

/-- The thread context of one call: whether `m_eventLoop.onEventLoopThread()`
holds, and whether the eventfd write of an `invokeMethod` made by the call
succeeds. -/
structure CallCtx where
  onEventLoopThread : Bool
  wrote : Bool
deriving Repr, DecidableEq

/-- The world a request lives in: the event loop it is attached to and the
reply transport. -/
structure ReplyWorld where
  loop : EventLoopPrivate ReplyCall
  bus : Transport
deriving Repr, DecidableEq

/-- `snprintf(buf, size, ...)` on an already formatted text: at most `size - 1`
characters are stored (the texts formatted here are ASCII, one byte each). -/
def snprintf (size : Nat) (formatted : String) : String :=
  String.mk (formatted.data.take (size - 1))

/-- A bus on which marshalling and sending always succeed (return code 0). -/
def Bus.working : Bus :=
  { marshallReply := fun _ => 0, sd_bus_send := fun _ => 0 }

/-- The world before anything was queued or sent. -/
def ReplyWorld.empty : ReplyWorld :=
  { loop := { m_methods := [] }, bus := { handed := [], wire := [] } }

namespace ASRequestPrivate

/-- The constructor `ASRequestPrivate::ASRequestPrivate`: `parsed` is the result
of `parseRequest`, `newReply` the message `sd_bus_message_new_method_return`
produced (`none` when it failed or left `m_reply` null). -/
def construct (parsed : Bool) (newReply : Option Nat) : ASRequestPrivate :=
  if !parsed then { m_reply := none, m_sentReply := false }
  else { m_reply := newReply, m_sentReply := false }

/-- `ASRequestPrivate::isValid`. -/
def isValid (self : ASRequestPrivate) : Bool :=
  self.m_reply.isSome

/-- `ASRequestPrivate::marshallAndSendReply` (static). -/
def marshallAndSendReply (bus : Bus) (c : ReplyCall) (t : Transport) :
    Bool × Transport :=
  let t1 : Transport := { t with handed := t.handed ++ [c] }
  if bus.marshallReply c < 0 then (false, t1)
  else if bus.sd_bus_send c < 0 then (false, t1)
  else (true, { t1 with wire := t1.wire ++ [c] })

/-- `ASRequestPrivate::doSendReply`. -/
def doSendReply (bus : Bus) (ctx : CallCtx) (self : ASRequestPrivate)
    (w : ReplyWorld) (code : Nat) (headers : ASRequest.HeaderMap)
    (body : String) : Bool × ASRequestPrivate × ReplyWorld :=
  let reply := self.m_reply
  let self1 : ASRequestPrivate := { m_reply := none, m_sentReply := true }
  let call : ReplyCall := { reply := reply, code := code, headers := headers, body := body }
  if ctx.onEventLoopThread then
    let r := marshallAndSendReply bus call w.bus
    (r.1, self1, { w with bus := r.2 })
  else
    let r := w.loop.invokeMethod (some call) ctx.wrote
    (r.1, self1, { w with loop := r.2 })

/-- `ASRequestPrivate::sendReply`. -/
def sendReply (bus : Bus) (ctx : CallCtx) (self : ASRequestPrivate)
    (w : ReplyWorld) (code : Nat) (headers : ASRequest.HeaderMap)
    (body : String) : Bool × ASRequestPrivate × ReplyWorld :=
  if self.m_sentReply then (false, self, w)
  else if !self.m_reply.isSome then (false, self, w)
  else doSendReply bus ctx self w code headers body

/-- The text the destructor formats into its `char body[128]`. -/
def defaultReplyText : String :=
  " \x7b \"errorCode\": \"105\", \"userMessage\": \"" ++ "Service failure" ++
  "\", \"developerMessage\": \"" ++ "Service failed to send response to request" ++
  "\" \x7d "

/-- The destructor `ASRequestPrivate::~ASRequestPrivate`. -/
def destructor (bus : Bus) (ctx : CallCtx) (self : ASRequestPrivate)
    (w : ReplyWorld) : ReplyWorld :=
  if !self.m_sentReply && self.m_reply.isSome then
    (doSendReply bus ctx self w 500 [] (snprintf 128 defaultReplyText)).2.2
  else w

/-- The effect of a queued `marshallAndSendReply` closure when the loop runs
it; it queues nothing itself. -/
def runQueued (bus : Bus) (c : ReplyCall) (t : Transport) :
    Transport × List (Option ReplyCall) :=
  ((marshallAndSendReply bus c t).2, [])

/-- The loop thread draining its deferred work (`executeAllMethods`). -/
def drain (bus : Bus) (fuel : Nat) (w : ReplyWorld) : ReplyWorld :=
  let d := EventLoopPrivate.executeAllMethods (runQueued bus) fuel
    { loop := w.loop, state := w.bus, executed := [] }
  { loop := d.loop, bus := d.state }

/-- One `sendReply` call as issued by user code: its thread context and its
arguments. -/
structure SendReplyArgs where
  ctx : CallCtx
  code : Nat
  headers : ASRequest.HeaderMap
  body : String
deriving Repr, DecidableEq

/-- A sequence of `sendReply` calls on one request, in order: the values they
returned, the request and the world afterwards. -/
def sendReplies (bus : Bus) :
    List SendReplyArgs → ASRequestPrivate → ReplyWorld →
      List Bool × ASRequestPrivate × ReplyWorld
  | [], self, w => ([], self, w)
  | a :: rest, self, w =>
    let r := sendReply bus a.ctx self w a.code a.headers a.body
    let r2 := sendReplies bus rest r.2.1 r.2.2
    (r.1 :: r2.1, r2.2.1, r2.2.2)

/-- The whole life of a request after construction: the `sendReply` calls, then
the destructor (called in context `dctx`), then the loop draining what was
queued. -/
def life (bus : Bus) (calls : List SendReplyArgs) (dctx : CallCtx) (fuel : Nat)
    (self : ASRequestPrivate) (w : ReplyWorld) : ReplyWorld :=
  let r := sendReplies bus calls self w
  drain bus fuel (destructor bus dctx r.2.1 r.2.2)

end ASRequestPrivate

/-! ### Standard containers used by asservice.cpp and dbusconnection.cpp -/

/-- A `std::string` used as the key of an ordered container: its characters;
the order on lists is the lexicographic one of `std::string::compare`. -/
abbrev Url := List Char

/-- A `std::map<K, V>`: its entries in key order, keys unique. -/
abbrev StdMap (K V : Type) := List (K × V)

namespace StdMap

variable {K V : Type} [LinearOrder K]

/-- `m.find(k)`: the mapped value, `none` for `m.end()`. -/
def find (m : StdMap K V) (k : K) : Option V :=
  match m with
  | [] => none
  | e :: rest => if e.1 = k then some e.2 else find rest k

/-- `m[k] = v`: insert the key or overwrite its value. -/
def assign (m : StdMap K V) (k : K) (v : V) : StdMap K V :=
  match m with
  | [] => [(k, v)]
  | e :: rest =>
    if k < e.1 then (k, v) :: e :: rest
    else if e.1 < k then e :: assign rest k v
    else (k, v) :: rest

/-- `m.emplace(k, v)`: insert the entry unless the key is already present. -/
def emplace (m : StdMap K V) (k : K) (v : V) : StdMap K V :=
  match m with
  | [] => [(k, v)]
  | e :: rest =>
    if k < e.1 then (k, v) :: e :: rest
    else if e.1 < k then e :: emplace rest k v
    else e :: rest

/-- `m.erase(it)` for the iterator `it = m.find(k)`, and `m.erase(k)`: the entry
with key `k` is removed. -/
def erase (m : StdMap K V) (k : K) : StdMap K V :=
  match m with
  | [] => []
  | e :: rest => if e.1 = k then rest else e :: erase rest k

/-- The representation invariant of the container: keys strictly increase. -/
def Ordered (m : StdMap K V) : Prop :=
  List.Pairwise (fun (a b : K × V) => a.1 < b.1) m

end StdMap

/-- A `std::multimap<std::string, std::string>`: its entries in key order;
entries with equal keys are kept in the order of their insertion. -/
abbrev ListenerMap := List (Url × String)

namespace ListenerMap

/-- `m.emplace(k, v)`: the entry is inserted at the upper bound of the entries
with key `k`. -/
def emplace (m : ListenerMap) (k : Url) (v : String) : ListenerMap :=
  match m with
  | [] => [(k, v)]
  | e :: rest => if k < e.1 then (k, v) :: e :: rest else e :: emplace rest k v

/-- `m.equal_range(k)`: the entries whose key is `k`, in map order. -/
def equal_range (m : ListenerMap) (k : Url) : List (Url × String) :=
  List.filter (fun (e : Url × String) => decide (e.1 = k)) m

/-- The representation invariant of the container: entries are in key order. -/
def Ordered (m : ListenerMap) : Prop :=
  List.Pairwise (fun (a b : Url × String) => a.1 ≤ b.1) m

end ListenerMap

/-! ### asservice.cpp: subscription registry and liveness tracker -/

/-- `ASVariantMap::Variant`; a `double` is carried as its bit pattern. -/
inductive Variant where
  | boolean (b : Bool)
  | integer (i : Int)
  | real (bits : Nat)
  | str (s : String)
deriving Repr, DecidableEq

/-- `ASVariantMap`: the entries of its `m_map`. -/
abbrev ASVariantMap := StdMap String Variant

/-- `std::map<std::string, ASVariantMap>`, the type of a system status update. -/
abbrev SystemStatus := StdMap Url ASVariantMap

/-- A signal handed to `sd_bus_send_to`: the destination service and the
arguments of the signal. -/
inductive Signal where
  | WebSocketUpdate (service : String) (wsUrl : Url) (message : String)
  | HttpUpdate (service : String) (httpUrl : Url) (tag : Int)
  | SysStatusUpdate (service : String) (update : SystemStatus)
deriving Repr, DecidableEq

/-- The closures that `ASServicePrivate` hands to `EventLoop::invokeMethod`: the
bound `sendCached...UpdateTo` member functions queued by `registerListener`,
and the lambdas of the three `update...` functions. -/
inductive Method where
  | sendCachedWsUpdateTo (service : String) (wsUrl : Url)
  | sendCachedHttpUpdateTo (service : String) (httpUrl : Url)
  | sendCachedSystemStatusUpdateTo (service : String) (wsUrl : Url)
  | updateWebSocket (wsUrl : Url) (wsMessage : String)
  | updateHttpUrl (httpUrl : Url) (tag : Int)
  | updateSystemStatus (systemStatusUpdate : SystemStatus)
deriving Repr, DecidableEq

/-- The reply a method handler sends back: `sd_bus_reply_method_return(msg, "")`
or `sd_bus_reply_method_errorf(msg, name, ...)`. -/
inductive MethodReply where
  | methodReturn
  | error (name : String)
deriving Repr, DecidableEq

/-- `SD_BUS_ERROR_INVALID_SIGNATURE`. -/
def SD_BUS_ERROR_INVALID_SIGNATURE : String := "org.freedesktop.DBus.Error.InvalidSignature"

/-- `SD_BUS_ERROR_SERVICE_UNKNOWN`. -/
def SD_BUS_ERROR_SERVICE_UNKNOWN : String := "org.freedesktop.DBus.Error.ServiceUnknown"

/-- An incoming method call as the listener handlers read it:
`sd_bus_message_get_sender(msg)` and the string argument read with
`sd_bus_message_read_basic` (`none` when the read failed or gave null). -/
structure MethodCall where
  sender : String
  urlArg : Option Url
deriving Repr, DecidableEq

/-- A non-recursive `sd_bus_track` object is a set of names.
`sd_bus_track_add_name` adds the name unless it is tracked already. -/
def sd_bus_track_add_name (track : List String) (name : String) : List String :=
  if name ∈ track then track else track ++ [name]

/-- `sd_bus_track_remove_name`: the name is no longer tracked. -/
def sd_bus_track_remove_name (track : List String) (name : String) : List String :=
  track.filter (fun n => n ≠ name)

/-- `sd_bus_track_contains`. -/
def sd_bus_track_contains (track : List String) (name : String) : Bool :=
  decide (name ∈ track)

/-- The members of `ASServicePrivate` used by the registry, and `sent`, the log
of the signals it handed to `sd_bus_send_to` (oldest first). -/
structure ASServicePrivate where
  m_tracker : List String
  m_wsCacheMessages : StdMap Url String
  m_httpCachedTag : StdMap Url Int
  m_SystemStatusCachedMessage : SystemStatus
  m_registeredWsClients : ListenerMap
  m_registeredUpdatesClients : ListenerMap
  m_registeredSystemStatusClients : ListenerMap
  sent : List Signal
deriving Repr, DecidableEq

/-- The service together with the event loop of its bus connection
(`m_dbusConn.eventLoop()`). -/
structure ServiceWorld where
  service : ASServicePrivate
  loop : EventLoopPrivate Method
deriving Repr, DecidableEq

/-- The three listener maps a `listenerMap` pointer can point to. -/
inductive Family where
  | ws
  | updates
  | systemStatus
deriving Repr, DecidableEq

namespace ASServicePrivate

/-- The state after the constructor: nothing cached, registered or tracked. -/
def construct : ASServicePrivate :=
  { m_tracker := [], m_wsCacheMessages := [], m_httpCachedTag := [],
    m_SystemStatusCachedMessage := [], m_registeredWsClients := [],
    m_registeredUpdatesClients := [], m_registeredSystemStatusClients := [],
    sent := [] }

/-- `*listenerMap` for the map the pointer designates. -/
def listeners (self : ASServicePrivate) : Family → ListenerMap
  | .ws => self.m_registeredWsClients
  | .updates => self.m_registeredUpdatesClients
  | .systemStatus => self.m_registeredSystemStatusClients

/-- Assignment through the `listenerMap` pointer. -/
def setListeners (self : ASServicePrivate) (fam : Family) (m : ListenerMap) :
    ASServicePrivate :=
  match fam with
  | .ws => { self with m_registeredWsClients := m }
  | .updates => { self with m_registeredUpdatesClients := m }
  | .systemStatus => { self with m_registeredSystemStatusClients := m }

/-- `ASServicePrivate::sendWsUpdateTo`: the signal is built
(`sd_bus_message_new_signal`, `sd_bus_message_append`, taken to succeed) and
handed to `sd_bus_send_to`. -/
def sendWsUpdateTo (self : ASServicePrivate) (service : String) (wsUrl : Url)
    (message : String) : ASServicePrivate :=
  { self with sent := self.sent ++ [Signal.WebSocketUpdate service wsUrl message] }

/-- `ASServicePrivate::sendHttpUpdateTo`. -/
def sendHttpUpdateTo (self : ASServicePrivate) (service : String) (httpUrl : Url)
    (tag : Int) : ASServicePrivate :=
  { self with sent := self.sent ++ [Signal.HttpUpdate service httpUrl tag] }

/-- `ASServicePrivate::sendSystemStatusUpdateTo`. -/
def sendSystemStatusUpdateTo (self : ASServicePrivate) (service : String)
    (systemStatusUpdate : SystemStatus) : ASServicePrivate :=
  { self with sent := self.sent ++ [Signal.SysStatusUpdate service systemStatusUpdate] }

/-- `ASServicePrivate::sendCachedWsUpdateTo`. -/
def sendCachedWsUpdateTo (self : ASServicePrivate) (service : String) (wsUrl : Url) :
    ASServicePrivate :=
  match StdMap.find self.m_wsCacheMessages wsUrl with
  | none => self
  | some message => sendWsUpdateTo self service wsUrl message

/-- `ASServicePrivate::sendCachedHttpUpdateTo`. -/
def sendCachedHttpUpdateTo (self : ASServicePrivate) (service : String) (httpUrl : Url) :
    ASServicePrivate :=
  match StdMap.find self.m_httpCachedTag httpUrl with
  | none => self
  | some tag => sendHttpUpdateTo self service httpUrl tag

/-- `ASServicePrivate::sendCachedSystemStatusUpdateTo`. -/
def sendCachedSystemStatusUpdateTo (self : ASServicePrivate) (service : String)
    (_wsUrl : Url) : ASServicePrivate :=
  if self.m_SystemStatusCachedMessage.isEmpty then self
  else sendSystemStatusUpdateTo self service self.m_SystemStatusCachedMessage

/-- The lambda of `ASServicePrivate::updateWebSocket`. -/
def updateWebSocketLambda (self : ASServicePrivate) (wsUrl : Url) (wsMessage : String) :
    ASServicePrivate :=
  let self1 := { self with
    m_wsCacheMessages := StdMap.assign self.m_wsCacheMessages wsUrl wsMessage }
  List.foldl (fun (s : ASServicePrivate) (it : Url × String) =>
      sendWsUpdateTo s it.2 wsUrl wsMessage)
    self1 (ListenerMap.equal_range self1.m_registeredWsClients wsUrl)

/-- The lambda of `ASServicePrivate::updateHttpUrl`. -/
def updateHttpUrlLambda (self : ASServicePrivate) (httpUrl : Url) (tag : Int) :
    ASServicePrivate :=
  let self1 := { self with
    m_httpCachedTag := StdMap.assign self.m_httpCachedTag httpUrl tag }
  List.foldl (fun (s : ASServicePrivate) (it : Url × String) =>
      sendHttpUpdateTo s it.2 httpUrl tag)
    self1 (ListenerMap.equal_range self1.m_registeredUpdatesClients httpUrl)

/-- The lambda of `ASServicePrivate::updateSystemStatus`. -/
def updateSystemStatusLambda (self : ASServicePrivate) (systemStatusUpdate : SystemStatus) :
    ASServicePrivate :=
  let self1 := { self with
    m_SystemStatusCachedMessage := List.foldl
      (fun (cache : SystemStatus) (statusUpdate : Url × ASVariantMap) =>
        StdMap.emplace (StdMap.erase cache statusUpdate.1) statusUpdate.1 statusUpdate.2)
      self.m_SystemStatusCachedMessage systemStatusUpdate }
  List.foldl (fun (s : ASServicePrivate) (it : Url × String) =>
      sendSystemStatusUpdateTo s it.2 systemStatusUpdate)
    self1 self1.m_registeredSystemStatusClients

/-- Calling one of the queued closures on the loop thread; none of them queues
further work. -/
def runMethod (fn : Method) (self : ASServicePrivate) :
    ASServicePrivate × List (Option Method) :=
  match fn with
  | .sendCachedWsUpdateTo service wsUrl => (sendCachedWsUpdateTo self service wsUrl, [])
  | .sendCachedHttpUpdateTo service httpUrl => (sendCachedHttpUpdateTo self service httpUrl, [])
  | .sendCachedSystemStatusUpdateTo service wsUrl =>
    (sendCachedSystemStatusUpdateTo self service wsUrl, [])
  | .updateWebSocket wsUrl wsMessage => (updateWebSocketLambda self wsUrl wsMessage, [])
  | .updateHttpUrl httpUrl tag => (updateHttpUrlLambda self httpUrl tag, [])
  | .updateSystemStatus update => (updateSystemStatusLambda self update, [])

/-- `removeUntrackedListeners`, the lambda of `trackerHandler`: every entry
whose service `sd_bus_track_contains` no longer reports is erased. -/
def removeUntrackedListeners (track : List String) (listeners : ListenerMap) : ListenerMap :=
  List.filter (fun (it : Url × String) => sd_bus_track_contains track it.2) listeners

/-- `ASServicePrivate::trackerHandler`, called with the tracker `track`. -/
def trackerHandler (track : List String) (self : ASServicePrivate) : ASServicePrivate :=
  let self1 := { self with
    m_registeredWsClients := removeUntrackedListeners track self.m_registeredWsClients }
  { self1 with
    m_registeredUpdatesClients :=
      removeUntrackedListeners track self1.m_registeredUpdatesClients }

end ASServicePrivate

namespace ServiceWorld

open ASServicePrivate

/-- The world after the service was constructed on an idle loop. -/
def init : ServiceWorld :=
  { service := ASServicePrivate.construct, loop := { m_methods := [] } }

/-- `ASServicePrivate::registerListener`; `wrote` is the outcome of the eventfd
write of its `invokeMethod`.  An empty `defaultUrl` (`[]`) means the url is read
from the message. -/
def registerListener (w : ServiceWorld) (msg : MethodCall) (listenerMap : Family)
    (updateFunc : String → Url → Method) (defaultUrl : Url) (wrote : Bool) :
    MethodReply × ServiceWorld :=
  match (if defaultUrl.isEmpty then msg.urlArg else some defaultUrl) with
  | none => (MethodReply.error SD_BUS_ERROR_INVALID_SIGNATURE, w)
  | some urlValue =>
    let caller := msg.sender
    if List.any (ListenerMap.equal_range (w.service.listeners listenerMap) urlValue)
        (fun it => decide (it.2 = caller)) then
      (MethodReply.error "com.sky.as.Error.AlreadyRegistered", w)
    else
      let s1 := w.service.setListeners listenerMap
        (ListenerMap.emplace (w.service.listeners listenerMap) urlValue caller)
      let s2 := { s1 with m_tracker := sd_bus_track_add_name s1.m_tracker caller }
      let loop2 := (w.loop.invokeMethod (some (updateFunc caller urlValue)) wrote).2
      (MethodReply.methodReturn, { service := s2, loop := loop2 })

/-- `ASServicePrivate::unregisterListener`.  The loop over
`equal_range(urlValue)` erases every entry whose service is the caller, that is
every entry (`urlValue`, caller) of the map; `found` says whether there was
one.  The scan for `callerStillRegistered` walks the whole of `*listenerMap`,
and only that map. -/
def unregisterListener (w : ServiceWorld) (msg : MethodCall) (listenerMap : Family)
    (defaultUrl : Url) : MethodReply × ServiceWorld :=
  match (if defaultUrl.isEmpty then msg.urlArg else some defaultUrl) with
  | none => (MethodReply.error SD_BUS_ERROR_INVALID_SIGNATURE, w)
  | some urlValue =>
    let caller := msg.sender
    let found := List.any (ListenerMap.equal_range (w.service.listeners listenerMap) urlValue)
      (fun it => decide (it.2 = caller))
    let s1 := w.service.setListeners listenerMap
      (List.filter (fun (it : Url × String) => !(decide (it.1 = urlValue) && decide (it.2 = caller)))
        (w.service.listeners listenerMap))
    if !found then
      (MethodReply.error SD_BUS_ERROR_SERVICE_UNKNOWN, { w with service := s1 })
    else
      let callerStillRegistered :=
        List.any (s1.listeners listenerMap) (fun it => decide (it.2 = caller))
      let s2 :=
        if !callerStillRegistered then
          { s1 with m_tracker := sd_bus_track_remove_name s1.m_tracker caller }
        else s1
      (MethodReply.methodReturn, { w with service := s2 })

/-- `ASServicePrivate::registerWsListener`. -/
def registerWsListener (w : ServiceWorld) (msg : MethodCall) (wrote : Bool) :
    MethodReply × ServiceWorld :=
  registerListener w msg Family.ws Method.sendCachedWsUpdateTo [] wrote

/-- `ASServicePrivate::unregisterWsListener`. -/
def unregisterWsListener (w : ServiceWorld) (msg : MethodCall) : MethodReply × ServiceWorld :=
  unregisterListener w msg Family.ws []

/-- `ASServicePrivate::registerHttpListener`. -/
def registerHttpListener (w : ServiceWorld) (msg : MethodCall) (wrote : Bool) :
    MethodReply × ServiceWorld :=
  registerListener w msg Family.updates Method.sendCachedHttpUpdateTo [] wrote

/-- `ASServicePrivate::unregisterHttpListener`. -/
def unregisterHttpListener (w : ServiceWorld) (msg : MethodCall) :
    MethodReply × ServiceWorld :=
  unregisterListener w msg Family.updates []

/-- `ASServicePrivate::registerSystemStatusListener`. -/
def registerSystemStatusListener (w : ServiceWorld) (msg : MethodCall) (wrote : Bool) :
    MethodReply × ServiceWorld :=
  registerListener w msg Family.systemStatus Method.sendCachedSystemStatusUpdateTo
    "/as/system/status".data wrote

/-- `ASServicePrivate::unregisterSystemStatusListener`. -/
def unregisterSystemStatusListener (w : ServiceWorld) (msg : MethodCall) :
    MethodReply × ServiceWorld :=
  unregisterListener w msg Family.systemStatus "/as/system/status".data

/-- `ASServicePrivate::updateWebSocket`. -/
def updateWebSocket (ctx : CallCtx) (w : ServiceWorld) (wsUrl : Url) (wsMessage : String) :
    ServiceWorld :=
  if ctx.onEventLoopThread then
    { w with service := updateWebSocketLambda w.service wsUrl wsMessage }
  else
    { w with loop := (w.loop.invokeMethod (some (Method.updateWebSocket wsUrl wsMessage))
        ctx.wrote).2 }

/-- `ASServicePrivate::updateHttpUrl`. -/
def updateHttpUrl (ctx : CallCtx) (w : ServiceWorld) (httpUrl : Url) (tag : Int) :
    ServiceWorld :=
  if ctx.onEventLoopThread then
    { w with service := updateHttpUrlLambda w.service httpUrl tag }
  else
    { w with loop := (w.loop.invokeMethod (some (Method.updateHttpUrl httpUrl tag))
        ctx.wrote).2 }

/-- `ASServicePrivate::updateSystemStatus`. -/
def updateSystemStatus (ctx : CallCtx) (w : ServiceWorld) (systemStatusUpdate : SystemStatus) :
    ServiceWorld :=
  if ctx.onEventLoopThread then
    { w with service := updateSystemStatusLambda w.service systemStatusUpdate }
  else
    { w with loop := (w.loop.invokeMethod
        (some (Method.updateSystemStatus systemStatusUpdate)) ctx.wrote).2 }

/-- The loop thread draining its deferred work (`executeAllMethods`). -/
def drain (fuel : Nat) (w : ServiceWorld) : ServiceWorld :=
  let d := EventLoopPrivate.executeAllMethods ASServicePrivate.runMethod fuel
    { loop := w.loop, state := w.service, executed := [] }
  { service := d.state, loop := d.loop }

/-- What can happen to a running service: the method calls of remote peers, the
update calls of the local application, sd-bus dropping a vanished peer from the
tracker (`nameLost`), sd-bus calling the tracker handler, and the loop draining
its deferred work. -/
inductive Op where
  | registerWsListener (msg : MethodCall) (wrote : Bool)
  | unregisterWsListener (msg : MethodCall)
  | registerHttpListener (msg : MethodCall) (wrote : Bool)
  | unregisterHttpListener (msg : MethodCall)
  | registerSystemStatusListener (msg : MethodCall) (wrote : Bool)
  | unregisterSystemStatusListener (msg : MethodCall)
  | updateWebSocket (ctx : CallCtx) (wsUrl : Url) (wsMessage : String)
  | updateHttpUrl (ctx : CallCtx) (httpUrl : Url) (tag : Int)
  | updateSystemStatus (ctx : CallCtx) (systemStatusUpdate : SystemStatus)
  | nameLost (name : String)
  | trackerHandler
  | executeAllMethods (fuel : Nat)
deriving Repr, DecidableEq

/-- The effect of one operation. -/
def step (w : ServiceWorld) : Op → ServiceWorld
  | .registerWsListener msg wrote => (registerWsListener w msg wrote).2
  | .unregisterWsListener msg => (unregisterWsListener w msg).2
  | .registerHttpListener msg wrote => (registerHttpListener w msg wrote).2
  | .unregisterHttpListener msg => (unregisterHttpListener w msg).2
  | .registerSystemStatusListener msg wrote => (registerSystemStatusListener w msg wrote).2
  | .unregisterSystemStatusListener msg => (unregisterSystemStatusListener w msg).2
  | .updateWebSocket ctx wsUrl wsMessage => updateWebSocket ctx w wsUrl wsMessage
  | .updateHttpUrl ctx httpUrl tag => updateHttpUrl ctx w httpUrl tag
  | .updateSystemStatus ctx update => updateSystemStatus ctx w update
  | .nameLost name =>
    { w with service := { w.service with
        m_tracker := sd_bus_track_remove_name w.service.m_tracker name } }
  | .trackerHandler =>
    { w with service := ASServicePrivate.trackerHandler w.service.m_tracker w.service }
  | .executeAllMethods fuel => drain fuel w

/-- The effect of a sequence of operations, first to last. -/
def run (ops : List Op) (w : ServiceWorld) : ServiceWorld :=
  ops.foldl step w

end ServiceWorld

/-! ### The subscription registry as the specification words it -/

/-- The registry of the specification: the (topic, peer) pairs currently
subscribed in one topic family, in the order in which they were registered. -/
abbrev Registry := List (Url × String)

namespace Registry

/-- Subscribe: a duplicate pair is rejected, otherwise the pair is inserted
(as the most recent registration). -/
def subscribe (r : Registry) (topic : Url) (peer : String) : Registry :=
  if (topic, peer) ∈ r then r else r ++ [(topic, peer)]

/-- Unsubscribe: the pair is removed. -/
def unsubscribe (r : Registry) (topic : Url) (peer : String) : Registry :=
  List.filter (fun (e : Url × String) => !(decide (e.1 = topic) && decide (e.2 = peer))) r

/-- Liveness clean-up: every peer that is not confirmed live is removed. -/
def dropUntracked (r : Registry) (live : List String) : Registry :=
  List.filter (fun (e : Url × String) => decide (e.2 ∈ live)) r

/-- The peers currently subscribed to `topic`, in registration order. -/
def subscribers (r : Registry) (topic : Url) : List String :=
  List.map Prod.snd (List.filter (fun (e : Url × String) => decide (e.1 = topic)) r)

/-- How one operation of the service changes the registry of the websocket
family; `w` is the world the operation starts in. -/
def wsStep (w : ServiceWorld) (r : Registry) : ServiceWorld.Op → Registry
  | .registerWsListener msg _ =>
    match msg.urlArg with
    | some topic => subscribe r topic msg.sender
    | none => r
  | .unregisterWsListener msg =>
    match msg.urlArg with
    | some topic => unsubscribe r topic msg.sender
    | none => r
  | .trackerHandler => dropUntracked r w.service.m_tracker
  | _ => r

/-- How one operation changes the registry of the HTTP-update family. -/
def httpStep (w : ServiceWorld) (r : Registry) : ServiceWorld.Op → Registry
  | .registerHttpListener msg _ =>
    match msg.urlArg with
    | some topic => subscribe r topic msg.sender
    | none => r
  | .unregisterHttpListener msg =>
    match msg.urlArg with
    | some topic => unsubscribe r topic msg.sender
    | none => r
  | .trackerHandler => dropUntracked r w.service.m_tracker
  | _ => r

/-- The registry after the operations `ops`, started in world `w` with registry
`r`; `regStep` is `wsStep` or `httpStep`. -/
def after (regStep : ServiceWorld → Registry → ServiceWorld.Op → Registry) :
    List ServiceWorld.Op → ServiceWorld → Registry → Registry
  | [], _, r => r
  | op :: ops, w, r => after regStep ops (ServiceWorld.step w op) (regStep w r op)

end Registry

/-- The map `m` holds the registry `r`: for every topic the same pairs in
the same order. -/
def Registry.Refines (m : ListenerMap) (r : Registry) : Prop :=
  ∀ topic : Url, ListenerMap.equal_range m topic =
    List.filter (fun (e : Url × String) => decide (e.1 = topic)) r

/-- The invariant of the three listener maps: each is in key order and holds
no (topic, peer) pair twice. -/
def ServiceWorld.Inv (w : ServiceWorld) : Prop :=
  ∀ fam : Family, ListenerMap.Ordered (w.service.listeners fam) ∧
    List.Nodup (w.service.listeners fam)

/-! ### dbusconnection.cpp: correlation of asynchronous calls -/

/-- The argument a reply callback is called with, and the value a synchronous
call returns: a `DBusMessage` wrapping the reply message `msg`,
`DBusMessage(DBusMessage::Failed)`, `DBusMessage(DBusMessage::NoNetwork)`, or
the error message built from the `sd_bus_error` of a failed `sd_bus_call`
(`rc` is the code that call returned). -/
inductive DBusMessage where
  | reply (msg : Nat)
  | failed
  | noNetwork
  | fromError (rc : Int)
deriving Repr, DecidableEq

/-- A `std::function<void(DBusMessage&&)>`: a callback is named by a number,
`none` is an empty function. -/
abbrev ReplyCallback := Option Nat

/-- A reply message as `methodCallCallback` reads it: the message and the
cookie `sd_bus_message_get_reply_cookie` gives (`none` when it fails). -/
structure ReplyMessage where
  msg : Nat
  replyCookie : Option Nat
deriving Repr, DecidableEq

/-- What sd-bus does with one outgoing call: whether `toMessage` built a
message, the return codes of `sd_bus_call_async` and of
`sd_bus_message_get_cookie`, and the cookie the bus assigned. -/
structure CallOutcome where
  toMessage : Bool
  sd_bus_call_async : Int
  sd_bus_message_get_cookie : Int
  cookie : Nat
deriving Repr, DecidableEq

/-- The captures of the `execCall` lambda of `callWithCallback`. -/
structure ExecCall where
  callback : ReplyCallback
  errorCallback : ReplyCallback
  outcome : CallOutcome
deriving Repr, DecidableEq

/-- The members of `DBusConnectionPrivate` used for correlation: `m_callbacks`,
and `called`, the log of callback invocations (callback, argument), oldest
first. -/
structure DBusConnectionPrivate where
  m_callbacks : StdMap Nat ReplyCallback
  called : List (Nat × DBusMessage)
deriving Repr, DecidableEq

/-- The connection together with its event loop (`m_eventLoop`). -/
structure ConnectionWorld where
  conn : DBusConnectionPrivate
  loop : EventLoopPrivate ExecCall
deriving Repr, DecidableEq

namespace DBusConnectionPrivate

/-- Calling a `std::function` if it is non-empty (`if (fn) fn(arg)`). -/
def callIfSet (self : DBusConnectionPrivate) (fn : ReplyCallback) (arg : DBusMessage) :
    DBusConnectionPrivate :=
  match fn with
  | none => self
  | some f => { self with called := self.called ++ [(f, arg)] }

/-- `DBusConnectionPrivate::methodCallCallback`. -/
def methodCallCallback (self : DBusConnectionPrivate) (reply : ReplyMessage) :
    DBusConnectionPrivate :=
  match reply.replyCookie with
  | none => self
  | some cookie =>
    match StdMap.find self.m_callbacks cookie with
    | none => self
    | some fn =>
      let self1 := { self with m_callbacks := StdMap.erase self.m_callbacks cookie }
      callIfSet self1 fn (DBusMessage.reply reply.msg)

/-- The `execCall` lambda of `DBusConnectionPrivate::callWithCallback`. -/
def execCall (c : ExecCall) (self : DBusConnectionPrivate) : Bool × DBusConnectionPrivate :=
  if !c.outcome.toMessage then
    (false, callIfSet self c.errorCallback DBusMessage.failed)
  else if c.outcome.sd_bus_call_async < 0 then
    (false, callIfSet self c.errorCallback DBusMessage.failed)
  else if c.outcome.sd_bus_message_get_cookie < 0 then
    (false, callIfSet self c.errorCallback DBusMessage.failed)
  else
    (true, { self with
      m_callbacks := StdMap.emplace self.m_callbacks c.outcome.cookie c.callback })

/-- `DBusConnectionPrivate::callWithCallback`. -/
def callWithCallback (ctx : CallCtx) (w : ConnectionWorld) (outcome : CallOutcome)
    (callback : ReplyCallback) : Bool × ConnectionWorld :=
  let errorCallback : ReplyCallback := if !ctx.onEventLoopThread then callback else none
  let call : ExecCall :=
    { callback := callback, errorCallback := errorCallback, outcome := outcome }
  if ctx.onEventLoopThread then
    let r := execCall call w.conn
    (r.1, { w with conn := r.2 })
  else
    let r := w.loop.invokeMethod (some call) ctx.wrote
    (r.1, { w with loop := r.2 })

/-- A call that sd-bus accepts and to which it assigns `cookie`. -/
def accepted (cookie : Nat) : CallOutcome :=
  { toMessage := true, sd_bus_call_async := 0, sd_bus_message_get_cookie := 0,
    cookie := cookie }

/-- Issuing, on the loop thread, one accepted asynchronous call per entry
(cookie, callback) of `calls`, in order. -/
def issueAll (self : DBusConnectionPrivate) : List (Nat × Nat) → DBusConnectionPrivate
  | [] => self
  | (cookie, cb) :: rest =>
    issueAll (callWithCallback ⟨true, true⟩ { conn := self, loop := { m_methods := [] } }
      (accepted cookie) (some cb)).2.conn rest

end DBusConnectionPrivate

/-! ### dbusconnection.cpp: the public call functions -/

/-- `DBusMessage::MessageType`. -/
inductive MessageType where
  | MethodCallMessage
  | SignalMessage
  | ReplyMessage
  | IncomingSignalMessage
  | ErrorMessage
  | InvalidMessage
deriving Repr, DecidableEq

/-- What sd-bus does with a blocking `sd_bus_call`: whether `toMessage` built a
message, the code `sd_bus_call` returned and the reply it stored (`none` is a
null reply). -/
structure SyncOutcome where
  toMessage : Bool
  sd_bus_call : Int
  reply : Option Nat
deriving Repr, DecidableEq

namespace ConnectionWorld

/-- The effect of a queued `execCall` lambda when the loop runs it; it queues
nothing itself. -/
def runQueued (c : ExecCall) (conn : DBusConnectionPrivate) :
    DBusConnectionPrivate × List (Option ExecCall) :=
  ((DBusConnectionPrivate.execCall c conn).2, [])

/-- The loop thread draining its deferred work (`executeAllMethods`). -/
def drain (fuel : Nat) (w : ConnectionWorld) : ConnectionWorld :=
  let d := EventLoopPrivate.executeAllMethods runQueued fuel
    { loop := w.loop, state := w.conn, executed := [] }
  { conn := d.state, loop := d.loop }

end ConnectionWorld

namespace DBusConnection

/-- `DBusConnection::callWithCallback`; `connected` is
`m_private && m_private->m_bus`, `type` is `message.type()`. -/
def callWithCallback (ctx : CallCtx) (connected : Bool) (w : ConnectionWorld)
    (type : MessageType) (outcome : CallOutcome) (callback : ReplyCallback) :
    Bool × ConnectionWorld :=
  if type ≠ MessageType.MethodCallMessage then (false, w)
  else if !connected then (false, w)
  else DBusConnectionPrivate.callWithCallback ctx w outcome callback

/-- `DBusConnection::call`.  On the loop thread the call blocks in
`sd_bus_call`, whose outcome is `sync`.  On another thread the call is issued
with `callWithCallback` and a lambda (named `lambda`) that stores the reply and
posts the semaphore; the caller then blocks in `sem_wait` while the loop thread
works, which is what `loopThread` does to the world.  The result is the
message returned, or `none` when the semaphore has not been posted, so the
caller is still blocked. -/
def call (ctx : CallCtx) (connected : Bool) (w : ConnectionWorld) (type : MessageType)
    (sync : SyncOutcome) (outcome : CallOutcome) (lambda : Nat)
    (loopThread : ConnectionWorld → ConnectionWorld) :
    Option DBusMessage × ConnectionWorld :=
  if type ≠ MessageType.MethodCallMessage then (some DBusMessage.failed, w)
  else if !connected then (some DBusMessage.noNetwork, w)
  else if ctx.onEventLoopThread then
    if !sync.toMessage then (some DBusMessage.failed, w)
    else
      match sync.reply with
      | none => (some (DBusMessage.fromError sync.sd_bus_call), w)
      | some reply =>
        if sync.sd_bus_call < 0 then (some (DBusMessage.fromError sync.sd_bus_call), w)
        else (some (DBusMessage.reply reply), w)
  else
    let r := DBusConnectionPrivate.callWithCallback ctx w outcome (some lambda)
    if !r.1 then (some DBusMessage.failed, r.2)
    else
      let w2 := loopThread r.2
      match List.find? (fun (e : Nat × DBusMessage) => decide (e.1 = lambda)) w2.conn.called with
      | some e => (some e.2, w2)
      | none => (none, w2)

end DBusConnection

/-- Whether a call got past message construction, `sd_bus_call_async` and
`sd_bus_message_get_cookie`. -/
def CallOutcome.sent (o : CallOutcome) : Bool :=
  o.toMessage && decide (0 ≤ o.sd_bus_call_async) && decide (0 ≤ o.sd_bus_message_get_cookie)

/-! ### asrequest.cpp: parsing a request and the canned error replies -/

/-- One iteration of a `while (enter_container(DICT_ENTRY) > 0)` loop of
`parseRequest`, as sd-bus answers it: the code of
`sd_bus_message_read(msg, "ss", &key, &value)`, the two strings it stored
(`none` is null) and the code of `sd_bus_message_exit_container`. -/
structure DictEntryRead where
  read : Int
  key : Option String
  value : Option String
  exit : Int
deriving Repr, DecidableEq

/-- How sd-bus answers the reading of one `a{ss}` argument: the code of
`enter_container(ARRAY)`, one `DictEntryRead` for every
`enter_container(DICT_ENTRY)` that returned a positive code, the code (zero or
negative) of the `enter_container(DICT_ENTRY)` that ended the loop, and the
code of the `exit_container` of the array. -/
structure DictRead where
  enterArray : Int
  entries : List DictEntryRead
  lastEnter : Int
  exitArray : Int
deriving Repr, DecidableEq

/-- An incoming `Request` message as `parseRequest` sees it through sd-bus:
whether `sd_bus_message_has_signature(msg, "usa{ss}a{ss}s")` holds, and the
answers to the reads it makes, in order. -/
structure RequestMessage where
  has_signature : Bool
  readFlagsPath : Int
  flags : Nat
  urlPath : Option String
  headers : DictRead
  queryParams : DictRead
  readBody : Int
  body : Option String
deriving Repr, DecidableEq

namespace ASRequest

/-- `ASRequest::Method`. -/
inductive Method where
  | InvalidMethod
  | HttpPost
  | HttpGet
deriving Repr, DecidableEq

/-- `ASRequest::ErrorType`. -/
inductive ErrorType where
  | None
  | InvalidUrlError
  | InvalidParametersError
  | GenericFailureError
  | NotSupportedError
deriving Repr, DecidableEq

/-- `struct CannedError` of `ASRequest::sendErrorReply`. -/
structure CannedError where
  httpCode : Int
  errorCode : Int
  userMessage : String
deriving Repr, DecidableEq

/-- The static table `cannedErrors`. -/
def cannedErrors : List (ErrorType × CannedError) :=
  [ (ErrorType.InvalidUrlError,        ⟨404, 101, "Invalid URL"⟩),
    (ErrorType.InvalidParametersError, ⟨400, 102, "Invalid Parameters"⟩),
    (ErrorType.GenericFailureError,    ⟨500, 103, "Generic failure"⟩),
    (ErrorType.NotSupportedError,      ⟨404, 104, "Not supported on this device"⟩) ]

/-- `cannedErrors.at(type)`: the mapped value; `none` stands for the
`std::out_of_range` exception `std::map::at` throws for a missing key. -/
def cannedErrorsAt (type : ErrorType) : Option CannedError :=
  Option.map Prod.snd (List.find? (fun e => decide (e.1 = type)) cannedErrors)

/-- The text `ASRequest::sendErrorReply` formats into its `char body[128]`
(`%d` prints the decimal digits of `errorCode`). -/
def errorReplyText (errorCode : Int) (userMessage developerMessage : String) : String :=
  if developerMessage.isEmpty then
    "\x7b \"errorCode\": " ++ toString errorCode ++ ", \"userMessage\": \"" ++ userMessage ++
      "\" \x7d"
  else
    "\x7b \"errorCode\": " ++ toString errorCode ++ ", \"userMessage\": \"" ++ userMessage ++
      "\", \"developerMessage\": \"" ++ developerMessage ++ "\" \x7d"

/-- `ASRequest::sendErrorReply(int httpCode, int errorCode, userMessage,
developerMessage)`; `httpCode` is converted to `unsigned int` for
`sendReply`. -/
def sendErrorReplyCodes (bus : Bus) (ctx : CallCtx) (self : ASRequestPrivate)
    (w : ReplyWorld) (httpCode errorCode : Int) (userMessage developerMessage : String) :
    Bool × ASRequestPrivate × ReplyWorld :=
  ASRequestPrivate.sendReply bus ctx self w (httpCode % 4294967296).toNat []
    (snprintf 128 (errorReplyText errorCode userMessage developerMessage))

/-- `ASRequest::sendErrorReply(ErrorType type, developerMessage)`; the result is
`none` when `cannedErrors.at(type)` throws. -/
def sendErrorReply (bus : Bus) (ctx : CallCtx) (self : ASRequestPrivate) (w : ReplyWorld)
    (type : ErrorType) (developerMessage : String) :
    Option (Bool × ASRequestPrivate × ReplyWorld) :=
  match cannedErrorsAt type with
  | none => none
  | some error =>
    some (sendErrorReplyCodes bus ctx self w error.httpCode error.errorCode error.userMessage
      developerMessage)

/-- `methodFromFlags`. -/
def methodFromFlags (requestFlags : Nat) : Method :=
  if requestFlags % 16 = 1 then Method.HttpGet
  else if requestFlags % 16 = 2 then Method.HttpPost
  else Method.InvalidMethod

end ASRequest

/-- The request fields `parseRequest` fills in; the two multimaps are given as
the pairs emplaced, in the order they were read. -/
structure RequestFields where
  m_method : ASRequest.Method
  m_urlPath : String
  m_body : String
  m_headers : List (String × String)
  m_queryParams : List (String × String)
deriving Repr, DecidableEq

/-- The answer of the `Request` method handler: the error reply
`SD_BUS_ERROR_INVALID_ARGS`, or the request object handed to `onRequest`. -/
inductive RequestOutcome where
  | invalidArgs
  | onRequest (request : ASRequestPrivate) (fields : RequestFields)
deriving Repr, DecidableEq

/-- A bus on which marshalling a reply always fails with `-EINVAL` (-22). -/
def Bus.marshalFails : Bus :=
  { marshallReply := fun _ => -22, sd_bus_send := fun _ => 0 }

namespace ASRequestPrivate

/-- The conversion of an `int` to `bool` at a `return rc;` of a function that
returns `bool`: every non-zero value is `true`. -/
def intToBool (rc : Int) : Bool :=
  decide (rc ≠ 0)

/-- One `while ((rc = enter_container(DICT_ENTRY)) > 0)` loop of `parseRequest`
over the entries sd-bus delivers.  The first component is `some b` when
`parseRequest` returns `b` from inside the loop and `none` when the loop ends;
the second is the multimap with the pairs emplaced so far. -/
def readDictEntries : List DictEntryRead → List (String × String) →
    Option Bool × List (String × String)
  | [], acc => (none, acc)
  | e :: rest, acc =>
    if e.read < 0 then (some false, acc)
    else
      let acc1 :=
        match e.key, e.value with
        | some key, some value => acc ++ [(key, value)]
        | _, _ => acc
      if e.exit < 0 then (some (intToBool e.exit), acc1)
      else readDictEntries rest acc1

/-- The reading of one `a{ss}` argument in `parseRequest`: `some b` when
`parseRequest` returns `b` while reading it, `none` when it goes on. -/
def readDict (d : DictRead) (acc : List (String × String)) :
    Option Bool × List (String × String) :=
  if d.enterArray < 0 then (some false, acc)
  else
    match readDictEntries d.entries acc with
    | (some b, acc1) => (some b, acc1)
    | (none, acc1) =>
      if d.exitArray < 0 then (some false, acc1) else (none, acc1)

/-- `ASRequestPrivate::parseRequest`: its return value and the fields as it
leaves them. -/
def parseRequest (msg : RequestMessage) : Bool × RequestFields :=
  let f0 : RequestFields :=
    { m_method := ASRequest.Method.InvalidMethod, m_urlPath := "", m_body := "",
      m_headers := [], m_queryParams := [] }
  if !msg.has_signature then (false, f0)
  else if msg.readFlagsPath < 0 then (false, f0)
  else
    let f1 : RequestFields :=
      { f0 with
        m_urlPath := (match msg.urlPath with | some p => p | none => "")
        m_method := ASRequest.methodFromFlags msg.flags }
    match readDict msg.headers [] with
    | (some b, headers) => (b, { f1 with m_headers := headers })
    | (none, headers) =>
      let f2 : RequestFields := { f1 with m_headers := headers }
      match readDict msg.queryParams [] with
      | (some b, params) => (b, { f2 with m_queryParams := params })
      | (none, params) =>
        let f3 : RequestFields := { f2 with m_queryParams := params }
        if msg.readBody < 0 then (false, f3)
        else (true, { f3 with m_body := (match msg.body with | some b => b | none => "") })

/-- The constructor `ASRequestPrivate::ASRequestPrivate` on a message:
`parseRequest`, then the reply message is created. -/
def constructFrom (msg : RequestMessage) (newReply : Option Nat) : ASRequestPrivate :=
  construct (parseRequest msg).1 newReply

end ASRequestPrivate

namespace ASServicePrivate

/-- `ASServicePrivate::request`: the request object is built from the message;
an invalid one is answered with the invalid-arguments error, a valid one is
handed to `onRequest`. -/
def request (msg : RequestMessage) (newReply : Option Nat) : RequestOutcome :=
  let request := ASRequestPrivate.constructFrom msg newReply
  if !request.isValid then RequestOutcome.invalidArgs
  else RequestOutcome.onRequest request (ASRequestPrivate.parseRequest msg).2

end ASServicePrivate

/-! ### eventloop.cpp: event listeners -/

namespace EventLoopPrivate

/-- `EventLoopPrivate::EventListener`: the event type listened for (negative: all
events) and the callback, named by a number. -/
structure EventListener where
  eventType : Int
  callback : Nat
deriving Repr, DecidableEq

/-- What a listener callback does to the reactor while it runs: the calls it
makes to `removeEventListener` and `addEventListener`, in order. -/
inductive ListenerCall where
  | removeEventListener (tag : Int)
  | addEventListener (eventType : Int) (callback : Nat)
deriving Repr, DecidableEq

/-- The members of `EventLoopPrivate` behind the event listeners.
`m_removedListenersSet` is a `std::set<int>` (ascending, no duplicates),
`m_listenersMap` a `std::map<int, EventListener>`.  `invoked` is a ghost record
of the listener callbacks called so far, oldest first: the tag of the listener
and its callback.  The `int` tag counter is an `Int`: it starts between 1000 and
1999 and signed overflow is undefined in C++. -/
structure Listeners where
  m_withinEventHandler : Int
  m_removedListenersSet : List Int
  m_listenersTag : Int
  m_listenersMap : StdMap Int EventListener
  invoked : List (Int × Nat)
deriving Repr, DecidableEq

/-- `std::set<int>::insert`. -/
def setInsert : List Int → Int → List Int
  | [], k => [k]
  | x :: xs, k =>
    if k < x then k :: x :: xs
    else if x < k then x :: setInsert xs k
    else x :: xs

/-- The iterator that follows the entry with key `k` in a `std::map`: the first
key greater than `k`, `none` for `end()`. -/
def nextKey {V : Type} : StdMap Int V → Int → Option Int
  | [], _ => none
  | e :: rest, k => if k < e.1 then some e.1 else nextKey rest k

/-- `m.begin()`: the least key, `none` for `end()`. -/
def beginKey {V : Type} : StdMap Int V → Option Int
  | [] => none
  | e :: _ => some e.1

namespace Listeners

/-- The listener members as the constructor `EventLoopPrivate()` leaves them;
`rand` is the value `rand()` returned. -/
def construct (rand : Nat) : Listeners :=
  { m_withinEventHandler := 0, m_removedListenersSet := [],
    m_listenersTag := 1000 + (rand % 1000 : Nat), m_listenersMap := [], invoked := [] }

/-- `EventLoopPrivate::addEventListener`: `tag = m_listenersTag++`, then
`m_listenersMap.emplace(tag, EventListener(eventType, func))`; returns the tag. -/
def addEventListener (self : Listeners) (eventType : Int) (func : Nat) : Int × Listeners :=
  let tag := self.m_listenersTag
  (tag, { self with
    m_listenersTag := self.m_listenersTag + 1,
    m_listenersMap := StdMap.emplace self.m_listenersMap tag ⟨eventType, func⟩ })

/-- `EventLoopPrivate::removeEventListener`: inside an event handler
(`m_withinEventHandler > 0`) the tag goes into `m_removedListenersSet`,
otherwise the entry is erased from `m_listenersMap`. -/
def removeEventListener (self : Listeners) (tag : Int) : Listeners :=
  if 0 < self.m_withinEventHandler then
    { self with m_removedListenersSet := setInsert self.m_removedListenersSet tag }
  else
    { self with m_listenersMap := StdMap.erase self.m_listenersMap tag }

/-- The reactor calls a callback makes, carried out in order. -/
def runCalls (self : Listeners) : List ListenerCall → Listeners
  | [] => self
  | ListenerCall.removeEventListener tag :: rest =>
    runCalls (self.removeEventListener tag) rest
  | ListenerCall.addEventListener eventType func :: rest =>
    runCalls (self.addEventListener eventType func).2 rest

/-- The loop `while (it != m_listenersMap.end())` of the lambda in `emitEvent`,
with the iterator `it` given by the key it points at.  An entry whose tag is in
`m_removedListenersSet` is erased (`it = m_listenersMap.erase(it)`); any other
entry has its callback called when `eventType < 0` or `eventType` is the type of
the event, and then `++it`.  `calls cb type` are the reactor calls that callback
`cb` makes when called with an event of that type.  `none`: the iterator points
at no entry of the map (dereferencing it is undefined, and so is `++it` when the
callback has had the entry erased), or the fuel ran out. -/
def walk (calls : Nat → Int → List ListenerCall) (type : Int) :
    Nat → Option Int → Listeners → Option Listeners
  | _, none, self => some self
  | 0, some _, _ => none
  | fuel + 1, some k, self =>
    match StdMap.find self.m_listenersMap k with
    | none => none
    | some listener =>
      if k ∈ self.m_removedListenersSet then
        walk calls type fuel (nextKey self.m_listenersMap k)
          { self with m_listenersMap := StdMap.erase self.m_listenersMap k }
      else
        let self1 :=
          if listener.eventType < 0 ∨ listener.eventType = type then
            runCalls { self with invoked := self.invoked ++ [(k, listener.callback)] }
              (calls listener.callback type)
          else self
        match StdMap.find self1.m_listenersMap k with
        | none => none
        | some _ => walk calls type fuel (nextKey self1.m_listenersMap k) self1

/-- `callListenersLambda` of `EventLoopPrivate::emitEvent` for an event of type
`type`: `m_withinEventHandler++`, the walk over `m_listenersMap`,
`m_withinEventHandler--`, and, when `m_removedListenersSet` is not empty, the
erasure of every tag in it from the map followed by `clear()`. -/
def callListenersLambda (calls : Nat → Int → List ListenerCall) (fuel : Nat) (type : Int)
    (self : Listeners) : Option Listeners :=
  let self1 := { self with m_withinEventHandler := self.m_withinEventHandler + 1 }
  match walk calls type fuel (beginKey self1.m_listenersMap) self1 with
  | none => none
  | some self2 =>
    let self3 := { self2 with m_withinEventHandler := self2.m_withinEventHandler - 1 }
    if !self3.m_removedListenersSet.isEmpty then
      some { self3 with
        m_listenersMap := self3.m_removedListenersSet.foldl StdMap.erase self3.m_listenersMap,
        m_removedListenersSet := [] }
    else some self3

/-- The listeners an event of type `type` is for, as (tag, callback), in the
order of the map. -/
def matching (m : StdMap Int EventListener) (type : Int) : List (Int × Nat) :=
  (List.filter (fun (e : Int × EventListener) =>
    decide (e.2.eventType < 0 ∨ e.2.eventType = type)) m).map (fun e => (e.1, e.2.callback))

end Listeners

end EventLoopPrivate

/-! ### eventloop.cpp: timers, I/O handlers and signal handlers -/

namespace EventLoopPrivate

/-- The `enabled` state of an sd-event source. -/
inductive SdEnabled where
  | SD_EVENT_OFF
  | SD_EVENT_ON
  | SD_EVENT_ONESHOT
deriving Repr, DecidableEq

/-- What an sd-event source waits for: a time (absolute, `CLOCK_MONOTONIC`,
microseconds), readiness of a file descriptor for an `epoll` interest mask, or a
unix signal. -/
inductive SdKind where
  | time (usec : Nat)
  | io (fd : Int) (events : Nat)
  | signal (sig : Int)
deriving Repr, DecidableEq

/-- An `sd_event_source` as the library keeps it. -/
structure SdSource where
  kind : SdKind
  enabled : SdEnabled
deriving Repr, DecidableEq

/-- The `sd_event` object `m_loop`: its sources, each named by a number (its
address), and the name the next source created gets, so that a new source is
never confused with one created before.  Releasing a source
(`sd_event_source_unref` in the destructors of the source records) is not
modelled: the state of a source stays readable. -/
structure SdEvent where
  sources : StdMap Nat SdSource
  next : Nat
deriving Repr, DecidableEq

namespace SdEvent

/-- The common part of `sd_event_add_time`, `sd_event_add_io` and
`sd_event_add_signal`: `created` false is a negative return code or a null
source. -/
def addSource (ev : SdEvent) (created : Bool) (src : SdSource) : Option Nat × SdEvent :=
  if created then
    (some ev.next, { sources := StdMap.assign ev.sources ev.next src, next := ev.next + 1 })
  else (none, ev)

/-- `sd_event_add_time`: a new time source is enabled as `SD_EVENT_ONESHOT`. -/
def sd_event_add_time (ev : SdEvent) (created : Bool) (usec : Nat) : Option Nat × SdEvent :=
  ev.addSource created ⟨SdKind.time usec, SdEnabled.SD_EVENT_ONESHOT⟩

/-- `sd_event_add_io`: a new I/O source is enabled as `SD_EVENT_ON`. -/
def sd_event_add_io (ev : SdEvent) (created : Bool) (fd : Int) (events : Nat) :
    Option Nat × SdEvent :=
  ev.addSource created ⟨SdKind.io fd events, SdEnabled.SD_EVENT_ON⟩

/-- `sd_event_add_signal`: a new signal source is enabled as `SD_EVENT_ON`. -/
def sd_event_add_signal (ev : SdEvent) (created : Bool) (sig : Int) : Option Nat × SdEvent :=
  ev.addSource created ⟨SdKind.signal sig, SdEnabled.SD_EVENT_ON⟩

/-- `sd_event_source_set_enabled`. -/
def sd_event_source_set_enabled (ev : SdEvent) (source : Nat) (enabled : SdEnabled) :
    SdEvent :=
  match StdMap.find ev.sources source with
  | none => ev
  | some x => { ev with sources := StdMap.assign ev.sources source { x with enabled := enabled } }

/-- `sd_event_source_get_enabled`: the return code and the value stored through
the out-parameter.  For a known source the code is 0 when the source is off and
positive when it is enabled (libsystemd since version 246); for an unknown
source the code is `-EINVAL` and the out-parameter is left as it was,
`SD_EVENT_OFF`. -/
def sd_event_source_get_enabled (ev : SdEvent) (source : Nat) : Int × SdEnabled :=
  match StdMap.find ev.sources source with
  | none => (-22, SdEnabled.SD_EVENT_OFF)
  | some x => (if x.enabled = SdEnabled.SD_EVENT_OFF then 0 else 1, x.enabled)

/-- `sd_event_source_set_time`. -/
def sd_event_source_set_time (ev : SdEvent) (source : Nat) (usec : Nat) : SdEvent :=
  match StdMap.find ev.sources source with
  | none => ev
  | some x => { ev with sources := StdMap.assign ev.sources source { x with kind := SdKind.time usec } }

end SdEvent

/-- `EventLoopPrivate::TimerSource`; the callback is named by a number, `none` is
an empty `std::function`. -/
structure TimerSource where
  source : Nat
  callback : Option Nat
  interval : Int
deriving Repr, DecidableEq

/-- `EventLoopPrivate::IOSource`. -/
structure IOSource where
  source : Nat
  callback : Option Nat
deriving Repr, DecidableEq

/-- `EventLoopPrivate::SignalSource`. -/
structure SignalSource where
  source : Nat
  callback : Option Nat
  signalNum : Int
deriving Repr, DecidableEq

/-- What a timer callback does to the reactor while it runs: the calls it makes
to `removeTimer` and `addTimer`, in order (`created`: whether the library
creates the new time source). -/
inductive TimerCall where
  | removeTimer (tag : Int)
  | addTimer (timeout : Int) (oneShot : Bool) (func : Option Nat) (created : Bool)
deriving Repr, DecidableEq

/-- A closure that `callOnEventLoopThread` hands to `invokeMethod`: the
`wrapperLambda` around one of the six lambdas of the registration and removal
functions, named by the lambda it wraps and the values that lambda works with
(`now`: the value `sd_event_now` gives the lambda when it runs; `created`:
whether the library creates the source then). -/
inductive SourceMethod where
  | installTimer (now : Nat) (timeout : Int) (oneShot : Bool) (func : Option Nat)
      (created : Bool)
  | removeTimer (tag : Int)
  | installIO (fd : Int) (events : Nat) (func : Option Nat) (created : Bool)
  | removeIO (tag : Int)
  | installSignal (signal : Int) (func : Option Nat) (created : Bool)
  | removeSignal (tag : Int)
deriving Repr, DecidableEq

/-- The members of `EventLoopPrivate` behind the tag-based timers, I/O handlers
and signal handlers.  `timerCalls` is a ghost record of the timer callbacks
called so far, oldest first: the tag passed and the callback.  The `int` tag
counters are `Int`: they start between 1000 and 3999 and signed overflow is
undefined in C++.  `m_methods` is the queue of deferred closures, front first,
as far as `callOnEventLoopThread` fills it. -/
structure Sources where
  m_loop : SdEvent
  m_timerTag : Int
  m_timerMap : StdMap Int TimerSource
  m_ioTag : Int
  m_ioMap : StdMap Int IOSource
  m_signalTag : Int
  m_signalMap : StdMap Int SignalSource
  timerCalls : List (Int × Nat)
  m_methods : List SourceMethod
deriving Repr, DecidableEq

/-- The value of a bit of a mask: `mask & bit` is non-zero, for `bit` a power of
two. -/
def hasBit (mask bit : Nat) : Bool :=
  decide ((mask / bit) % 2 = 1)

/-- `EPOLLIN`. -/
def EPOLLIN : Nat := 1

/-- `EPOLLOUT`. -/
def EPOLLOUT : Nat := 4

/-- `EventLoop::ReadableEvent`. -/
def ReadableEvent : Nat := 1

/-- `EventLoop::WritableEvent`. -/
def WritableEvent : Nat := 2

/-- The `uint64_t` arithmetic `expiry = now; expiry += delta.count()` on the
microsecond clock. -/
def expiryAfter (now : Nat) (delta : Int) : Nat :=
  (((now : Int) + delta) % 18446744073709551616).toNat

namespace Sources

/-- The source members as the constructor `EventLoopPrivate()` leaves them, with
the three values `rand()` returned for the timer, I/O and signal tags. -/
def construct (r1 r2 r3 : Nat) : Sources :=
  { m_loop := { sources := [], next := 0 },
    m_timerTag := 1000 + (r1 % 1000 : Nat), m_timerMap := [],
    m_ioTag := 2000 + (r2 % 1000 : Nat), m_ioMap := [],
    m_signalTag := 3000 + (r3 % 1000 : Nat), m_signalMap := [],
    timerCalls := [], m_methods := [] }

/-- `installTimerLambda` of `EventLoopPrivate::addTimer(timeout, oneShot, func)`,
acting on the local `tag` and the members.  `now` is the value of
`sd_event_now`; the expiry is a `uint64_t`. -/
def installTimerLambda (now : Nat) (timeout : Int) (oneShot : Bool) (func : Option Nat)
    (created : Bool) (st : Int × Sources) : Int × Sources :=
  let expiry := expiryAfter now timeout
  match st.2.m_loop.sd_event_add_time created expiry with
  | (none, _) => st
  | (some source, loop1) =>
    let tag := st.2.m_timerTag
    let loop2 := loop1.sd_event_source_set_enabled source
      (if oneShot then SdEnabled.SD_EVENT_ONESHOT else SdEnabled.SD_EVENT_ON)
    (tag, { st.2 with
      m_loop := loop2,
      m_timerTag := st.2.m_timerTag + 1,
      m_timerMap := StdMap.emplace st.2.m_timerMap tag ⟨source, func, timeout⟩ })

/-- `removeTimerLambda` of `EventLoopPrivate::removeTimer`. -/
def removeTimerLambda (tag : Int) (self : Sources) : Sources :=
  match StdMap.find self.m_timerMap tag with
  | none => self
  | some timer =>
    { self with
      m_loop := self.m_loop.sd_event_source_set_enabled timer.source SdEnabled.SD_EVENT_OFF,
      m_timerMap := StdMap.erase self.m_timerMap tag }

/-- `installIOLambda` of `EventLoopPrivate::addIoHandler`: the events flags are
converted to `EPOLLIN` and `EPOLLOUT`. -/
def installIOLambda (fd : Int) (events : Nat) (func : Option Nat) (created : Bool)
    (st : Int × Sources) : Int × Sources :=
  let revents := (if hasBit events ReadableEvent then EPOLLIN else 0) +
    (if hasBit events WritableEvent then EPOLLOUT else 0)
  match st.2.m_loop.sd_event_add_io created fd revents with
  | (none, _) => st
  | (some source, loop1) =>
    let tag := st.2.m_ioTag
    (tag, { st.2 with
      m_loop := loop1,
      m_ioTag := st.2.m_ioTag + 1,
      m_ioMap := StdMap.emplace st.2.m_ioMap tag ⟨source, func⟩ })

/-- `removeIOLambda` of `EventLoopPrivate::removeIoHandler`. -/
def removeIOLambda (tag : Int) (self : Sources) : Sources :=
  match StdMap.find self.m_ioMap tag with
  | none => self
  | some io =>
    { self with
      m_loop := self.m_loop.sd_event_source_set_enabled io.source SdEnabled.SD_EVENT_OFF,
      m_ioMap := StdMap.erase self.m_ioMap tag }

/-- `installSignalLambda` of `EventLoopPrivate::addSignalHandler`. -/
def installSignalLambda (signal : Int) (func : Option Nat) (created : Bool)
    (st : Int × Sources) : Int × Sources :=
  match st.2.m_loop.sd_event_add_signal created signal with
  | (none, _) => st
  | (some source, loop1) =>
    let tag := st.2.m_signalTag
    (tag, { st.2 with
      m_loop := loop1,
      m_signalTag := st.2.m_signalTag + 1,
      m_signalMap := StdMap.emplace st.2.m_signalMap tag ⟨source, func, signal⟩ })

/-- `removeSignalLambda` of `EventLoopPrivate::removeSignalHandler`. -/
def removeSignalLambda (tag : Int) (self : Sources) : Sources :=
  match StdMap.find self.m_signalMap tag with
  | none => self
  | some sig =>
    { self with
      m_loop := self.m_loop.sd_event_source_set_enabled sig.source SdEnabled.SD_EVENT_OFF,
      m_signalMap := StdMap.erase self.m_signalMap tag }

/-- Calling the lambda a closure wraps.  `st` is the local variable `tag` of the
function that made the lambda, which the install lambdas capture by reference
and store the new tag in, and the members. -/
def call : SourceMethod → Int × Sources → Int × Sources
  | SourceMethod.installTimer now timeout oneShot func created, st =>
    installTimerLambda now timeout oneShot func created st
  | SourceMethod.removeTimer tag, st => (st.1, removeTimerLambda tag st.2)
  | SourceMethod.installIO fd events func created, st =>
    installIOLambda fd events func created st
  | SourceMethod.removeIO tag, st => (st.1, removeIOLambda tag st.2)
  | SourceMethod.installSignal signal func created, st =>
    installSignalLambda signal func created st
  | SourceMethod.removeSignal tag, st => (st.1, removeSignalLambda tag st.2)

/-- `EventLoopPrivate::invokeMethod(func)`: the closure is pushed at the back of
`m_methods`, then the eventfd is written to; `wrote` says whether that `write`
returned `sizeof(wake)` and is the return value.  The closure is queued in both
cases. -/
def invokeMethod (self : Sources) (func : SourceMethod) (wrote : Bool) : Bool × Sources :=
  let self1 := { self with m_methods := self.m_methods ++ [func] }
  if !wrote then (false, self1) else (true, self1)

/-- The loop of `EventLoopPrivate::executeAllMethods` over the closures `queue`
holds: the front closure is popped and called, until the queue is empty.  The
wrapped lambdas queue nothing themselves.  A closure run here was queued by a
call of `callOnEventLoopThread` that has returned without waiting for it: the
local `tag` its lambda stores into is no longer there, so what it stores is
lost (the stale local is given as -1). -/
def runMethods : List SourceMethod → Sources → Sources
  | [], self => self
  | fn :: rest, self => runMethods rest (call fn (-1, { self with m_methods := rest })).2

/-- `EventLoopPrivate::executeAllMethods`, which the loop thread runs when the
eventfd was written to, and `exec` runs when the loop has ended. -/
def executeAllMethods (self : Sources) : Sources :=
  runMethods self.m_methods self

/-- `EventLoopPrivate::callOnEventLoopThread(func)`, for a lambda `func` of the
registration and removal functions; `st` is the local `tag` of the caller and
the members.  When the loop is not running (`m_isLoopExecing` false) or the
caller is on the loop thread, `func` is called directly.  Otherwise the wrapper
is handed to `invokeMethod`.  When that failed, the function returns false; the
wrapper stays in the queue.  When it succeeded, the caller waits on the
semaphore until the loop thread has called the wrapper: the loop thread drains
the queue, the closures queued earlier first, then the wrapper. -/
def callOnEventLoopThread (isLoopExecing : Bool) (ctx : CallCtx) (func : SourceMethod)
    (st : Int × Sources) : Bool × (Int × Sources) :=
  if !isLoopExecing then (true, call func st)
  else if ctx.onEventLoopThread then (true, call func st)
  else
    let r := invokeMethod st.2 func ctx.wrote
    if !r.1 then (false, (st.1, r.2))
    else (true, call func (st.1, executeAllMethods st.2))

/-- `EventLoopPrivate::addTimer(timeout, oneShot, func)`: `tag = -1`, the lambda
through `callOnEventLoopThread`, then `return tag`. -/
def addTimer (isLoopExecing : Bool) (ctx : CallCtx) (now : Nat) (self : Sources)
    (timeout : Int) (oneShot : Bool) (func : Option Nat) (created : Bool) : Int × Sources :=
  (callOnEventLoopThread isLoopExecing ctx
    (SourceMethod.installTimer now timeout oneShot func created) (-1, self)).2

/-- `EventLoopPrivate::removeTimer`. -/
def removeTimer (isLoopExecing : Bool) (ctx : CallCtx) (self : Sources) (tag : Int) :
    Sources :=
  (callOnEventLoopThread isLoopExecing ctx (SourceMethod.removeTimer tag) (tag, self)).2.2

/-- `EventLoopPrivate::addIoHandler`. -/
def addIoHandler (isLoopExecing : Bool) (ctx : CallCtx) (self : Sources) (fd : Int)
    (events : Nat) (func : Option Nat) (created : Bool) : Int × Sources :=
  (callOnEventLoopThread isLoopExecing ctx (SourceMethod.installIO fd events func created)
    (-1, self)).2

/-- `EventLoopPrivate::removeIoHandler`. -/
def removeIoHandler (isLoopExecing : Bool) (ctx : CallCtx) (self : Sources) (tag : Int) :
    Sources :=
  (callOnEventLoopThread isLoopExecing ctx (SourceMethod.removeIO tag) (tag, self)).2.2

/-- `EventLoopPrivate::addSignalHandler`. -/
def addSignalHandler (isLoopExecing : Bool) (ctx : CallCtx) (self : Sources) (signal : Int)
    (func : Option Nat) (created : Bool) : Int × Sources :=
  (callOnEventLoopThread isLoopExecing ctx (SourceMethod.installSignal signal func created)
    (-1, self)).2

/-- `EventLoopPrivate::removeSignalHandler`. -/
def removeSignalHandler (isLoopExecing : Bool) (ctx : CallCtx) (self : Sources) (tag : Int) :
    Sources :=
  (callOnEventLoopThread isLoopExecing ctx (SourceMethod.removeSignal tag) (tag, self)).2.2

/-- The reactor calls a timer callback makes, carried out in order.  The callback
runs on the loop thread, where `callOnEventLoopThread` calls the lambda
directly. -/
def runTimerCalls (now : Nat) (self : Sources) : List TimerCall → Sources
  | [] => self
  | TimerCall.removeTimer tag :: rest => runTimerCalls now (removeTimerLambda tag self) rest
  | TimerCall.addTimer timeout oneShot func created :: rest =>
    runTimerCalls now (installTimerLambda now timeout oneShot func created (-1, self)).2 rest

/-- `EventLoopPrivate::timerHandler(es, usec, userdata)`: the entry of
`m_timerMap` whose source is `es` is looked for; its callback is called with the
tag; then a timer that is still `SD_EVENT_ON` gets the expiry `now + interval`
(a `uint64_t`), and any other one is erased from `m_timerMap`.  `calls cb tag`
are the reactor calls callback `cb` makes when called with `tag`.  Returns the
return code and the members. -/
def timerHandler (calls : Nat → Int → List TimerCall) (now : Nat) (es : Nat)
    (self : Sources) : Int × Sources :=
  match List.find? (fun (e : Int × TimerSource) => decide (e.2.source = es)) self.m_timerMap with
  | none => (-1, self)
  | some it =>
    let tag := it.1
    let timer := it.2
    let self1 :=
      match timer.callback with
      | none => self
      | some cb =>
        runTimerCalls now { self with timerCalls := self.timerCalls ++ [(tag, cb)] }
          (calls cb tag)
    let r := self1.m_loop.sd_event_source_get_enabled es
    if r.1 < 0 then (r.1, self1)
    else if r.2 = SdEnabled.SD_EVENT_ON then
      let expiry := expiryAfter now timer.interval
      (0, { self1 with m_loop := self1.m_loop.sd_event_source_set_time es expiry })
    else
      (0, { self1 with m_timerMap := StdMap.erase self1.m_timerMap tag })

/-- The library dispatching the time source `es` when it has elapsed: a source
that is `SD_EVENT_ONESHOT` is switched to `SD_EVENT_OFF` first, then the handler
registered with `sd_event_add_time` is called.  A source that is off or unknown
is not dispatched. -/
def dispatchTime (calls : Nat → Int → List TimerCall) (now : Nat) (es : Nat)
    (self : Sources) : Int × Sources :=
  match StdMap.find self.m_loop.sources es with
  | none => (0, self)
  | some x =>
    match x.enabled with
    | SdEnabled.SD_EVENT_OFF => (0, self)
    | SdEnabled.SD_EVENT_ON => timerHandler calls now es self
    | SdEnabled.SD_EVENT_ONESHOT =>
      timerHandler calls now es
        { self with
          m_loop := self.m_loop.sd_event_source_set_enabled es SdEnabled.SD_EVENT_OFF }

/-- Tags are not negative and below their counter: what the constructor
establishes and registrations keep. -/
def TagsOk (self : Sources) : Prop :=
  (0 ≤ self.m_timerTag ∧ ∀ e ∈ self.m_timerMap, 0 ≤ e.1 ∧ e.1 < self.m_timerTag) ∧
  (0 ≤ self.m_ioTag ∧ ∀ e ∈ self.m_ioMap, 0 ≤ e.1 ∧ e.1 < self.m_ioTag) ∧
  (0 ≤ self.m_signalTag ∧ ∀ e ∈ self.m_signalMap, 0 ≤ e.1 ∧ e.1 < self.m_signalTag)

/-- The facts about a reactor and one of its time sources `es` that the calls of
a timer callback keep: the source is known to the library and keeps its state
`en` (any state when `en` is off, since no call switches a source on; otherwise
as long as the timer `tag` that owns it is not removed), and the timer map stays
well formed. -/
structure Keeps (es : Nat) (en : SdEnabled) (tag : Int) (timer : Option TimerSource)
    (s : Sources) : Prop where
  next : es < s.m_loop.next
  enabled : ∃ x, StdMap.find s.m_loop.sources es = some x ∧ x.enabled = en
  ordered : StdMap.Ordered s.m_timerMap
  below : ∀ e ∈ s.m_timerMap, e.1 < s.m_timerTag
  present : ∀ t, timer = some t → StdMap.find s.m_timerMap tag = some t
  owner : ∀ e ∈ s.m_timerMap, e.2.source = es → e.1 = tag

end Sources

end EventLoopPrivate

/-! ### asservice.cpp: match rules for signals -/

/-- `ASServicePrivate::MatchRule`: the tag and the `SignalCallback`, named by a
number (`none`: an empty `std::function`). -/
structure MatchRule where
  tag : Int
  callback : Option Nat
deriving Repr, DecidableEq

/-- The members of `ASServicePrivate` behind `registerForSignal`:
`mMatchTagCounter` and `mMatchSlots`, a
`std::unordered_map<sd_bus_slot*, MatchRule>` (slots named by numbers; entries
listed in insertion order, the functions below use the order only to pick the
entry with a given tag).  Ghost records: `rules`, the match strings the bus holds,
by slot, and `dispatched`, the callbacks called so far with the tag and the
message passed. -/
structure MatchState where
  mMatchTagCounter : Int
  mMatchSlots : List (Nat × MatchRule)
  rules : List (Nat × String)
  dispatched : List (Nat × Int × Nat)
deriving Repr, DecidableEq

/-- The closures `registerForSignal` and `unregisterForSignal` run on the loop
thread, with what they captured; `slot` is what `sd_bus_add_match` will give
(`none`: a negative return code or a null slot). -/
inductive MatchMethod where
  | register (tag : Int) (service path interface signalName extraArgs : String)
      (signalCallback : Option Nat) (slot : Option Nat)
  | unregister (tag : Int)
deriving Repr, DecidableEq

/-- The service with its event loop. -/
structure MatchWorld where
  service : MatchState
  loop : EventLoopPrivate MatchMethod
deriving Repr, DecidableEq

namespace MatchState

/-- The match rule string the lambda of `registerForSignal` builds. -/
def matchRule (service path interface signalName extraArgs : String) : String :=
  "type=\x27signal\x27" ++
  (if !service.isEmpty then ",sender=\x27" ++ service ++ "\x27" else "") ++
  (if !path.isEmpty then ",path=\x27" ++ path ++ "\x27" else "") ++
  (if !interface.isEmpty then ",interface=\x27" ++ interface ++ "\x27" else "") ++
  (if !signalName.isEmpty then ",member=\x27" ++ signalName ++ "\x27" else "") ++
  (if !extraArgs.isEmpty then "," ++ extraArgs else "")

/-- The lambda of `ASServicePrivate::registerForSignal`: `sd_bus_add_match`, and
on success `mMatchSlots.emplace(slot, MatchRule(tag, signalCallback))`. -/
def registerLambda (self : MatchState) (tag : Int)
    (service path interface signalName extraArgs : String) (signalCallback : Option Nat)
    (slot : Option Nat) : MatchState :=
  match slot with
  | none => self
  | some sl =>
    { self with
      mMatchSlots :=
        if self.mMatchSlots.any (fun e => decide (e.1 = sl)) then self.mMatchSlots
        else self.mMatchSlots ++ [(sl, ⟨tag, signalCallback⟩)],
      rules := self.rules ++ [(sl, matchRule service path interface signalName extraArgs)] }

/-- The lambda of `ASServicePrivate::unregisterForSignal`: the entry whose rule
has the tag is looked for; its slot is released (which removes the match rule
from the bus) and the entry erased. -/
def unregisterLambda (self : MatchState) (tag : Int) : MatchState :=
  match List.find? (fun (e : Nat × MatchRule) => decide (e.2.tag = tag)) self.mMatchSlots with
  | none => self
  | some it =>
    { self with
      mMatchSlots := List.filter (fun e => !decide (e.1 = it.1)) self.mMatchSlots,
      rules := List.filter (fun r => !decide (r.1 = it.1)) self.rules }

/-- `ASServicePrivate::onRuleMatch`: `slot` is `sd_bus_get_current_slot`; the
callback of the rule stored for the slot is called with the tag of the rule and
the message. -/
def onRuleMatch (self : MatchState) (slot : Option Nat) (msg : Nat) : Int × MatchState :=
  match slot with
  | none => (-1, self)
  | some sl =>
    match List.find? (fun (e : Nat × MatchRule) => decide (e.1 = sl)) self.mMatchSlots with
    | none => (-1, self)
    | some it =>
      match it.2.callback with
      | none => (0, self)
      | some cb => (0, { self with dispatched := self.dispatched ++ [(cb, it.2.tag, msg)] })

/-- Calling a queued closure. -/
def runMethod (fn : MatchMethod) (self : MatchState) : MatchState × List (Option MatchMethod) :=
  match fn with
  | MatchMethod.register tag service path interface signalName extraArgs cb slot =>
    (self.registerLambda tag service path interface signalName extraArgs cb slot, [])
  | MatchMethod.unregister tag => (self.unregisterLambda tag, [])

end MatchState

namespace ASServicePrivate

/-- `ASServicePrivate::registerForSignal`: `tag = ++mMatchTagCounter`; the lambda
is called directly on the loop thread and handed to `invokeMethod` otherwise;
`return tag`. -/
def registerForSignal (ctx : CallCtx) (w : MatchWorld)
    (service path interface signalName extraArgs : String) (signalCallback : Option Nat)
    (slot : Option Nat) : Int × MatchWorld :=
  let tag := w.service.mMatchTagCounter + 1
  let self1 := { w.service with mMatchTagCounter := tag }
  if ctx.onEventLoopThread then
    (tag, { w with service :=
      self1.registerLambda tag service path interface signalName extraArgs signalCallback slot })
  else
    (tag, { service := self1,
            loop := (w.loop.invokeMethod (some (MatchMethod.register tag service path interface
              signalName extraArgs signalCallback slot)) ctx.wrote).2 })

/-- `ASServicePrivate::unregisterForSignal`: the lambda is called directly on the
loop thread and handed to `invokeMethod` otherwise; `return 0`. -/
def unregisterForSignal (ctx : CallCtx) (w : MatchWorld) (tag : Int) : Int × MatchWorld :=
  if ctx.onEventLoopThread then
    (0, { w with service := w.service.unregisterLambda tag })
  else
    (0, { w with loop := (w.loop.invokeMethod (some (MatchMethod.unregister tag)) ctx.wrote).2 })

end ASServicePrivate

namespace ASService

/-- `ASService::registerForSignal`: the body is the single expression statement
`m_private->registerForSignal(...)`; there is no `return`, so the function, which
is declared to return `int`, hands no value to its caller (`none`). -/
def registerForSignal (ctx : CallCtx) (w : MatchWorld)
    (service path interface signalName extraArgs : String) (signalCallback : Option Nat)
    (slot : Option Nat) : Option Int × MatchWorld :=
  (none, (ASServicePrivate.registerForSignal ctx w service path interface signalName extraArgs
    signalCallback slot).2)

/-- `ASService::unregisterForSignal`: likewise a call of the private function
without a `return`. -/
def unregisterForSignal (ctx : CallCtx) (w : MatchWorld) (tag : Int) : Option Int × MatchWorld :=
  (none, (ASServicePrivate.unregisterForSignal ctx w tag).2)

end ASService

/-- The match members as the constructor of `ASServicePrivate` leaves them, with
an idle loop. -/
def MatchWorld.init : MatchWorld :=
  { service := { mMatchTagCounter := 0, mMatchSlots := [], rules := [], dispatched := [] },
    loop := { m_methods := [] } }

/-! ### dbusconnection.cpp: the timeout handed to the bus -/

/-- The value an `int` expression takes when its mathematical value is `x`: `x`
itself when it fits into 32 bits.  Signed overflow is undefined in C++; outside
that range the model takes the two's complement value the multiplication
leaves in the register. -/
def toInt32 (x : Int) : Int :=
  Int.bmod x 4294967296

/-- The conversion of a signed integer to `uint64_t`. -/
def toUInt64 (x : Int) : Nat :=
  (x % 18446744073709551616).toNat

/-- `DBUS_DEFAULT_TIMEOUT_USEC`, defined as `(25 * 1000 * 1000)`. -/
def DBUS_DEFAULT_TIMEOUT_USEC : Int :=
  25 * 1000 * 1000

namespace DBusConnection

/-- The timeout `DBusConnection::call` hands to `sd_bus_call` on the loop thread:
`uint64_t timeout; if (msTimeout >= 0) timeout = msTimeout * 1000; else timeout =
DBUS_DEFAULT_TIMEOUT_USEC;`.  `msTimeout` is an `int`, so the product is an `int`
product, converted to `uint64_t` afterwards.  On another thread `call` passes
`msTimeout` on to `callWithCallback`. -/
def callTimeout (msTimeout : Int) : Nat :=
  if msTimeout ≥ 0 then toUInt64 (toInt32 (msTimeout * 1000))
  else toUInt64 DBUS_DEFAULT_TIMEOUT_USEC

end DBusConnection

namespace DBusConnectionPrivate

/-- The timeout `DBusConnectionPrivate::callWithCallback` captures for
`sd_bus_call_async`: the same conversion, written out there a second time. -/
def callWithCallbackTimeout (msTimeout : Int) : Nat :=
  if msTimeout ≥ 0 then toUInt64 (toInt32 (msTimeout * 1000))
  else toUInt64 DBUS_DEFAULT_TIMEOUT_USEC

end DBusConnectionPrivate

/-! ### safesemaphore_p.h: the deadline of a timed wait -/

/-- A `struct timespec`. -/
structure timespec where
  tv_sec : Int
  tv_nsec : Int
deriving Repr, DecidableEq

namespace SafeSemaphore

/-- The deadline `SafeSemaphore::wait(timeoutMs)` hands to
`pthread_cond_timedwait`, from the value `now` of
`clock_gettime(CLOCK_MONOTONIC)`; `none` for a negative `timeoutMs`, where the
wait is not timed.  `/` and `%` on `int` truncate towards zero. -/
def waitDeadline (now : timespec) (timeoutMs : Int) : Option timespec :=
  if timeoutMs < 0 then none
  else
    let ts1 : timespec :=
      { tv_sec := now.tv_sec + Int.tdiv timeoutMs 1000,
        tv_nsec := now.tv_nsec + Int.tmod timeoutMs 1000 * 1000000 }
    if ts1.tv_nsec > 1000000000 then
      some { tv_sec := ts1.tv_sec + 1, tv_nsec := ts1.tv_nsec - 1000000000 }
    else some ts1

/-- The instant a `timespec` denotes, in nanoseconds. -/
def nanoseconds (ts : timespec) : Int :=
  ts.tv_sec * 1000000000 + ts.tv_nsec

end SafeSemaphore

/-! ### eventloop.cpp and ionotifier.cpp: I/O event masks and notifiers -/

namespace EventLoopPrivate

/-- `EPOLLERR`. -/
def EPOLLERR : Nat := 8

/-- `EPOLLHUP`. -/
def EPOLLHUP : Nat := 16

/-- `EventLoop::ErrorEvent`. -/
def ErrorEvent : Nat := 4

/-- `EventLoop::UpdateEvent`. -/
def UpdateEvent : Nat := 8

/-- `sd_event_source_set_io_events`: the interest mask of an I/O source is
replaced; other sources are left alone. -/
def SdEvent.sd_event_source_set_io_events (ev : SdEvent) (source : Nat) (events : Nat) :
    SdEvent :=
  match StdMap.find ev.sources source with
  | none => ev
  | some x =>
    match x.kind with
    | SdKind.io fd _ =>
      { ev with sources := StdMap.assign ev.sources source { x with kind := SdKind.io fd events } }
    | _ => ev

namespace Sources

/-- The conversion of the events in `EventLoopPrivate::ioHandler`: `events`
starts as 0 and gets one bit per `if (revents & EPOLL...)`. -/
def ioHandlerEvents (revents : Nat) : Nat :=
  (if hasBit revents EPOLLIN then ReadableEvent else 0) |||
  (if hasBit revents EPOLLOUT then WritableEvent else 0) |||
  (if hasBit revents EPOLLERR then ErrorEvent else 0) |||
  (if hasBit revents EPOLLHUP then UpdateEvent else 0)

/-- `EventLoopPrivate::ioHandler(es, fd, revents, userdata)`: the entry of
`m_ioMap` whose source is `es` is looked for and its callback, if set, is called
with the converted events.  Returns the return code and the call made: the
callback and its argument. -/
def ioHandler (self : Sources) (es : Nat) (revents : Nat) : Int × Option (Nat × Nat) :=
  match List.find? (fun (e : Int × IOSource) => decide (e.2.source = es)) self.m_ioMap with
  | none => (-1, none)
  | some it =>
    match it.2.callback with
    | none => (0, none)
    | some cb => (0, some (cb, ioHandlerEvents revents))

end Sources

end EventLoopPrivate

namespace IONotifier

/-- `IONotifier::ReadableEvent`. -/
def ReadableEvent : Nat := 1

/-- `IONotifier::WritableEvent`. -/
def WritableEvent : Nat := 2

/-- `IONotifier::ErrorEvent`. -/
def ErrorEvent : Nat := 4

/-- `IONotifier::UpdateEvent`. -/
def UpdateEvent : Nat := 8

end IONotifier

/-- The members of `IONotifierPrivate`: the callback (named by a number, `none`
is an empty function), the event source (`none` is `nullptr`), the descriptor
and the events mask as the client gave it. -/
structure IONotifierPrivate where
  m_callback : Option Nat
  m_source : Option Nat
  m_fd : Int
  m_events : Nat
deriving Repr, DecidableEq

namespace IONotifierPrivate

open EventLoopPrivate

/-- `IONotifierPrivate::convertToEPollEvents`. -/
def convertToEPollEvents (events : Nat) : Nat :=
  (if hasBit events IONotifier.ReadableEvent then EPOLLIN else 0) |||
  (if hasBit events IONotifier.WritableEvent then EPOLLOUT else 0) |||
  (if hasBit events IONotifier.ErrorEvent then EPOLLERR else 0) |||
  (if hasBit events IONotifier.UpdateEvent then EPOLLHUP else 0)

/-- `IONotifierPrivate::convertFromEPollEvents`. -/
def convertFromEPollEvents (events : Nat) : Nat :=
  (if hasBit events EPOLLIN then IONotifier.ReadableEvent else 0) |||
  (if hasBit events EPOLLOUT then IONotifier.WritableEvent else 0) |||
  (if hasBit events EPOLLERR then IONotifier.ErrorEvent else 0) |||
  (if hasBit events EPOLLHUP then IONotifier.UpdateEvent else 0)

/-- `IONotifierPrivate::handler(source, fd, revents, userData)`: a positive code
from `sd_event_source_get_enabled` ends it with -1; a source or descriptor that
is not the notifier's ends it with 0; otherwise the callback, if set, is called
with the converted events.  Returns the return code and the call made. -/
def handler (ev : SdEvent) (self : IONotifierPrivate) (source : Nat) (fd : Int)
    (revents : Nat) : Int × Option (Nat × Nat) :=
  if (ev.sd_event_source_get_enabled source).1 > 0 then (-1, none)
  else if self.m_source ≠ some source ∨ self.m_fd ≠ fd then (0, none)
  else
    match self.m_callback with
    | none => (0, none)
    | some cb => (0, some (cb, convertFromEPollEvents revents))

/-- `IONotifierPrivate::setEvents`: `m_events = events`, then
`sd_event_source_set_io_events(m_source, convertToEPollEvents(events))`. -/
def setEvents (ev : SdEvent) (self : IONotifierPrivate) (events : Nat) :
    IONotifierPrivate × SdEvent :=
  ({ self with m_events := events },
    match self.m_source with
    | none => ev
    | some source => ev.sd_event_source_set_io_events source (convertToEPollEvents events))

end IONotifierPrivate

namespace EventLoopPrivate

/-- `EventLoopPrivate::createIONotifier(fd, events, func)`: a notifier object is
made from the arguments, the source is created with
`sd_event_add_io(m_loop, &source, fd, events, ...)` and given to the notifier;
`none` is the `nullptr` returned when the source cannot be created. -/
def createIONotifier (ev : SdEvent) (created : Bool) (fd : Int) (events : Nat)
    (func : Option Nat) : Option IONotifierPrivate × SdEvent :=
  let io : IONotifierPrivate :=
    { m_callback := func, m_source := none, m_fd := fd, m_events := events }
  match ev.sd_event_add_io created fd events with
  | (none, _) => (none, ev)
  | (some source, ev1) => (some { io with m_source := some source }, ev1)

/-- The interest mask the library holds for an I/O source. -/
def SdEvent.ioEvents (ev : SdEvent) (source : Nat) : Option Nat :=
  match StdMap.find ev.sources source with
  | some ⟨SdKind.io _ events, _⟩ => some events
  | _ => none

end EventLoopPrivate

/-! ### timer.cpp: `Timer` objects -/

/-- The members of `TimerPrivate`: the callback (named by a number, `none` is an
empty function), the event source (`none` is `nullptr`), the single-shot flag
and the interval in microseconds. -/
structure TimerPrivate where
  m_callback : Option Nat
  m_source : Option Nat
  m_oneShot : Bool
  m_interval : Int
deriving Repr, DecidableEq

namespace TimerPrivate

open EventLoopPrivate

/-- `TimerPrivate::handler(source, usec, userData)`: a positive code from
`sd_event_source_get_enabled` ends it with -1.  A single-shot timer is switched
off; any other gets the expiry `usec + m_interval.count()` (a `uint64_t`) and is
switched on again.  Then the callback, if set, is called.  Returns the return
code, the library state and the callback called. -/
def handler (ev : SdEvent) (self : TimerPrivate) (source : Nat) (usec : Nat) :
    Int × SdEvent × Option Nat :=
  if (ev.sd_event_source_get_enabled source).1 > 0 then (-1, ev, none)
  else
    let ev1 :=
      if self.m_oneShot then ev.sd_event_source_set_enabled source SdEnabled.SD_EVENT_OFF
      else
        match StdMap.find ev.sources source with
        | none => ev
        | some _ =>
          (ev.sd_event_source_set_time source (expiryAfter usec self.m_interval)).sd_event_source_set_enabled
            source SdEnabled.SD_EVENT_ON
    (0, ev1, self.m_callback)

/-- `TimerPrivate::start()`: the expiry is `sd_event_now` plus the interval; the
source is enabled as one-shot or repeating. -/
def start (ev : SdEvent) (now : Nat) (self : TimerPrivate) : SdEvent :=
  match self.m_source with
  | none => ev
  | some source =>
    (ev.sd_event_source_set_time source (expiryAfter now self.m_interval)).sd_event_source_set_enabled
      source (if self.m_oneShot then SdEnabled.SD_EVENT_ONESHOT else SdEnabled.SD_EVENT_ON)

/-- `TimerPrivate::stop()`. -/
def stop (ev : SdEvent) (self : TimerPrivate) : SdEvent :=
  match self.m_source with
  | none => ev
  | some source => ev.sd_event_source_set_enabled source SdEnabled.SD_EVENT_OFF

/-- `TimerPrivate::setInterval(value)`, `value` in milliseconds. -/
def setInterval (self : TimerPrivate) (value : Int) : TimerPrivate :=
  { self with m_interval := value * 1000 }

/-- `TimerPrivate::setSingleShot`. -/
def setSingleShot (self : TimerPrivate) (singleShot : Bool) : TimerPrivate :=
  { self with m_oneShot := singleShot }

/-- `TimerPrivate::start(value)`: `stop()`, the interval is set from the
milliseconds, `start()`. -/
def startWith (ev : SdEvent) (now : Nat) (self : TimerPrivate) (value : Int) :
    TimerPrivate × SdEvent :=
  let self1 := { self with m_interval := value * 1000 }
  (self1, start (stop ev self) now self1)

/-- The library dispatching the time source of a `Timer` object when it has
elapsed: a source that is `SD_EVENT_ONESHOT` is switched to `SD_EVENT_OFF`
first, then the handler is called with the time the source was set to elapse
at as its `usec` argument.  A source that is off, unknown or not a time source
is not dispatched.  The result is what the handler returned and left; what the
library does with the code afterwards is not followed. -/
def dispatch (ev : SdEvent) (self : TimerPrivate) (source : Nat) : Int × SdEvent × Option Nat :=
  match StdMap.find ev.sources source with
  | some ⟨SdKind.time usec, SdEnabled.SD_EVENT_ON⟩ => handler ev self source usec
  | some ⟨SdKind.time usec, SdEnabled.SD_EVENT_ONESHOT⟩ =>
    handler (ev.sd_event_source_set_enabled source SdEnabled.SD_EVENT_OFF) self source usec
  | _ => (0, ev, none)

end TimerPrivate

namespace EventLoopPrivate

/-- `UINT64_MAX`. -/
def UINT64_MAX : Nat := 18446744073709551615

/-- `EventLoopPrivate::createTimer(func)`: a stopped single-shot timer with
interval 0; its source is created with expiry `UINT64_MAX` and switched off.
`none` is the `nullptr` returned when the source cannot be created. -/
def createTimer (ev : SdEvent) (created : Bool) (func : Option Nat) :
    Option TimerPrivate × SdEvent :=
  let timer : TimerPrivate :=
    { m_callback := func, m_source := none, m_oneShot := true, m_interval := 0 }
  match ev.sd_event_add_time created UINT64_MAX with
  | (none, _) => (none, ev)
  | (some source, ev1) =>
    (some { timer with m_source := some source },
      ev1.sd_event_source_set_enabled source SdEnabled.SD_EVENT_OFF)

/-- The expiry the library holds for a time source. -/
def SdEvent.expiry (ev : SdEvent) (source : Nat) : Option Nat :=
  match StdMap.find ev.sources source with
  | some ⟨SdKind.time usec, _⟩ => some usec
  | _ => none

end EventLoopPrivate

/-! ### eventloop.cpp: nested event dispatch -/

namespace EventLoopPrivate

/-- What a listener callback does to the reactor while it runs, for callbacks
that may emit events themselves: the calls it makes to `removeEventListener`,
`addEventListener` and `emitEvent(event, false)`, in order.  The callback runs
on the loop thread, where `callOnEventLoopThread` calls the lambda of
`emitEvent` directly. -/
inductive NestedCall where
  | removeEventListener (tag : Int)
  | addEventListener (eventType : Int) (callback : Nat)
  | emitEvent (type : Int)
deriving Repr, DecidableEq

/-- An activation of the lambda of `emitEvent` that has not returned yet, with
the type of its event: either it is at the test of its `while` loop with the
iterator `it` (`none` is `end()`), or it is inside the callback of the entry
`it` points at, which still has the calls `rest` to make. -/
inductive Frame where
  | walking (type : Int) (it : Option Int)
  | inCallback (type : Int) (it : Int) (rest : List NestedCall)
deriving Repr, DecidableEq

/-- The listener members together with the activations in progress, innermost
first.  `erased` is a ghost record of the entries erased from `m_listenersMap`
by the lambda, oldest first: the tag and the value `m_withinEventHandler` has
after the erasing step. -/
structure Dispatch where
  listeners : Listeners
  stack : List Frame
  erased : List (Int × Int)
deriving Repr, DecidableEq

namespace Dispatch

/-- `emitEvent(event, false)` on the loop thread, up to the start of the walk: the
lambda is entered, `m_withinEventHandler++`, `it = m_listenersMap.begin()`. -/
def emitEvent (d : Dispatch) (type : Int) : Dispatch :=
  { d with
    listeners :=
      { d.listeners with m_withinEventHandler := d.listeners.m_withinEventHandler + 1 },
    stack := Frame.walking type (beginKey d.listeners.m_listenersMap) :: d.stack }

/-- `m_listenersMap.erase(tag)` with its ghost record. -/
def eraseTag (d : Dispatch) (tag : Int) : Dispatch :=
  match StdMap.find d.listeners.m_listenersMap tag with
  | none => d
  | some _ =>
    { d with
      listeners :=
        { d.listeners with m_listenersMap := StdMap.erase d.listeners.m_listenersMap tag },
      erased := d.erased ++ [(tag, d.listeners.m_withinEventHandler)] }

/-- The end of the lambda, after the walk: `m_withinEventHandler--`, and when
`m_removedListenersSet` is not empty every tag in it is erased from the map and
the set cleared. -/
def finish (d : Dispatch) : Dispatch :=
  let d1 := { d with
    listeners :=
      { d.listeners with m_withinEventHandler := d.listeners.m_withinEventHandler - 1 } }
  if !d1.listeners.m_removedListenersSet.isEmpty then
    let d2 := d1.listeners.m_removedListenersSet.foldl eraseTag d1
    { d2 with listeners := { d2.listeners with m_removedListenersSet := [] } }
  else d1

/-- One step of the innermost activation.  `calls cb type` are the calls
callback `cb` makes when called with an event of that type.  `none`: the step
uses an iterator that points at no entry of the map, which is undefined in C++
(`it->first` or `++it` on an erased entry). -/
def step (calls : Nat → Int → List NestedCall) (d : Dispatch) : Option Dispatch :=
  match d.stack with
  | [] => some d
  | Frame.walking _ none :: outer => some (finish { d with stack := outer })
  | Frame.walking type (some k) :: outer =>
    match StdMap.find d.listeners.m_listenersMap k with
    | none => none
    | some listener =>
      if k ∈ d.listeners.m_removedListenersSet then
        let next := nextKey d.listeners.m_listenersMap k
        some { eraseTag d k with stack := Frame.walking type next :: outer }
      else if listener.eventType < 0 ∨ listener.eventType = type then
        some { d with
          listeners :=
            { d.listeners with invoked := d.listeners.invoked ++ [(k, listener.callback)] },
          stack := Frame.inCallback type k (calls listener.callback type) :: outer }
      else
        some { d with
          stack := Frame.walking type (nextKey d.listeners.m_listenersMap k) :: outer }
  | Frame.inCallback type k [] :: outer =>
    match StdMap.find d.listeners.m_listenersMap k with
    | none => none
    | some _ =>
      some { d with
        stack := Frame.walking type (nextKey d.listeners.m_listenersMap k) :: outer }
  | Frame.inCallback type k (NestedCall.removeEventListener tag :: rest) :: outer =>
    some { d with
      listeners := d.listeners.removeEventListener tag,
      stack := Frame.inCallback type k rest :: outer }
  | Frame.inCallback type k (NestedCall.addEventListener eventType func :: rest) :: outer =>
    some { d with
      listeners := (d.listeners.addEventListener eventType func).2,
      stack := Frame.inCallback type k rest :: outer }
  | Frame.inCallback type k (NestedCall.emitEvent inner :: rest) :: outer =>
    some (emitEvent { d with stack := Frame.inCallback type k rest :: outer } inner)

/-- At most `fuel` steps, stopping when no activation is left.  `none`: undefined
behaviour was reached. -/
def run (calls : Nat → Int → List NestedCall) : Nat → Dispatch → Option Dispatch
  | 0, d => some d
  | fuel + 1, d =>
    match d.stack with
    | [] => some d
    | _ :: _ =>
      match step calls d with
      | none => none
      | some d1 => run calls fuel d1

end Dispatch

end EventLoopPrivate

/-! ### dbusconnection.cpp: a reply arriving on the loop thread -/

/-- The loop thread dispatching a reply (or the error the bus produces when the
timeout of the call runs out) to `methodCallCallback`. -/
def ConnectionWorld.dispatchReply (w : ConnectionWorld) (reply : ReplyMessage) :
    ConnectionWorld :=
  { w with conn := w.conn.methodCallCallback reply }

/-! ## Part II: theorems -/

/-! ### The request/reply guard -/

namespace ASRequestPrivate

theorem sendReplies_of_sent (bus : Bus) (calls : List SendReplyArgs)
    (self : ASRequestPrivate) (w : ReplyWorld) (h : self.m_sentReply = true) :
    sendReplies bus calls self w = (calls.map (fun _ => false), self, w) := by
  induction calls with
  | nil => rfl
  | cons a rest ih => simp [sendReplies, sendReply, h, ih]

theorem sendReplies_of_null (bus : Bus) (calls : List SendReplyArgs)
    (self : ASRequestPrivate) (w : ReplyWorld) (h : self.m_reply = none) :
    sendReplies bus calls self w = (calls.map (fun _ => false), self, w) := by
  induction calls with
  | nil => rfl
  | cons a rest ih =>
    by_cases hs : self.m_sentReply = true <;> simp [sendReplies, sendReply, h, hs, ih]

theorem destructor_of_sent (bus : Bus) (ctx : CallCtx) (self : ASRequestPrivate)
    (w : ReplyWorld) (h : self.m_sentReply = true) : destructor bus ctx self w = w := by
  simp [destructor, h]

theorem doSendReply_sent (bus : Bus) (ctx : CallCtx) (self : ASRequestPrivate)
    (w : ReplyWorld) (code : Nat) (headers : ASRequest.HeaderMap) (body : String) :
    (doSendReply bus ctx self w code headers body).2.1 =
      { m_reply := none, m_sentReply := true } := by
  unfold doSendReply
  split <;> rfl

theorem marshallAndSendReply_handed (bus : Bus) (c : ReplyCall) (t : Transport) :
    (marshallAndSendReply bus c t).2.handed = t.handed ++ [c] := by
  unfold marshallAndSendReply
  split
  · rfl
  · split <;> rfl

theorem marshallAndSendReply_ok (bus : Bus) (c : ReplyCall) (t : Transport)
    (hm : 0 ≤ bus.marshallReply c) (hs : 0 ≤ bus.sd_bus_send c) :
    marshallAndSendReply bus c t =
      (true, { handed := t.handed ++ [c], wire := t.wire ++ [c] }) := by
  simp [marshallAndSendReply, not_lt.mpr hm, not_lt.mpr hs]

theorem drain_nil (bus : Bus) (fuel : Nat) (w : ReplyWorld)
    (h : w.loop.m_methods = []) : drain bus fuel w = w := by
  cases fuel with
  | zero => rfl
  | succ n =>
    cases w with
    | mk loop t =>
      cases loop with
      | mk q =>
        simp only at h
        subst h
        simp [drain, EventLoopPrivate.executeAllMethods]

theorem drain_single (bus : Bus) (fuel : Nat) (w : ReplyWorld) (c : ReplyCall)
    (h : w.loop.m_methods = [some c]) (hf : 1 ≤ fuel) :
    drain bus fuel w =
      { loop := { m_methods := [] }, bus := (marshallAndSendReply bus c w.bus).2 } := by
  obtain ⟨n, rfl⟩ : ∃ n, fuel = n + 1 := ⟨fuel - 1, by omega⟩
  cases n with
  | zero => simp [drain, EventLoopPrivate.executeAllMethods, h, runQueued]
  | succ m => simp [drain, EventLoopPrivate.executeAllMethods, h, runQueued]

/-- What one accepted hand-off (`doSendReply`) leads to once the loop has
drained: the call is handed to `marshallAndSendReply` exactly once. -/
theorem drain_doSendReply (bus : Bus) (ctx : CallCtx) (self : ASRequestPrivate)
    (w : ReplyWorld) (code : Nat) (headers : ASRequest.HeaderMap) (body : String)
    (fuel : Nat) (hq : w.loop.m_methods = []) (hf : 1 ≤ fuel) :
    drain bus fuel (doSendReply bus ctx self w code headers body).2.2 =
      { loop := { m_methods := [] },
        bus := (marshallAndSendReply bus
          { reply := self.m_reply, code := code, headers := headers, body := body }
          w.bus).2 } := by
  cases w with
  | mk loop t =>
    cases loop with
    | mk q =>
      simp only at hq
      subst hq
      cases hc : ctx.onEventLoopThread with
      | true =>
        simp only [doSendReply, hc, if_true]
        rw [drain_nil _ _ _ rfl]
      | false =>
        have hq : (doSendReply bus ctx self { loop := { m_methods := [] }, bus := t }
            code headers body).2.2 =
            { loop := { m_methods := [some ⟨self.m_reply, code, headers, body⟩] },
              bus := t } := by
          simp only [doSendReply, hc, EventLoopPrivate.invokeMethod]
          cases ctx.wrote <;> rfl
        rw [hq, drain_single bus fuel _ _ rfl hf]

end ASRequestPrivate


namespace ASRequestPrivate

theorem sendReply_accepted (bus : Bus) (ctx : CallCtx) (reply : Nat) (w : ReplyWorld)
    (code : Nat) (headers : ASRequest.HeaderMap) (body : String) :
    sendReply bus ctx { m_reply := some reply, m_sentReply := false } w code headers body =
      doSendReply bus ctx { m_reply := some reply, m_sentReply := false } w code headers body := by
  simp [sendReply]

/-- C1: on a request that was parsed successfully (reply slot allocated), for
successive `sendReply` calls with any codes, headers, bodies and thread
contexts, and with marshalling and `sd_bus_send` succeeding: the second call
(and every later one) returns false and changes nothing, and once the loop has
run what was queued exactly one reply has been transmitted in total, the one of
the first call. -/
theorem sendReply_twice_transmits_once (bus : Bus) (reply : Nat)
    (a1 a2 : SendReplyArgs) (more : List SendReplyArgs) (w : ReplyWorld) (fuel : Nat)
    (hm : ∀ c, 0 ≤ bus.marshallReply c) (hs : ∀ c, 0 ≤ bus.sd_bus_send c)
    (hq : w.loop.m_methods = []) (hf : 1 ≤ fuel) :
    (sendReplies bus (a1 :: a2 :: more) (construct true (some reply)) w).1.tail =
        false :: more.map (fun _ => false) ∧
    (sendReplies bus (a1 :: a2 :: more) (construct true (some reply)) w).2.2 =
        (sendReply bus a1.ctx (construct true (some reply)) w a1.code a1.headers a1.body).2.2 ∧
    (drain bus fuel
        (sendReplies bus (a1 :: a2 :: more) (construct true (some reply)) w).2.2).bus.wire =
        w.bus.wire ++ [{ reply := some reply, code := a1.code, headers := a1.headers, body := a1.body }] ∧
    (drain bus fuel
        (sendReplies bus (a1 :: a2 :: more) (construct true (some reply)) w).2.2).loop.m_methods = [] := by
  have hc : construct true (some reply) = { m_reply := some reply, m_sentReply := false } := rfl
  have h1 : (sendReply bus a1.ctx (construct true (some reply)) w a1.code a1.headers a1.body).2.1 =
      { m_reply := none, m_sentReply := true } := by
    rw [hc, sendReply_accepted, doSendReply_sent]
  have hrest := sendReplies_of_sent bus (a2 :: more)
    (sendReply bus a1.ctx (construct true (some reply)) w a1.code a1.headers a1.body).2.1
    (sendReply bus a1.ctx (construct true (some reply)) w a1.code a1.headers a1.body).2.2
    (by rw [h1])
  have hall : sendReplies bus (a1 :: a2 :: more) (construct true (some reply)) w =
      ((sendReply bus a1.ctx (construct true (some reply)) w a1.code a1.headers a1.body).1 ::
          (false :: more.map (fun _ => false)),
        (sendReply bus a1.ctx (construct true (some reply)) w a1.code a1.headers a1.body).2.1,
        (sendReply bus a1.ctx (construct true (some reply)) w a1.code a1.headers a1.body).2.2) := by
    conv_lhs => unfold sendReplies
    simp only [hrest, List.map_cons]
  rw [hall]
  refine ⟨rfl, rfl, ?_, ?_⟩
  · simp only [hc, sendReply_accepted]
    rw [drain_doSendReply _ _ _ _ _ _ _ _ hq hf, marshallAndSendReply_ok _ _ _ (hm _) (hs _)]
  · simp only [hc, sendReply_accepted]
    rw [drain_doSendReply _ _ _ _ _ _ _ _ hq hf]

/-- C1, at a concrete input: a reply sent from a foreign thread followed by a
second one from the loop thread. -/
theorem sendReply_twice_transmits_once_witness :
    (sendReplies Bus.working
        [⟨⟨false, true⟩, 200, [], "ok"⟩, ⟨⟨true, true⟩, 404, [("k", "v")], "late"⟩]
        (construct true (some 7)) ReplyWorld.empty).1.tail = [false] ∧
    (drain Bus.working 1
        (sendReplies Bus.working
          [⟨⟨false, true⟩, 200, [], "ok"⟩, ⟨⟨true, true⟩, 404, [("k", "v")], "late"⟩]
          (construct true (some 7)) ReplyWorld.empty).2.2).bus.wire =
      [{ reply := some 7, code := 200, headers := [], body := "ok" }] :=
  have h := sendReply_twice_transmits_once Bus.working 7
    ⟨⟨false, true⟩, 200, [], "ok"⟩ ⟨⟨true, true⟩, 404, [("k", "v")], "late"⟩ []
    ReplyWorld.empty 1 (fun _ => le_refl 0) (fun _ => le_refl 0) rfl (le_refl 1)
  ⟨h.1, h.2.2.1⟩

/-- C2: destroying a successfully parsed request on which `sendReply` was never
called hands exactly one reply to the transport once the loop has run what was
queued: code 500, no headers and the complete generic failure body (124
characters, so nothing is cut by the 128-byte buffer) with errorCode "105",
userMessage "Service failure" and developerMessage "Service failed to send
response to request"; that reply is the one transmitted when marshalling and
`sd_bus_send` succeed. -/
theorem destructor_sends_default_reply (bus : Bus) (reply : Nat) (dctx : CallCtx)
    (w : ReplyWorld) (fuel : Nat) (hq : w.loop.m_methods = []) (hf : 1 ≤ fuel) :
    (drain bus fuel (destructor bus dctx (construct true (some reply)) w)).bus.handed =
      w.bus.handed ++ [{ reply := some reply, code := 500, headers := [],
                         body := " \x7b \"errorCode\": \"105\", \"userMessage\": \"Service failure\", \"developerMessage\": \"Service failed to send response to request\" \x7d " }] ∧
    ((∀ c, 0 ≤ bus.marshallReply c) → (∀ c, 0 ≤ bus.sd_bus_send c) →
      (drain bus fuel (destructor bus dctx (construct true (some reply)) w)).bus.wire =
        w.bus.wire ++ [{ reply := some reply, code := 500, headers := [],
                         body := " \x7b \"errorCode\": \"105\", \"userMessage\": \"Service failure\", \"developerMessage\": \"Service failed to send response to request\" \x7d " }]) := by
  have hc : construct true (some reply) = { m_reply := some reply, m_sentReply := false } := rfl
  have hb : snprintf 128 defaultReplyText =
      " \x7b \"errorCode\": \"105\", \"userMessage\": \"Service failure\", \"developerMessage\": \"Service failed to send response to request\" \x7d " := by
    decide
  have hd : destructor bus dctx { m_reply := some reply, m_sentReply := false } w =
      (doSendReply bus dctx { m_reply := some reply, m_sentReply := false } w 500 []
        (snprintf 128 defaultReplyText)).2.2 := by
    simp [destructor]
  rw [hc, hd, drain_doSendReply _ _ _ _ _ _ _ _ hq hf, hb]
  refine ⟨marshallAndSendReply_handed _ _ _, fun hm hs => ?_⟩
  rw [marshallAndSendReply_ok _ _ _ (hm _) (hs _)]

/-- C2, at a concrete input: a request dropped on a foreign thread. -/
theorem destructor_sends_default_reply_witness :
    (drain Bus.working 1
        (destructor Bus.working ⟨false, true⟩ (construct true (some 3)) ReplyWorld.empty)).bus.wire =
      [{ reply := some 3, code := 500, headers := [],
         body := " \x7b \"errorCode\": \"105\", \"userMessage\": \"Service failure\", \"developerMessage\": \"Service failed to send response to request\" \x7d " }] :=
  (destructor_sends_default_reply Bus.working 3 ⟨false, true⟩ ReplyWorld.empty 1 rfl
    (le_refl 1)).2 (fun _ => le_refl 0) (fun _ => le_refl 0)

theorem life_handed (bus : Bus) (calls : List SendReplyArgs) (dctx : CallCtx)
    (fuel : Nat) (self : ASRequestPrivate) (w : ReplyWorld)
    (hq : w.loop.m_methods = []) (hf : 1 ≤ fuel) (hs : self.m_sentReply = false) :
    (life bus calls dctx fuel self w).bus.handed.length =
      w.bus.handed.length + (if self.m_reply.isSome then 1 else 0) := by
  cases self with
  | mk r sent =>
    simp only at hs
    subst hs
    cases r with
    | none =>
      simp only [life, sendReplies_of_null bus calls { m_reply := none, m_sentReply := false } w rfl]
      have hd : destructor bus dctx { m_reply := none, m_sentReply := false } w = w := by
        simp [destructor]
      rw [hd, drain_nil _ _ _ hq]
      simp
    | some reply =>
      cases calls with
      | nil =>
        have hd : destructor bus dctx { m_reply := some reply, m_sentReply := false } w =
            (doSendReply bus dctx { m_reply := some reply, m_sentReply := false } w 500 []
              (snprintf 128 defaultReplyText)).2.2 := by
          simp [destructor]
        simp only [life, sendReplies]
        rw [hd, drain_doSendReply _ _ _ _ _ _ _ _ hq hf, marshallAndSendReply_handed]
        simp
      | cons a rest =>
        have h1 : (sendReply bus a.ctx { m_reply := some reply, m_sentReply := false } w
            a.code a.headers a.body).2.1 = { m_reply := none, m_sentReply := true } := by
          rw [sendReply_accepted, doSendReply_sent]
        have hrest := sendReplies_of_sent bus rest
          (sendReply bus a.ctx { m_reply := some reply, m_sentReply := false } w
            a.code a.headers a.body).2.1
          (sendReply bus a.ctx { m_reply := some reply, m_sentReply := false } w
            a.code a.headers a.body).2.2 (by rw [h1])
        unfold life
        conv_lhs => unfold sendReplies
        simp only [hrest]
        rw [destructor_of_sent _ _ _ _ (by rw [h1]), sendReply_accepted,
          drain_doSendReply _ _ _ _ _ _ _ _ hq hf, marshallAndSendReply_handed]
        simp

/-- C3: over a request's life (any finite sequence of `sendReply` calls, then the
destructor) the sent flag never goes back: once it is set every later
`sendReply` returns false and changes neither the request nor the world, and
the destructor changes nothing; an accepted `sendReply` sets it.  Counted after
the loop has run what was queued, the number of replies handed to the transport
over the whole life is at most one, and exactly one when the request was parsed
successfully with its reply slot allocated. -/
theorem reply_slot_sent_at_most_once (bus : Bus) (before later : List SendReplyArgs)
    (dctx : CallCtx) (parsed : Bool) (newReply : Option Nat) (w : ReplyWorld) (fuel : Nat) :
    ((sendReplies bus before (construct parsed newReply) w).2.1.m_sentReply = true →
      sendReplies bus later (sendReplies bus before (construct parsed newReply) w).2.1
          (sendReplies bus before (construct parsed newReply) w).2.2 =
        (later.map (fun _ => false),
          (sendReplies bus before (construct parsed newReply) w).2.1,
          (sendReplies bus before (construct parsed newReply) w).2.2) ∧
      destructor bus dctx (sendReplies bus before (construct parsed newReply) w).2.1
          (sendReplies bus before (construct parsed newReply) w).2.2 =
        (sendReplies bus before (construct parsed newReply) w).2.2) ∧
    (∀ a : SendReplyArgs, (construct parsed newReply).isValid = true →
      (sendReply bus a.ctx (construct parsed newReply) w a.code a.headers a.body).2.1.m_sentReply
        = true) ∧
    (w.loop.m_methods = [] → 1 ≤ fuel →
      (life bus (before ++ later) dctx fuel (construct parsed newReply) w).bus.handed.length ≤
          w.bus.handed.length + 1 ∧
      ((construct parsed newReply).isValid = true →
        (life bus (before ++ later) dctx fuel (construct parsed newReply) w).bus.handed.length =
          w.bus.handed.length + 1)) := by
  refine ⟨fun h => ⟨sendReplies_of_sent _ _ _ _ h, destructor_of_sent _ _ _ _ h⟩, ?_, ?_⟩
  · intro a hv
    have hs : (construct parsed newReply).m_sentReply = false := by
      unfold construct; split <;> rfl
    cases hr : (construct parsed newReply) with
    | mk r sent =>
      rw [hr] at hv hs
      simp only [isValid] at hv
      simp only at hs
      subst hs
      cases r with
      | none => simp at hv
      | some reply => rw [sendReply_accepted, doSendReply_sent]
  · intro hq hf
    have hs : (construct parsed newReply).m_sentReply = false := by
      unfold construct; split <;> rfl
    have h := life_handed bus (before ++ later) dctx fuel _ w hq hf hs
    constructor
    · rw [h]; split <;> omega
    · intro hv
      rw [h]
      simp only [isValid] at hv
      simp [hv]

/-- C3, at a concrete input: two replies then destruction, all on a foreign
thread. -/
theorem reply_slot_sent_at_most_once_witness :
    (life Bus.working ([⟨⟨false, true⟩, 200, [], "a"⟩] ++ [⟨⟨false, false⟩, 201, [], "b"⟩])
        ⟨false, true⟩ 1 (construct true (some 5)) ReplyWorld.empty).bus.handed.length = 0 + 1 :=
  ((reply_slot_sent_at_most_once Bus.working [⟨⟨false, true⟩, 200, [], "a"⟩]
      [⟨⟨false, false⟩, 201, [], "b"⟩] ⟨false, true⟩ true (some 5) ReplyWorld.empty 1).2.2
    rfl (le_refl 1)).2 rfl

end ASRequestPrivate

/-! ### The deferred-work queue -/

namespace EventLoopPrivate

variable {F σ : Type}

theorem invokeMethod_methods (self : EventLoopPrivate F) (func : Option F) (wrote : Bool) :
    (self.invokeMethod func wrote).2.m_methods = self.m_methods ++ [func] := by
  unfold invokeMethod
  split <;> rfl

theorem invokeAll_methods (cs : List (F × Bool)) (self : EventLoopPrivate F) :
    (invokeAll self cs).m_methods = self.m_methods ++ cs.map (fun c => some c.1) := by
  induction cs generalizing self with
  | nil => simp [invokeAll]
  | cons c rest ih =>
    obtain ⟨f, wrote⟩ := c
    simp [invokeAll, ih, invokeMethod_methods]

theorem executeAllMethods_submitted (run : F → σ → σ × List (Option F)) (cs : List F)
    (rest : List (Option F)) (s : σ) (log : List F) (k : Nat) :
    executeAllMethods run (cs.length + k)
        { loop := { m_methods := cs.map some ++ rest }, state := s, executed := log } =
      executeAllMethods run k
        { loop := { m_methods := rest ++ (runInOrder run cs s).2 },
          state := (runInOrder run cs s).1, executed := log ++ cs } := by
  induction cs generalizing rest s log with
  | nil => simp [runInOrder]
  | cons c cs ih =>
    have hf : (c :: cs).length + k = (cs.length + k) + 1 := by simp; omega
    rw [hf]
    simp only [executeAllMethods, List.map_cons, List.cons_append]
    rw [List.append_assoc, ih]
    simp [runInOrder, List.append_assoc]

theorem executeAllMethods_executed (run : F → σ → σ × List (Option F)) (k : Nat)
    (d : Drain F σ) : ∃ later, (executeAllMethods run k d).executed = d.executed ++ later := by
  induction k generalizing d with
  | zero => exact ⟨[], by simp [executeAllMethods]⟩
  | succ n ih =>
    unfold executeAllMethods
    split
    · exact ⟨[], by simp⟩
    · next rest _ =>
      obtain ⟨l, hl⟩ := ih { d with loop := { m_methods := rest } }
      exact ⟨l, hl⟩
    · next fn rest _ =>
      obtain ⟨l, hl⟩ := ih ⟨⟨rest ++ (run fn d.state).2⟩, (run fn d.state).1, d.executed ++ [fn]⟩
      exact ⟨fn :: l, by rw [hl]; simp⟩

theorem runInOrder_quiet (run : F → σ → σ × List (Option F))
    (hq : ∀ c s, (run c s).2 = []) (cs : List F) (s : σ) : (runInOrder run cs s).2 = [] := by
  induction cs generalizing s with
  | nil => rfl
  | cons c cs ih => simp [runInOrder, hq, ih]

theorem executeAllMethods_empty (run : F → σ → σ × List (Option F)) (k : Nat)
    (d : Drain F σ) (h : d.loop.m_methods = []) : executeAllMethods run k d = d := by
  cases k with
  | zero => rfl
  | succ n => simp [executeAllMethods, h]

/-- C9: closures submitted with `invokeMethod` before a drain starts (to an idle
queue, whatever the outcome of each wake-up write) are each executed exactly
once and in submission order: after as many loop iterations as there were
submissions the drain has executed exactly those closures, in that order, the
state is the one obtained by calling them one after the other, and the queue
holds only what they queued themselves; whatever the drain executes afterwards
comes after them; and when no closure queues further work the drain ends with
an empty queue having executed exactly the submitted closures. -/
theorem executeAllMethods_fifo (run : F → σ → σ × List (Option F)) (cs : List (F × Bool))
    (s : σ) (k : Nat) :
    executeAllMethods run (cs.length + k)
        { loop := invokeAll { m_methods := [] } cs, state := s, executed := [] } =
      executeAllMethods run k
        { loop := { m_methods := (runInOrder run (cs.map Prod.fst) s).2 },
          state := (runInOrder run (cs.map Prod.fst) s).1,
          executed := cs.map Prod.fst } ∧
    (∃ later, (executeAllMethods run (cs.length + k)
        { loop := invokeAll { m_methods := [] } cs, state := s, executed := [] }).executed =
      cs.map Prod.fst ++ later) ∧
    ((∀ c s, (run c s).2 = []) →
      executeAllMethods run (cs.length + k)
          { loop := invokeAll { m_methods := [] } cs, state := s, executed := [] } =
        { loop := { m_methods := [] }, state := (runInOrder run (cs.map Prod.fst) s).1,
          executed := cs.map Prod.fst }) := by
  have hq : invokeAll { m_methods := [] } cs =
      { m_methods := (cs.map Prod.fst).map some ++ [] } := by
    have h := invokeAll_methods cs ({ m_methods := [] } : EventLoopPrivate F)
    cases hi : invokeAll ({ m_methods := [] } : EventLoopPrivate F) cs with
    | mk q =>
      rw [hi] at h
      simp only at h
      simp [h]
  have hmain := executeAllMethods_submitted run (cs.map Prod.fst) [] s [] k
  simp only [List.length_map] at hmain
  rw [hq, hmain]
  simp only [List.nil_append]
  refine ⟨trivial, ?_, ?_⟩
  · exact executeAllMethods_executed run k _
  · intro hquiet
    rw [executeAllMethods_empty run k _ (by simp [runInOrder_quiet run hquiet])]
    simp [runInOrder_quiet run hquiet]

/-- C9, at a concrete input: three closures that each record their own number,
the second submitted with a failing wake-up write. -/
theorem executeAllMethods_fifo_witness :
    executeAllMethods (fun (c : Nat) (s : List Nat) => (s ++ [c], [])) (3 + 0)
        { loop := invokeAll { m_methods := [] } [(1, true), (2, false), (3, true)],
          state := [], executed := [] } =
      { loop := { m_methods := [] },
        state := [1, 2, 3], executed := [1, 2, 3] } :=
  (executeAllMethods_fifo (fun (c : Nat) (s : List Nat) => (s ++ [c], []))
    [(1, true), (2, false), (3, true)] [] 0).2.2 (fun _ _ => rfl)

end EventLoopPrivate

/-! ### Standard containers -/

namespace StdMap

variable {K V : Type} [LinearOrder K]

theorem find_eq_none_of_forall_ne (m : StdMap K V) (k : K)
    (h : ∀ e ∈ m, e.1 ≠ k) : find m k = none := by
  induction m with
  | nil => rfl
  | cons e rest ih =>
    have he : e.1 ≠ k := h e (List.mem_cons_self _ _)
    simp only [find, he, if_false]
    exact ih (fun x hx => h x (List.mem_cons_of_mem _ hx))

theorem find_assign_self (m : StdMap K V) (k : K) (v : V) :
    find (assign m k v) k = some v := by
  induction m with
  | nil => simp [assign, find]
  | cons e rest ih =>
    unfold assign
    split
    · simp [find]
    · split
      · next h1 h2 => simp [find, ne_of_lt h2, ih]
      · simp [find]

theorem find_assign_ne (m : StdMap K V) (k k' : K) (v : V) (hne : k' ≠ k) :
    find (assign m k v) k' = find m k' := by
  induction m with
  | nil => simp [assign, find, Ne.symm hne]
  | cons e rest ih =>
    unfold assign
    split
    · simp [find, Ne.symm hne]
    · split
      · simp [find, ih]
      · next h1 h2 =>
        have hek : e.1 = k := le_antisymm (not_lt.mp h1) (not_lt.mp h2)
        simp [find, Ne.symm hne, hek]

theorem find_emplace_self (m : StdMap K V) (k : K) (v : V) (h : find m k = none) :
    find (emplace m k v) k = some v := by
  induction m with
  | nil => simp [emplace, find]
  | cons e rest ih =>
    unfold emplace
    split
    · simp [find]
    · split
      · next h1 h2 =>
        have hne : e.1 ≠ k := ne_of_lt h2
        simp only [find, hne, if_false] at h ⊢
        exact ih h
      · next h1 h2 =>
        have hek : e.1 = k := le_antisymm (not_lt.mp h1) (not_lt.mp h2)
        simp [find, hek] at h

theorem find_emplace_ne (m : StdMap K V) (k k' : K) (v : V) (hne : k' ≠ k) :
    find (emplace m k v) k' = find m k' := by
  induction m with
  | nil => simp [emplace, find, Ne.symm hne]
  | cons e rest ih =>
    unfold emplace
    split
    · simp [find, Ne.symm hne]
    · split
      · simp [find, ih]
      · rfl

theorem mem_emplace (m : StdMap K V) (k : K) (v : V) (x : K × V)
    (hx : x ∈ emplace m k v) : x = (k, v) ∨ x ∈ m := by
  induction m with
  | nil => simpa [emplace] using hx
  | cons e rest ih =>
    unfold emplace at hx
    split at hx
    · simpa using hx
    · split at hx
      · rcases List.mem_cons.mp hx with h | h
        · exact Or.inr (h ▸ List.mem_cons_self _ _)
        · rcases ih h with h | h
          · exact Or.inl h
          · exact Or.inr (List.mem_cons_of_mem _ h)
      · exact Or.inr hx

theorem ordered_emplace (m : StdMap K V) (k : K) (v : V) (h : Ordered m) :
    Ordered (emplace m k v) := by
  induction m with
  | nil => simp [emplace, Ordered]
  | cons e rest ih =>
    have hp := List.pairwise_cons.mp h
    unfold emplace
    split
    · next hlt =>
      refine List.pairwise_cons.mpr ⟨?_, h⟩
      intro x hx
      rcases List.mem_cons.mp hx with hx | hx
      · rw [hx]; exact hlt
      · exact lt_trans hlt (hp.1 x hx)
    · split
      · next h1 h2 =>
        refine List.pairwise_cons.mpr ⟨?_, ih hp.2⟩
        intro x hx
        rcases mem_emplace rest k v x hx with hx | hx
        · rw [hx]; exact h2
        · exact hp.1 x hx
      · exact h

theorem mem_erase (m : StdMap K V) (k : K) (x : K × V) (hx : x ∈ erase m k) : x ∈ m := by
  induction m with
  | nil => simp [erase] at hx
  | cons e rest ih =>
    unfold erase at hx
    split at hx
    · exact List.mem_cons_of_mem _ hx
    · rcases List.mem_cons.mp hx with h | h
      · exact h ▸ List.mem_cons_self _ _
      · exact List.mem_cons_of_mem _ (ih h)

theorem ordered_erase (m : StdMap K V) (k : K) (h : Ordered m) : Ordered (erase m k) := by
  induction m with
  | nil => simp [erase, Ordered]
  | cons e rest ih =>
    have hp := List.pairwise_cons.mp h
    unfold erase
    split
    · exact hp.2
    · exact List.pairwise_cons.mpr ⟨fun x hx => hp.1 x (mem_erase rest k x hx), ih hp.2⟩

theorem find_erase_self (m : StdMap K V) (k : K) (h : Ordered m) :
    find (erase m k) k = none := by
  induction m with
  | nil => simp [erase, find]
  | cons e rest ih =>
    have hp := List.pairwise_cons.mp h
    unfold erase
    split
    · next hek =>
      exact find_eq_none_of_forall_ne rest k (fun x hx => by
        have := hp.1 x hx
        rw [hek] at this
        exact ne_of_gt this)
    · next hek => simp [find, hek, ih hp.2]

theorem find_erase_ne (m : StdMap K V) (k k' : K) (hne : k' ≠ k) :
    find (erase m k) k' = find m k' := by
  induction m with
  | nil => simp [erase, find]
  | cons e rest ih =>
    unfold erase
    split
    · next hek =>
      have : e.1 ≠ k' := by rw [hek]; exact Ne.symm hne
      simp [find, this]
    · simp [find, ih]

end StdMap

/-! ### Correlation of asynchronous calls -/

namespace DBusConnectionPrivate

theorem callWithCallback_accepted (self : DBusConnectionPrivate) (cookie cb : Nat) :
    (callWithCallback ⟨true, true⟩ { conn := self, loop := { m_methods := [] } }
      (accepted cookie) (some cb)).2.conn =
      { self with m_callbacks := StdMap.emplace self.m_callbacks cookie (some cb) } := by
  simp [callWithCallback, execCall, accepted]

theorem issueAll_spec (calls : List (Nat × Nat)) (self : DBusConnectionPrivate)
    (hd : (calls.map Prod.fst).Nodup)
    (hfresh : ∀ k ∈ calls.map Prod.fst, StdMap.find self.m_callbacks k = none)
    (ho : StdMap.Ordered self.m_callbacks) :
    (issueAll self calls).called = self.called ∧
    StdMap.Ordered (issueAll self calls).m_callbacks ∧
    (∀ k cb, (k, cb) ∈ calls →
      StdMap.find (issueAll self calls).m_callbacks k = some (some cb)) ∧
    (∀ k, k ∉ calls.map Prod.fst →
      StdMap.find (issueAll self calls).m_callbacks k = StdMap.find self.m_callbacks k) := by
  induction calls generalizing self with
  | nil => simp [issueAll, ho]
  | cons c rest ih =>
    obtain ⟨cookie, cb⟩ := c
    simp only [List.map_cons, List.nodup_cons] at hd
    have hc : StdMap.find self.m_callbacks cookie = none :=
      hfresh cookie (by simp)
    have hstep := callWithCallback_accepted self cookie cb
    have ih1 := ih { self with m_callbacks := StdMap.emplace self.m_callbacks cookie (some cb) }
      hd.2
      (fun k hk => by
        have hne : k ≠ cookie := fun h => hd.1 (h ▸ hk)
        simp only
        rw [StdMap.find_emplace_ne _ _ _ _ hne]
        exact hfresh k (by simp [List.mem_map] at hk ⊢; exact Or.inr hk))
      (StdMap.ordered_emplace _ _ _ ho)
    simp only [issueAll, hstep]
    refine ⟨ih1.1, ih1.2.1, ?_, ?_⟩
    · intro k cb' hmem
      rcases List.mem_cons.mp hmem with h | h
      · have hk : k = cookie := congrArg Prod.fst h
        have hcb : cb' = cb := congrArg Prod.snd h
        subst hk
        subst hcb
        rw [ih1.2.2.2 k hd.1]
        exact StdMap.find_emplace_self _ _ _ hc
      · exact ih1.2.2.1 k cb' h
    · intro k hk
      simp only [List.map_cons, List.mem_cons, not_or] at hk
      rw [ih1.2.2.2 k hk.2]
      exact StdMap.find_emplace_ne _ _ _ _ hk.1

/-- C10: with asynchronous calls pending under pairwise distinct cookies, a reply
carrying the cookie `c` of one of them calls exactly the callback registered
under `c`, once, with that reply; the entry of `c` is gone from `m_callbacks`
and every other pending entry is unchanged; a further reply carrying `c` calls
no callback and changes nothing. -/
theorem methodCallCallback_correlates (calls : List (Nat × Nat)) (c cb : Nat)
    (msg msg2 : Nat) (hd : (calls.map Prod.fst).Nodup) (hmem : (c, cb) ∈ calls) :
    (methodCallCallback (issueAll { m_callbacks := [], called := [] } calls)
        ⟨msg, some c⟩).called = [(cb, DBusMessage.reply msg)] ∧
    StdMap.find (methodCallCallback (issueAll { m_callbacks := [], called := [] } calls)
        ⟨msg, some c⟩).m_callbacks c = none ∧
    (∀ c2 cb2, (c2, cb2) ∈ calls → c2 ≠ c →
      StdMap.find (methodCallCallback (issueAll { m_callbacks := [], called := [] } calls)
        ⟨msg, some c⟩).m_callbacks c2 = some (some cb2)) ∧
    (methodCallCallback (issueAll { m_callbacks := [], called := [] } calls)
        ⟨msg, some c⟩).m_callbacks =
      StdMap.erase (issueAll { m_callbacks := [], called := [] } calls).m_callbacks c ∧
    methodCallCallback
        (methodCallCallback (issueAll { m_callbacks := [], called := [] } calls) ⟨msg, some c⟩)
        ⟨msg2, some c⟩ =
      methodCallCallback (issueAll { m_callbacks := [], called := [] } calls) ⟨msg, some c⟩ := by
  obtain ⟨hcalled, hord, hfind, _⟩ := issueAll_spec calls { m_callbacks := [], called := [] } hd
    (fun k _ => rfl) (by simp [StdMap.Ordered])
  have hc := hfind c cb hmem
  have hstep : methodCallCallback (issueAll { m_callbacks := [], called := [] } calls)
      ⟨msg, some c⟩ =
      { m_callbacks := StdMap.erase (issueAll { m_callbacks := [], called := [] } calls).m_callbacks c,
        called := [(cb, DBusMessage.reply msg)] } := by
    simp [methodCallCallback, hc, callIfSet, hcalled]
  rw [hstep]
  refine ⟨rfl, StdMap.find_erase_self _ _ hord, ?_, rfl, ?_⟩
  · intro c2 cb2 h2 hne
    simp only
    rw [StdMap.find_erase_ne _ _ _ hne]
    exact hfind c2 cb2 h2
  · simp [methodCallCallback, StdMap.find_erase_self _ _ hord]

/-- C10, at a concrete input: three calls in flight, the reply to the second
arrives. -/
theorem methodCallCallback_correlates_witness :
    (methodCallCallback (issueAll { m_callbacks := [], called := [] } [(11, 1), (12, 2), (13, 3)])
        ⟨70, some 12⟩).called = [(2, DBusMessage.reply 70)] :=
  (methodCallCallback_correlates [(11, 1), (12, 2), (13, 3)] 12 2 70 71 (by decide)
    (by decide)).1

end DBusConnectionPrivate

/-! ### The subscription registry -/

namespace ASServicePrivate

theorem foldl_sendWsUpdateTo (l : List (Url × String)) (self : ASServicePrivate) (wsUrl : Url)
    (wsMessage : String) :
    List.foldl (fun (s : ASServicePrivate) (it : Url × String) =>
        sendWsUpdateTo s it.2 wsUrl wsMessage) self l =
      { self with
        sent := self.sent ++ l.map (fun it => Signal.WebSocketUpdate it.2 wsUrl wsMessage) } := by
  induction l generalizing self with
  | nil => simp
  | cons e rest ih =>
    simp only [List.foldl_cons, List.map_cons]
    rw [ih]
    simp [sendWsUpdateTo]

theorem foldl_sendHttpUpdateTo (l : List (Url × String)) (self : ASServicePrivate)
    (httpUrl : Url) (tag : Int) :
    List.foldl (fun (s : ASServicePrivate) (it : Url × String) =>
        sendHttpUpdateTo s it.2 httpUrl tag) self l =
      { self with
        sent := self.sent ++ l.map (fun it => Signal.HttpUpdate it.2 httpUrl tag) } := by
  induction l generalizing self with
  | nil => simp
  | cons e rest ih =>
    simp only [List.foldl_cons, List.map_cons]
    rw [ih]
    simp [sendHttpUpdateTo]

theorem foldl_sendSystemStatusUpdateTo (l : List (Url × String)) (self : ASServicePrivate)
    (update : SystemStatus) :
    List.foldl (fun (s : ASServicePrivate) (it : Url × String) =>
        sendSystemStatusUpdateTo s it.2 update) self l =
      { self with
        sent := self.sent ++ l.map (fun it => Signal.SysStatusUpdate it.2 update) } := by
  induction l generalizing self with
  | nil => simp
  | cons e rest ih =>
    simp only [List.foldl_cons, List.map_cons]
    rw [ih]
    simp [sendSystemStatusUpdateTo]

theorem updateWebSocketLambda_eq (self : ASServicePrivate) (wsUrl : Url) (wsMessage : String) :
    updateWebSocketLambda self wsUrl wsMessage =
      { self with
        m_wsCacheMessages := StdMap.assign self.m_wsCacheMessages wsUrl wsMessage
        sent := self.sent ++ List.map (fun it => Signal.WebSocketUpdate it.2 wsUrl wsMessage)
                  (ListenerMap.equal_range self.m_registeredWsClients wsUrl) } := by
  simp [updateWebSocketLambda, foldl_sendWsUpdateTo]

theorem updateHttpUrlLambda_eq (self : ASServicePrivate) (httpUrl : Url) (tag : Int) :
    updateHttpUrlLambda self httpUrl tag =
      { self with
        m_httpCachedTag := StdMap.assign self.m_httpCachedTag httpUrl tag
        sent := self.sent ++ List.map (fun it => Signal.HttpUpdate it.2 httpUrl tag)
                  (ListenerMap.equal_range self.m_registeredUpdatesClients httpUrl) } := by
  simp [updateHttpUrlLambda, foldl_sendHttpUpdateTo]

/-- The part of the service that only registration, unregistration and the
tracker change: the tracker and the three listener maps. -/
theorem runMethod_registry (fn : Method) (self : ASServicePrivate) :
    (runMethod fn self).1.m_tracker = self.m_tracker ∧
    (runMethod fn self).1.m_registeredWsClients = self.m_registeredWsClients ∧
    (runMethod fn self).1.m_registeredUpdatesClients = self.m_registeredUpdatesClients ∧
    (runMethod fn self).1.m_registeredSystemStatusClients =
      self.m_registeredSystemStatusClients := by
  cases fn with
  | sendCachedWsUpdateTo service wsUrl =>
    simp only [runMethod, sendCachedWsUpdateTo]
    split <;> simp [sendWsUpdateTo]
  | sendCachedHttpUpdateTo service httpUrl =>
    simp only [runMethod, sendCachedHttpUpdateTo]
    split <;> simp [sendHttpUpdateTo]
  | sendCachedSystemStatusUpdateTo service wsUrl =>
    simp only [runMethod, sendCachedSystemStatusUpdateTo]
    split <;> simp [sendSystemStatusUpdateTo]
  | updateWebSocket wsUrl wsMessage => simp [runMethod, updateWebSocketLambda_eq]
  | updateHttpUrl httpUrl tag => simp [runMethod, updateHttpUrlLambda_eq]
  | updateSystemStatus update =>
    simp [runMethod, updateSystemStatusLambda, foldl_sendSystemStatusUpdateTo]

end ASServicePrivate

namespace EventLoopPrivate

variable {F σ : Type}

theorem executeAllMethods_preserves (run : F → σ → σ × List (Option F)) (P : σ → Prop)
    (hrun : ∀ f s, P s → P (run f s).1) (k : Nat) (d : Drain F σ) (h : P d.state) :
    P (executeAllMethods run k d).state := by
  induction k generalizing d with
  | zero => exact h
  | succ n ih =>
    unfold executeAllMethods
    split
    · exact h
    · next rest _ => exact ih ⟨⟨rest⟩, d.state, d.executed⟩ h
    · next fn rest _ =>
      exact ih ⟨⟨rest ++ (run fn d.state).2⟩, (run fn d.state).1, d.executed ++ [fn]⟩
        (hrun fn d.state h)

end EventLoopPrivate

namespace ListenerMap

theorem mem_emplace_iff (m : ListenerMap) (k : Url) (v : String) (x : Url × String) :
    x ∈ emplace m k v ↔ x = (k, v) ∨ x ∈ m := by
  induction m with
  | nil => simp [emplace]
  | cons e rest ih =>
    unfold emplace
    split
    · simp
    · simp only [List.mem_cons, ih]
      tauto

theorem emplace_ordered (m : ListenerMap) (k : Url) (v : String) (h : Ordered m) :
    Ordered (emplace m k v) := by
  induction m with
  | nil => simp [emplace, Ordered]
  | cons e rest ih =>
    have hp := List.pairwise_cons.mp h
    unfold emplace
    split
    · next hlt =>
      refine List.pairwise_cons.mpr ⟨?_, h⟩
      intro x hx
      rcases List.mem_cons.mp hx with hx | hx
      · rw [hx]; exact le_of_lt hlt
      · exact le_trans (le_of_lt hlt) (hp.1 x hx)
    · next hnlt =>
      refine List.pairwise_cons.mpr ⟨?_, ih hp.2⟩
      intro x hx
      rcases (mem_emplace_iff rest k v x).mp hx with hx | hx
      · rw [hx]; exact not_lt.mp hnlt
      · exact hp.1 x hx

theorem nodup_emplace (m : ListenerMap) (k : Url) (v : String) (h : m.Nodup)
    (hnew : (k, v) ∉ m) : (emplace m k v).Nodup := by
  induction m with
  | nil => simp [emplace]
  | cons e rest ih =>
    have hp := List.nodup_cons.mp h
    unfold emplace
    split
    · exact List.nodup_cons.mpr ⟨hnew, h⟩
    · refine List.nodup_cons.mpr ⟨?_, ih hp.2 (fun hm => hnew (List.mem_cons_of_mem _ hm))⟩
      intro hm
      rcases (mem_emplace_iff rest k v e).mp hm with hm | hm
      · exact hnew (hm ▸ List.mem_cons_self _ _)
      · exact hp.1 hm

theorem equal_range_eq_nil (m : ListenerMap) (t : Url) (h : ∀ x ∈ m, x.1 ≠ t) :
    equal_range m t = [] := by
  unfold equal_range
  rw [List.filter_eq_nil_iff]
  intro x hx
  simpa using h x hx

theorem equal_range_emplace (m : ListenerMap) (k : Url) (v : String) (t : Url)
    (h : Ordered m) :
    equal_range (emplace m k v) t =
      equal_range m t ++ (if k = t then [(k, v)] else []) := by
  induction m with
  | nil =>
    by_cases hk : k = t <;> simp [emplace, equal_range, hk]
  | cons e rest ih =>
    have hp := List.pairwise_cons.mp h
    unfold emplace
    split
    · next hlt =>
      by_cases hk : k = t
      · have hnil : equal_range (e :: rest) t = [] := by
          apply equal_range_eq_nil
          intro x hx
          rcases List.mem_cons.mp hx with hx | hx
          · rw [hx, ← hk]; exact ne_of_gt hlt
          · rw [← hk]; exact ne_of_gt (lt_of_lt_of_le hlt (hp.1 x hx))
        rw [hnil]
        simp only [hk, if_true, List.nil_append]
        have : equal_range ((t, v) :: e :: rest) t = (t, v) :: equal_range (e :: rest) t := by
          simp [equal_range]
        rw [this, ← hk] at *
        rw [hnil]
      · simp only [hk, if_false, List.append_nil]
        simp [equal_range, hk]
    · have ih1 := ih hp.2
      unfold equal_range at ih1 ⊢
      by_cases he : e.1 = t
      · simp only [List.filter_cons, he, decide_True, if_true, ih1, List.cons_append]
      · simp only [List.filter_cons, he, decide_False, ih1]
        simp

theorem equal_range_filter (m : ListenerMap) (p : Url × String → Bool) (t : Url) :
    equal_range (List.filter p m) t = List.filter p (equal_range m t) := by
  simp only [equal_range, List.filter_filter]
  congr 1
  funext x
  exact Bool.and_comm _ _

theorem mem_equal_range (m : ListenerMap) (t : Url) (x : Url × String) :
    x ∈ equal_range m t ↔ x ∈ m ∧ x.1 = t := by
  simp [equal_range]

theorem any_equal_range (m : ListenerMap) (t : Url) (p : String) :
    List.any (equal_range m t) (fun it => decide (it.2 = p)) = true ↔ (t, p) ∈ m := by
  simp only [List.any_eq_true, mem_equal_range, decide_eq_true_eq]
  constructor
  · rintro ⟨⟨a, b⟩, ⟨hm, h1⟩, h2⟩
    simp only at h1 h2
    subst h1
    subst h2
    exact hm
  · intro h
    exact ⟨(t, p), ⟨h, rfl⟩, rfl⟩

end ListenerMap

namespace ASServicePrivate

theorem listeners_setListeners (self : ASServicePrivate) (fam fam2 : Family) (m : ListenerMap) :
    (self.setListeners fam m).listeners fam2 = if fam2 = fam then m else self.listeners fam2 := by
  cases fam <;> cases fam2 <;> simp [setListeners, listeners]

theorem listeners_tracker (self : ASServicePrivate) (track : List String) (fam : Family) :
    ({ self with m_tracker := track } : ASServicePrivate).listeners fam = self.listeners fam := by
  cases fam <;> rfl

end ASServicePrivate

namespace ASServicePrivate

theorem listeners_congr (s s2 : ASServicePrivate)
    (h1 : s2.m_registeredWsClients = s.m_registeredWsClients)
    (h2 : s2.m_registeredUpdatesClients = s.m_registeredUpdatesClients)
    (h3 : s2.m_registeredSystemStatusClients = s.m_registeredSystemStatusClients)
    (fam : Family) : s2.listeners fam = s.listeners fam := by
  cases fam <;> simp [listeners, h1, h2, h3]

theorem runMethod_listeners (fn : Method) (self : ASServicePrivate) (fam : Family) :
    (runMethod fn self).1.listeners fam = self.listeners fam :=
  listeners_congr _ _ (runMethod_registry fn self).2.1 (runMethod_registry fn self).2.2.1
    (runMethod_registry fn self).2.2.2 fam

end ASServicePrivate

namespace ServiceWorld

open ASServicePrivate

theorem drain_listeners (fuel : Nat) (w : ServiceWorld) (fam : Family) :
    (drain fuel w).service.listeners fam = w.service.listeners fam := by
  unfold drain
  exact EventLoopPrivate.executeAllMethods_preserves runMethod
    (fun s => s.listeners fam = w.service.listeners fam)
    (fun f s hs => (runMethod_listeners f s fam).trans hs) fuel _ rfl

theorem drain_tracker (fuel : Nat) (w : ServiceWorld) :
    (drain fuel w).service.m_tracker = w.service.m_tracker := by
  unfold drain
  exact EventLoopPrivate.executeAllMethods_preserves runMethod
    (fun s => s.m_tracker = w.service.m_tracker)
    (fun f s hs => (runMethod_registry f s).1.trans hs) fuel _ rfl

theorem registerListener_invalid (w : ServiceWorld) (msg : MethodCall) (fam : Family)
    (f : String → Url → Method) (d : Url) (wrote : Bool)
    (h : (if d.isEmpty then msg.urlArg else some d) = none) :
    registerListener w msg fam f d wrote =
      (MethodReply.error SD_BUS_ERROR_INVALID_SIGNATURE, w) := by
  unfold registerListener
  rw [h]

theorem registerListener_dup (w : ServiceWorld) (msg : MethodCall) (fam : Family)
    (f : String → Url → Method) (d : Url) (wrote : Bool) (t : Url)
    (h : (if d.isEmpty then msg.urlArg else some d) = some t)
    (hm : (t, msg.sender) ∈ w.service.listeners fam) :
    registerListener w msg fam f d wrote =
      (MethodReply.error "com.sky.as.Error.AlreadyRegistered", w) := by
  unfold registerListener
  rw [h]
  simp only [(ListenerMap.any_equal_range _ t msg.sender).mpr hm, if_true]

theorem registerListener_new (w : ServiceWorld) (msg : MethodCall) (fam : Family)
    (f : String → Url → Method) (d : Url) (wrote : Bool) (t : Url)
    (h : (if d.isEmpty then msg.urlArg else some d) = some t)
    (hm : (t, msg.sender) ∉ w.service.listeners fam) :
    registerListener w msg fam f d wrote =
      (MethodReply.methodReturn,
        { service :=
            { w.service.setListeners fam
                (ListenerMap.emplace (w.service.listeners fam) t msg.sender) with
              m_tracker := sd_bus_track_add_name w.service.m_tracker msg.sender },
          loop := { m_methods := w.loop.m_methods ++ [some (f msg.sender t)] } }) := by
  unfold registerListener
  rw [h]
  have hany : List.any (ListenerMap.equal_range (w.service.listeners fam) t)
      (fun it => decide (it.2 = msg.sender)) = false := by
    rw [Bool.eq_false_iff]
    exact fun hc => hm ((ListenerMap.any_equal_range _ t msg.sender).mp hc)
  simp only [hany, Bool.false_eq_true, if_false]
  have hl : (w.loop.invokeMethod (some (f msg.sender t)) wrote).2 =
      { m_methods := w.loop.m_methods ++ [some (f msg.sender t)] } := by
    unfold EventLoopPrivate.invokeMethod
    split <;> rfl
  rw [hl]
  have ht : (w.service.setListeners fam
      (ListenerMap.emplace (w.service.listeners fam) t msg.sender)).m_tracker =
      w.service.m_tracker := by
    cases fam <;> rfl
  rw [ht]

theorem registerListener_listeners (w : ServiceWorld) (msg : MethodCall) (fam : Family)
    (f : String → Url → Method) (d : Url) (wrote : Bool) (fam2 : Family) :
    (registerListener w msg fam f d wrote).2.service.listeners fam2 =
      match (if d.isEmpty then msg.urlArg else some d) with
      | none => w.service.listeners fam2
      | some t =>
        if fam2 = fam ∧ (t, msg.sender) ∉ w.service.listeners fam then
          ListenerMap.emplace (w.service.listeners fam) t msg.sender
        else w.service.listeners fam2 := by
  cases h : (if d.isEmpty then msg.urlArg else some d) with
  | none => rw [registerListener_invalid w msg fam f d wrote h]
  | some t =>
    by_cases hm : (t, msg.sender) ∈ w.service.listeners fam
    · rw [registerListener_dup w msg fam f d wrote t h hm]
      simp [hm]
    · rw [registerListener_new w msg fam f d wrote t h hm]
      simp only [listeners_tracker, listeners_setListeners, hm, not_false_eq_true, and_true]

theorem unregisterListener_listeners (w : ServiceWorld) (msg : MethodCall) (fam : Family)
    (d : Url) (fam2 : Family) :
    (unregisterListener w msg fam d).2.service.listeners fam2 =
      match (if d.isEmpty then msg.urlArg else some d) with
      | none => w.service.listeners fam2
      | some t =>
        if fam2 = fam then
          List.filter (fun (it : Url × String) =>
            !(decide (it.1 = t) && decide (it.2 = msg.sender))) (w.service.listeners fam)
        else w.service.listeners fam2 := by
  unfold unregisterListener
  cases h : (if d.isEmpty then msg.urlArg else some d) with
  | none => rfl
  | some t =>
    simp only
    split
    · simp only [listeners_setListeners]
    · split
      · simp only [listeners_tracker, listeners_setListeners]
      · simp only [listeners_setListeners]

theorem inv_of_listeners (w w2 : ServiceWorld)
    (h : ∀ fam, w2.service.listeners fam = w.service.listeners fam) (hi : Inv w) : Inv w2 := by
  intro fam
  rw [h fam]
  exact hi fam

theorem registerListener_inv (w : ServiceWorld) (msg : MethodCall) (fam : Family)
    (f : String → Url → Method) (d : Url) (wrote : Bool) (hi : Inv w) :
    Inv (registerListener w msg fam f d wrote).2 := by
  intro fam2
  rw [registerListener_listeners]
  split
  · exact hi fam2
  · split
    · next hc =>
      exact ⟨ListenerMap.emplace_ordered _ _ _ (hi fam).1,
        ListenerMap.nodup_emplace _ _ _ (hi fam).2 hc.2⟩
    · exact hi fam2

theorem unregisterListener_inv (w : ServiceWorld) (msg : MethodCall) (fam : Family)
    (d : Url) (hi : Inv w) : Inv (unregisterListener w msg fam d).2 := by
  intro fam2
  rw [unregisterListener_listeners]
  split
  · exact hi fam2
  · split
    · exact ⟨List.Pairwise.filter _ (hi fam).1, List.Nodup.filter _ (hi fam).2⟩
    · exact hi fam2

theorem updateWebSocket_listeners (ctx : CallCtx) (w : ServiceWorld) (wsUrl : Url)
    (wsMessage : String) (fam : Family) :
    (updateWebSocket ctx w wsUrl wsMessage).service.listeners fam = w.service.listeners fam := by
  unfold updateWebSocket
  split
  · exact runMethod_listeners (Method.updateWebSocket wsUrl wsMessage) w.service fam
  · rfl

theorem updateHttpUrl_listeners (ctx : CallCtx) (w : ServiceWorld) (httpUrl : Url)
    (tag : Int) (fam : Family) :
    (updateHttpUrl ctx w httpUrl tag).service.listeners fam = w.service.listeners fam := by
  unfold updateHttpUrl
  split
  · exact runMethod_listeners (Method.updateHttpUrl httpUrl tag) w.service fam
  · rfl

theorem updateSystemStatus_listeners (ctx : CallCtx) (w : ServiceWorld)
    (update : SystemStatus) (fam : Family) :
    (updateSystemStatus ctx w update).service.listeners fam = w.service.listeners fam := by
  unfold updateSystemStatus
  split
  · exact runMethod_listeners (Method.updateSystemStatus update) w.service fam
  · rfl

theorem trackerHandler_listeners (track : List String) (self : ASServicePrivate)
    (fam : Family) :
    (ASServicePrivate.trackerHandler track self).listeners fam =
      match fam with
      | Family.systemStatus => self.listeners Family.systemStatus
      | _ => removeUntrackedListeners track (self.listeners fam) := by
  cases fam <;> rfl

theorem step_inv (w : ServiceWorld) (op : Op) (hi : Inv w) : Inv (step w op) := by
  cases op with
  | registerWsListener msg wrote => exact registerListener_inv _ _ _ _ _ _ hi
  | unregisterWsListener msg => exact unregisterListener_inv _ _ _ _ hi
  | registerHttpListener msg wrote => exact registerListener_inv _ _ _ _ _ _ hi
  | unregisterHttpListener msg => exact unregisterListener_inv _ _ _ _ hi
  | registerSystemStatusListener msg wrote => exact registerListener_inv _ _ _ _ _ _ hi
  | unregisterSystemStatusListener msg => exact unregisterListener_inv _ _ _ _ hi
  | updateWebSocket ctx wsUrl wsMessage =>
    exact inv_of_listeners w _ (updateWebSocket_listeners ctx w wsUrl wsMessage) hi
  | updateHttpUrl ctx httpUrl tag =>
    exact inv_of_listeners w _ (updateHttpUrl_listeners ctx w httpUrl tag) hi
  | updateSystemStatus ctx update =>
    exact inv_of_listeners w _ (updateSystemStatus_listeners ctx w update) hi
  | nameLost name =>
    exact inv_of_listeners w _ (fun fam => listeners_tracker _ _ fam) hi
  | trackerHandler =>
    intro fam
    simp only [step, trackerHandler_listeners]
    cases fam with
    | systemStatus => exact hi Family.systemStatus
    | ws =>
      exact ⟨List.Pairwise.filter _ (hi Family.ws).1, List.Nodup.filter _ (hi Family.ws).2⟩
    | updates =>
      exact ⟨List.Pairwise.filter _ (hi Family.updates).1,
        List.Nodup.filter _ (hi Family.updates).2⟩
  | executeAllMethods fuel =>
    exact inv_of_listeners w _ (drain_listeners fuel w) hi

theorem run_inv (ops : List Op) (w : ServiceWorld) (hi : Inv w) : Inv (run ops w) := by
  induction ops generalizing w with
  | nil => exact hi
  | cons op rest ih => exact ih (step w op) (step_inv w op hi)

theorem init_inv : Inv init := by
  intro fam
  cases fam <;> simp [init, ASServicePrivate.construct, listeners, ListenerMap.Ordered]

end ServiceWorld

namespace ServiceWorld

open ASServicePrivate

theorem statusKeys_step (w : ServiceWorld) (op : Op)
    (h : ∀ x ∈ w.service.listeners Family.systemStatus, x.1 = "/as/system/status".data) :
    ∀ x ∈ (step w op).service.listeners Family.systemStatus,
      x.1 = "/as/system/status".data := by
  have hsub : ∀ m : ListenerMap, (∀ x ∈ m, x ∈ w.service.listeners Family.systemStatus) →
      ∀ x ∈ m, x.1 = "/as/system/status".data := fun m hm x hx => h x (hm x hx)
  cases op with
  | registerWsListener msg wrote =>
    simp only [step, registerWsListener, registerListener_listeners]
    split
    · exact h
    · simpa using h
  | unregisterWsListener msg =>
    simp only [step, unregisterWsListener, unregisterListener_listeners]
    split
    · exact h
    · simpa using h
  | registerHttpListener msg wrote =>
    simp only [step, registerHttpListener, registerListener_listeners]
    split
    · exact h
    · simpa using h
  | unregisterHttpListener msg =>
    simp only [step, unregisterHttpListener, unregisterListener_listeners]
    split
    · exact h
    · simpa using h
  | registerSystemStatusListener msg wrote =>
    simp only [step, registerSystemStatusListener, registerListener_listeners]
    have hd : ("/as/system/status".data).isEmpty = false := by decide
    simp only [hd, Bool.false_eq_true, if_false, true_and]
    split
    · intro x hx
      rcases (ListenerMap.mem_emplace_iff _ _ _ x).mp hx with hx | hx
      · rw [hx]
      · exact h x hx
    · exact h
  | unregisterSystemStatusListener msg =>
    simp only [step, unregisterSystemStatusListener, unregisterListener_listeners]
    have hd : ("/as/system/status".data).isEmpty = false := by decide
    simp only [hd, Bool.false_eq_true, if_false, if_true]
    exact hsub _ (fun x hx => (List.mem_filter.mp hx).1)
  | updateWebSocket ctx wsUrl wsMessage =>
    simp only [step, updateWebSocket_listeners]; exact h
  | updateHttpUrl ctx httpUrl tag =>
    simp only [step, updateHttpUrl_listeners]; exact h
  | updateSystemStatus ctx update =>
    simp only [step, updateSystemStatus_listeners]; exact h
  | nameLost name => exact h
  | trackerHandler => exact h
  | executeAllMethods fuel =>
    simp only [step, drain_listeners]; exact h

theorem statusKeys_run (ops : List Op) (w : ServiceWorld)
    (h : ∀ x ∈ w.service.listeners Family.systemStatus, x.1 = "/as/system/status".data) :
    ∀ x ∈ (run ops w).service.listeners Family.systemStatus,
      x.1 = "/as/system/status".data := by
  induction ops generalizing w with
  | nil => exact h
  | cons op rest ih => exact ih (step w op) (statusKeys_step w op h)

theorem countP_eq_one (m : ListenerMap) (a : Url × String) (hn : List.Nodup m) (hm : a ∈ m) :
    List.countP (fun e => decide (e = a)) m = 1 := by
  induction m with
  | nil => simp at hm
  | cons e rest ih =>
    have hp := List.nodup_cons.mp hn
    by_cases he : e = a
    · subst he
      have h0 : List.countP (fun x => decide (x = e)) rest = 0 := by
        rw [List.countP_eq_zero]
        intro x hx hxe
        simp only [decide_eq_true_eq] at hxe
        exact hp.1 (hxe ▸ hx)
      simp [List.countP_cons, h0]
    · have hr : a ∈ rest := by
        rcases List.mem_cons.mp hm with h | h
        · exact absurd h.symm he
        · exact h
      simp [List.countP_cons, he, ih hp.2 hr]

/-- C5: in every state the service can reach, and for each of the three topic
families, registering a (topic, peer) pair that is already registered is
answered with the error `com.sky.as.Error.AlreadyRegistered` and leaves the
whole world unchanged (the maps, the tracker and the deferred-work queue, so no
replay is queued); the map holds that pair exactly once.  In the system-status
family every registered pair has the topic `/as/system/status`, the one a
registration there always uses. -/
theorem registerListener_duplicate_rejected (ops : List Op) (topic : Url) (peer : String)
    (wrote : Bool) (arg : Option Url) :
    ((topic, peer) ∈ (run ops init).service.m_registeredWsClients →
      registerWsListener (run ops init) ⟨peer, some topic⟩ wrote =
        (MethodReply.error "com.sky.as.Error.AlreadyRegistered", run ops init) ∧
      List.countP (fun e => decide (e = (topic, peer)))
          (run ops init).service.m_registeredWsClients = 1) ∧
    ((topic, peer) ∈ (run ops init).service.m_registeredUpdatesClients →
      registerHttpListener (run ops init) ⟨peer, some topic⟩ wrote =
        (MethodReply.error "com.sky.as.Error.AlreadyRegistered", run ops init) ∧
      List.countP (fun e => decide (e = (topic, peer)))
          (run ops init).service.m_registeredUpdatesClients = 1) ∧
    ((topic, peer) ∈ (run ops init).service.m_registeredSystemStatusClients →
      topic = "/as/system/status".data ∧
      registerSystemStatusListener (run ops init) ⟨peer, arg⟩ wrote =
        (MethodReply.error "com.sky.as.Error.AlreadyRegistered", run ops init) ∧
      List.countP (fun e => decide (e = (topic, peer)))
          (run ops init).service.m_registeredSystemStatusClients = 1) := by
  have hi := run_inv ops init init_inv
  refine ⟨fun hm => ⟨?_, ?_⟩, fun hm => ⟨?_, ?_⟩, fun hm => ?_⟩
  · exact registerListener_dup _ _ Family.ws _ _ _ topic rfl hm
  · exact countP_eq_one _ _ (hi Family.ws).2 hm
  · exact registerListener_dup _ _ Family.updates _ _ _ topic rfl hm
  · exact countP_eq_one _ _ (hi Family.updates).2 hm
  · have ht : topic = "/as/system/status".data :=
      statusKeys_run ops init (by simp [init, ASServicePrivate.construct, listeners]) _ hm
    refine ⟨ht, ?_, countP_eq_one _ _ (hi Family.systemStatus).2 hm⟩
    subst ht
    exact registerListener_dup _ _ Family.systemStatus _ _ _ "/as/system/status".data rfl hm

/-- C5, at a concrete input: a peer registers for a websocket topic twice. -/
theorem registerListener_duplicate_rejected_witness :
    registerWsListener (run [Op.registerWsListener ⟨":1.7", some "/as/a".data⟩ true] init)
        ⟨":1.7", some "/as/a".data⟩ false =
      (MethodReply.error "com.sky.as.Error.AlreadyRegistered",
        run [Op.registerWsListener ⟨":1.7", some "/as/a".data⟩ true] init) ∧
    List.countP (fun e => decide (e = ("/as/a".data, ":1.7")))
      (run [Op.registerWsListener ⟨":1.7", some "/as/a".data⟩ true] init).service.m_registeredWsClients
      = 1 :=
  (registerListener_duplicate_rejected [Op.registerWsListener ⟨":1.7", some "/as/a".data⟩ true]
    "/as/a".data ":1.7" false none).1 (by decide)

end ServiceWorld

namespace ServiceWorld

open ASServicePrivate

theorem updateWebSocket_onLoop (wr : Bool) (w : ServiceWorld) (wsUrl : Url) (wsMessage : String) :
    updateWebSocket ⟨true, wr⟩ w wsUrl wsMessage =
      { w with service := updateWebSocketLambda w.service wsUrl wsMessage } := by
  simp [updateWebSocket]

theorem updateHttpUrl_onLoop (wr : Bool) (w : ServiceWorld) (httpUrl : Url) (tag : Int) :
    updateHttpUrl ⟨true, wr⟩ w httpUrl tag =
      { w with service := updateHttpUrlLambda w.service httpUrl tag } := by
  simp [updateHttpUrl]

end ServiceWorld

namespace Registry

theorem refines_mem (m : ListenerMap) (r : Registry) (hr : Refines m r) (t : Url)
    (p : String) : (t, p) ∈ m ↔ (t, p) ∈ r := by
  have h1 : (t, p) ∈ m ↔ (t, p) ∈ ListenerMap.equal_range m t := by
    simp [ListenerMap.mem_equal_range]
  rw [h1, hr t]
  simp

theorem refines_register (m : ListenerMap) (r : Registry) (t : Url) (p : String)
    (ho : ListenerMap.Ordered m) (hr : Refines m r) :
    Refines (if (t, p) ∉ m then ListenerMap.emplace m t p else m) (subscribe r t p) := by
  by_cases hm : (t, p) ∈ m
  · have hmr : (t, p) ∈ r := (refines_mem m r hr t p).mp hm
    simp only [hm, not_true_eq_false, if_false, subscribe, hmr, if_true]
    exact hr
  · have hmr : (t, p) ∉ r := fun h => hm ((refines_mem m r hr t p).mpr h)
    simp only [hm, not_false_eq_true, if_true, subscribe, hmr, if_false]
    intro topic
    rw [ListenerMap.equal_range_emplace m t p topic ho, hr topic, List.filter_append]
    by_cases ht : t = topic <;> simp [ht]

theorem refines_filter (m : ListenerMap) (r : Registry) (pred : Url × String → Bool)
    (hr : Refines m r) : Refines (List.filter pred m) (List.filter pred r) := by
  intro topic
  rw [ListenerMap.equal_range_filter, hr topic, List.filter_filter, List.filter_filter]
  congr 1
  funext x
  exact Bool.and_comm _ _

open ServiceWorld in
theorem wsStep_refines (w : ServiceWorld) (op : Op) (r : Registry) (hi : Inv w)
    (hr : Refines (w.service.listeners Family.ws) r) :
    Refines ((step w op).service.listeners Family.ws) (wsStep w r op) := by
  cases op with
  | registerWsListener msg wrote =>
    simp only [step, registerWsListener, registerListener_listeners, wsStep, List.isEmpty_nil,
      if_true]
    cases msg.urlArg with
    | none => exact hr
    | some t =>
      simp only [true_and]
      exact refines_register _ r t msg.sender (hi Family.ws).1 hr
  | unregisterWsListener msg =>
    simp only [step, unregisterWsListener, unregisterListener_listeners, wsStep,
      List.isEmpty_nil, if_true]
    cases msg.urlArg with
    | none => exact hr
    | some t => exact refines_filter _ r _ hr
  | registerHttpListener msg wrote =>
    simp only [step, registerHttpListener, registerListener_listeners, wsStep]
    split
    · exact hr
    · simpa using hr
  | unregisterHttpListener msg =>
    simp only [step, unregisterHttpListener, unregisterListener_listeners, wsStep]
    split
    · exact hr
    · simpa using hr
  | registerSystemStatusListener msg wrote =>
    simp only [step, registerSystemStatusListener, registerListener_listeners, wsStep]
    split
    · exact hr
    · simpa using hr
  | unregisterSystemStatusListener msg =>
    simp only [step, unregisterSystemStatusListener, unregisterListener_listeners, wsStep]
    split
    · exact hr
    · simpa using hr
  | updateWebSocket ctx wsUrl wsMessage =>
    simp only [step, updateWebSocket_listeners, wsStep]; exact hr
  | updateHttpUrl ctx httpUrl tag =>
    simp only [step, updateHttpUrl_listeners, wsStep]; exact hr
  | updateSystemStatus ctx update =>
    simp only [step, updateSystemStatus_listeners, wsStep]; exact hr
  | nameLost name => exact hr
  | trackerHandler => exact refines_filter _ r _ hr
  | executeAllMethods fuel =>
    simp only [step, drain_listeners, wsStep]; exact hr

open ServiceWorld in
theorem httpStep_refines (w : ServiceWorld) (op : Op) (r : Registry) (hi : Inv w)
    (hr : Refines (w.service.listeners Family.updates) r) :
    Refines ((step w op).service.listeners Family.updates) (httpStep w r op) := by
  cases op with
  | registerHttpListener msg wrote =>
    simp only [step, registerHttpListener, registerListener_listeners, httpStep,
      List.isEmpty_nil, if_true]
    cases msg.urlArg with
    | none => exact hr
    | some t =>
      simp only [true_and]
      exact refines_register _ r t msg.sender (hi Family.updates).1 hr
  | unregisterHttpListener msg =>
    simp only [step, unregisterHttpListener, unregisterListener_listeners, httpStep,
      List.isEmpty_nil, if_true]
    cases msg.urlArg with
    | none => exact hr
    | some t => exact refines_filter _ r _ hr
  | registerWsListener msg wrote =>
    simp only [step, registerWsListener, registerListener_listeners, httpStep]
    split
    · exact hr
    · simpa using hr
  | unregisterWsListener msg =>
    simp only [step, unregisterWsListener, unregisterListener_listeners, httpStep]
    split
    · exact hr
    · simpa using hr
  | registerSystemStatusListener msg wrote =>
    simp only [step, registerSystemStatusListener, registerListener_listeners, httpStep]
    split
    · exact hr
    · simpa using hr
  | unregisterSystemStatusListener msg =>
    simp only [step, unregisterSystemStatusListener, unregisterListener_listeners, httpStep]
    split
    · exact hr
    · simpa using hr
  | updateWebSocket ctx wsUrl wsMessage =>
    simp only [step, updateWebSocket_listeners, httpStep]; exact hr
  | updateHttpUrl ctx httpUrl tag =>
    simp only [step, updateHttpUrl_listeners, httpStep]; exact hr
  | updateSystemStatus ctx update =>
    simp only [step, updateSystemStatus_listeners, httpStep]; exact hr
  | nameLost name => exact hr
  | trackerHandler => exact refines_filter _ r _ hr
  | executeAllMethods fuel =>
    simp only [step, drain_listeners, httpStep]; exact hr

open ServiceWorld in
theorem after_wsStep_refines (ops : List Op) (w : ServiceWorld) (r : Registry) (hi : Inv w)
    (hr : Refines (w.service.listeners Family.ws) r) :
    Refines ((run ops w).service.listeners Family.ws) (after wsStep ops w r) := by
  induction ops generalizing w r with
  | nil => exact hr
  | cons op rest ih =>
    exact ih (step w op) (wsStep w r op) (step_inv w op hi) (wsStep_refines w op r hi hr)

open ServiceWorld in
theorem after_httpStep_refines (ops : List Op) (w : ServiceWorld) (r : Registry) (hi : Inv w)
    (hr : Refines (w.service.listeners Family.updates) r) :
    Refines ((run ops w).service.listeners Family.updates) (after httpStep ops w r) := by
  induction ops generalizing w r with
  | nil => exact hr
  | cons op rest ih =>
    exact ih (step w op) (httpStep w r op) (step_inv w op hi) (httpStep_refines w op r hi hr)

theorem subscribers_nodup (m : ListenerMap) (r : Registry) (hr : Refines m r)
    (hn : List.Nodup m) (t : Url) : (subscribers r t).Nodup := by
  unfold subscribers
  rw [← hr t]
  refine List.Nodup.map_on ?_ (List.Nodup.filter _ hn)
  intro x hx y hy hxy
  have h1 := ((ListenerMap.mem_equal_range m t x).mp hx).2
  have h2 := ((ListenerMap.mem_equal_range m t y).mp hy).2
  exact Prod.ext (h1.trans h2.symm) hxy

theorem mem_subscribers (m : ListenerMap) (r : Registry) (hr : Refines m r) (t : Url)
    (p : String) : p ∈ subscribers r t ↔ (t, p) ∈ m := by
  rw [refines_mem m r hr t p]
  simp only [subscribers, List.mem_map, List.mem_filter, decide_eq_true_eq]
  constructor
  · rintro ⟨⟨a, b⟩, ⟨hm, h1⟩, h2⟩
    simp only at h1 h2
    subst h1
    subst h2
    exact hm
  · intro h
    exact ⟨(t, p), ⟨h, rfl⟩, rfl⟩

end Registry

namespace ServiceWorld

open ASServicePrivate

/-- C7: in every state the service can reach, a publish executed on the loop
thread for `topic` (websocket: value `v`; HTTP update: value `tag`) sets the
cached value of `topic`, leaves the cached value of every other topic as it
was, and sends the update exactly to the peers subscribed to `topic`, once
each, in the order in which they registered: the signals appended to the log
are those for `Registry.subscribers` of the registry kept from the history of
operations, which has no peer twice and holds exactly the peers with an entry
for `topic` in the listener map.  The lambda a publish from another thread
queues has the same effect when the drain runs it. -/
theorem publish_in_registration_order (ops : List Op) (topic : Url) (wr : Bool)
    (v : String) (tag : Int) :
    (StdMap.find (updateWebSocket ⟨true, wr⟩ (run ops init) topic v).service.m_wsCacheMessages
        topic = some v ∧
      (∀ other, other ≠ topic →
        StdMap.find (updateWebSocket ⟨true, wr⟩ (run ops init) topic v).service.m_wsCacheMessages
          other = StdMap.find (run ops init).service.m_wsCacheMessages other) ∧
      (updateWebSocket ⟨true, wr⟩ (run ops init) topic v).service.sent =
        (run ops init).service.sent ++
          List.map (fun p => Signal.WebSocketUpdate p topic v)
            (Registry.subscribers (Registry.after Registry.wsStep ops init []) topic) ∧
      (Registry.subscribers (Registry.after Registry.wsStep ops init []) topic).Nodup ∧
      (∀ p, p ∈ Registry.subscribers (Registry.after Registry.wsStep ops init []) topic ↔
        (topic, p) ∈ (run ops init).service.m_registeredWsClients) ∧
      (runMethod (Method.updateWebSocket topic v) (run ops init).service).1 =
        (updateWebSocket ⟨true, wr⟩ (run ops init) topic v).service) ∧
    (StdMap.find (updateHttpUrl ⟨true, wr⟩ (run ops init) topic tag).service.m_httpCachedTag
        topic = some tag ∧
      (∀ other, other ≠ topic →
        StdMap.find (updateHttpUrl ⟨true, wr⟩ (run ops init) topic tag).service.m_httpCachedTag
          other = StdMap.find (run ops init).service.m_httpCachedTag other) ∧
      (updateHttpUrl ⟨true, wr⟩ (run ops init) topic tag).service.sent =
        (run ops init).service.sent ++
          List.map (fun p => Signal.HttpUpdate p topic tag)
            (Registry.subscribers (Registry.after Registry.httpStep ops init []) topic) ∧
      (Registry.subscribers (Registry.after Registry.httpStep ops init []) topic).Nodup ∧
      (∀ p, p ∈ Registry.subscribers (Registry.after Registry.httpStep ops init []) topic ↔
        (topic, p) ∈ (run ops init).service.m_registeredUpdatesClients) ∧
      (runMethod (Method.updateHttpUrl topic tag) (run ops init).service).1 =
        (updateHttpUrl ⟨true, wr⟩ (run ops init) topic tag).service) := by
  have hi := run_inv ops init init_inv
  have hws := Registry.after_wsStep_refines ops init [] init_inv (fun t => rfl)
  have hhttp := Registry.after_httpStep_refines ops init [] init_inv (fun t => rfl)
  constructor
  · rw [updateWebSocket_onLoop, updateWebSocketLambda_eq]
    refine ⟨StdMap.find_assign_self _ _ _, fun other hne => StdMap.find_assign_ne _ _ _ _ hne,
      ?_, Registry.subscribers_nodup _ _ hws (hi Family.ws).2 topic,
      fun p => Registry.mem_subscribers _ _ hws topic p,
      by simp [runMethod, updateWebSocketLambda_eq]⟩
    have he : ListenerMap.equal_range (run ops init).service.m_registeredWsClients topic =
        List.filter (fun (e : Url × String) => decide (e.1 = topic))
          (Registry.after Registry.wsStep ops init []) := hws topic
    simp only [he, Registry.subscribers, List.map_map]
    rfl
  · rw [updateHttpUrl_onLoop, updateHttpUrlLambda_eq]
    refine ⟨StdMap.find_assign_self _ _ _, fun other hne => StdMap.find_assign_ne _ _ _ _ hne,
      ?_, Registry.subscribers_nodup _ _ hhttp (hi Family.updates).2 topic,
      fun p => Registry.mem_subscribers _ _ hhttp topic p,
      by simp [runMethod, updateHttpUrlLambda_eq]⟩
    have he : ListenerMap.equal_range (run ops init).service.m_registeredUpdatesClients topic =
        List.filter (fun (e : Url × String) => decide (e.1 = topic))
          (Registry.after Registry.httpStep ops init []) := hhttp topic
    simp only [he, Registry.subscribers, List.map_map]
    rfl

/-- C7, at a concrete input: three peers register for topic `/as/b`, in the
order :1.9, :1.3, :1.5, among registrations for other topics; the second one
leaves and registers again; a publish for `/as/b` is sent to :1.9, :1.5, :1.3
in that order and to nobody else. -/
theorem publish_in_registration_order_witness :
    (updateWebSocket ⟨true, true⟩
      (run [Op.registerWsListener ⟨":1.9", some "/as/b".data⟩ true,
            Op.registerWsListener ⟨":1.4", some "/as/c".data⟩ true,
            Op.registerWsListener ⟨":1.3", some "/as/b".data⟩ true,
            Op.registerWsListener ⟨":1.5", some "/as/b".data⟩ true,
            Op.registerWsListener ⟨":1.6", some "/as/a".data⟩ true,
            Op.unregisterWsListener ⟨":1.3", some "/as/b".data⟩,
            Op.registerWsListener ⟨":1.3", some "/as/b".data⟩ true,
            Op.executeAllMethods 10] init)
      "/as/b".data "v").service.sent =
      [Signal.WebSocketUpdate ":1.9" "/as/b".data "v",
       Signal.WebSocketUpdate ":1.5" "/as/b".data "v",
       Signal.WebSocketUpdate ":1.3" "/as/b".data "v"] :=
  (publish_in_registration_order
      [Op.registerWsListener ⟨":1.9", some "/as/b".data⟩ true,
       Op.registerWsListener ⟨":1.4", some "/as/c".data⟩ true,
       Op.registerWsListener ⟨":1.3", some "/as/b".data⟩ true,
       Op.registerWsListener ⟨":1.5", some "/as/b".data⟩ true,
       Op.registerWsListener ⟨":1.6", some "/as/a".data⟩ true,
       Op.unregisterWsListener ⟨":1.3", some "/as/b".data⟩,
       Op.registerWsListener ⟨":1.3", some "/as/b".data⟩ true,
       Op.executeAllMethods 10] "/as/b".data true "v" 0).1.2.2.1

/-- What the tracker handler does achieve: in the websocket and the HTTP-update
map no entry is left whose peer the tracker does not report. -/
theorem trackerHandler_removes_untracked (track : List String) (self : ASServicePrivate)
    (x : Url × String) :
    (x ∈ (ASServicePrivate.trackerHandler track self).m_registeredWsClients → x.2 ∈ track) ∧
    (x ∈ (ASServicePrivate.trackerHandler track self).m_registeredUpdatesClients →
      x.2 ∈ track) := by
  constructor <;>
  · intro hx
    simp only [ASServicePrivate.trackerHandler, removeUntrackedListeners, List.mem_filter,
      sd_bus_track_contains, decide_eq_true_eq] at hx
    exact hx.2

/-- C4, evaluated where the code departs from it: peer :1.7 registers for the
system status and for a websocket topic, then vanishes (sd-bus drops it from
the tracker and calls the tracker handler).  The websocket subscription is
removed, but the system-status subscription is still there although the
tracker no longer reports the peer, and the next status update is sent to it. -/
theorem trackerHandler_keeps_system_status_listener :
    (run [Op.registerSystemStatusListener ⟨":1.7", none⟩ true,
          Op.registerWsListener ⟨":1.7", some "/as/a".data⟩ true,
          Op.executeAllMethods 2,
          Op.nameLost ":1.7",
          Op.trackerHandler] init).service =
      { m_tracker := [], m_wsCacheMessages := [], m_httpCachedTag := [],
        m_SystemStatusCachedMessage := [], m_registeredWsClients := [],
        m_registeredUpdatesClients := [],
        m_registeredSystemStatusClients := [("/as/system/status".data, ":1.7")],
        sent := [] } ∧
    (run [Op.registerSystemStatusListener ⟨":1.7", none⟩ true,
          Op.registerWsListener ⟨":1.7", some "/as/a".data⟩ true,
          Op.executeAllMethods 2,
          Op.nameLost ":1.7",
          Op.trackerHandler,
          Op.updateSystemStatus ⟨true, true⟩
            [("servicelist".data, [("state", Variant.str "available")])]] init).service.sent =
      [Signal.SysStatusUpdate ":1.7"
        [("servicelist".data, [("state", Variant.str "available")])]] := by
  decide

/-- C8, evaluated where the code departs from it: peer :1.7 registers for a
websocket topic and for an HTTP-update topic, then unregisters the websocket
topic.  It still has the HTTP-update subscription, but it is no longer in the
tracker: `unregisterListener` looked for remaining subscriptions in the
websocket map only. -/
theorem unregisterListener_untracks_subscribed_peer :
    (run [Op.registerWsListener ⟨":1.7", some "/as/a".data⟩ true,
          Op.registerHttpListener ⟨":1.7", some "/as/b".data⟩ true,
          Op.unregisterWsListener ⟨":1.7", some "/as/a".data⟩] init).service.m_tracker = [] ∧
    (run [Op.registerWsListener ⟨":1.7", some "/as/a".data⟩ true,
          Op.registerHttpListener ⟨":1.7", some "/as/b".data⟩ true,
          Op.unregisterWsListener ⟨":1.7", some "/as/a".data⟩]
      init).service.m_registeredUpdatesClients = [("/as/b".data, ":1.7")] := by
  decide

end ServiceWorld

/-! ### Asynchronous and synchronous calls -/

namespace DBusConnectionPrivate

theorem execCall_sent (c : ExecCall) (self : DBusConnectionPrivate)
    (h : c.outcome.sent = true) :
    execCall c self =
      (true, { self with
        m_callbacks := StdMap.emplace self.m_callbacks c.outcome.cookie c.callback }) := by
  simp only [CallOutcome.sent, Bool.and_eq_true, decide_eq_true_eq] at h
  have h1 : ¬ c.outcome.sd_bus_call_async < 0 := not_lt.mpr h.1.2
  have h2 : ¬ c.outcome.sd_bus_message_get_cookie < 0 := not_lt.mpr h.2
  simp [execCall, h.1.1, h1, h2]

theorem execCall_not_sent (c : ExecCall) (self : DBusConnectionPrivate)
    (h : c.outcome.sent = false) :
    execCall c self = (false, callIfSet self c.errorCallback DBusMessage.failed) := by
  unfold execCall
  split
  · rfl
  · split
    · rfl
    · split
      · rfl
      · next h1 h2 h3 =>
        exfalso
        have : c.outcome.sent = true := by
          simp only [CallOutcome.sent, Bool.and_eq_true, decide_eq_true_eq]
          simp only [Bool.not_eq_true', Bool.not_eq_false] at h1
          exact ⟨⟨h1, not_lt.mp h2⟩, not_lt.mp h3⟩
        rw [h] at this
        exact Bool.false_ne_true this

theorem callWithCallback_foreign (wrote : Bool) (w : ConnectionWorld) (outcome : CallOutcome)
    (callback : ReplyCallback) :
    callWithCallback ⟨false, wrote⟩ w outcome callback =
      (wrote, { w with loop := { m_methods := w.loop.m_methods ++
        [some { callback := callback, errorCallback := callback, outcome := outcome }] } }) := by
  cases wrote <;> simp [callWithCallback, EventLoopPrivate.invokeMethod]

end DBusConnectionPrivate

namespace ConnectionWorld

theorem drain_one_call (fuel : Nat) (w : ConnectionWorld) (c : ExecCall)
    (h : w.loop.m_methods = [some c]) (hf : 1 ≤ fuel) :
    drain fuel w =
      { conn := (DBusConnectionPrivate.execCall c w.conn).2, loop := { m_methods := [] } } := by
  obtain ⟨n, rfl⟩ : ∃ n, fuel = n + 1 := ⟨fuel - 1, by omega⟩
  cases n with
  | zero => simp [drain, EventLoopPrivate.executeAllMethods, h, runQueued]
  | succ m => simp [drain, EventLoopPrivate.executeAllMethods, h, runQueued]

end ConnectionWorld

namespace DBusConnection

open DBusConnectionPrivate

/-- C11: an asynchronous call issued from a thread other than the loop thread is
queued with the callback as its error callback, and each execution of it on the
loop thread ends in exactly one of two ways.  If message construction, the send
and the cookie retrieval succeed, the callback is stored in `m_callbacks` under
the new cookie and is not called.  Otherwise the callback is called exactly once
with `DBusMessage(DBusMessage::Failed)` and `m_callbacks` is unchanged.  Hence a
synchronous caller on another thread, whose lambda posts the semaphore it waits
on, is released with the Failed message once the loop has run a call that fails
before sending. -/
theorem callWithCallback_foreign_stores_or_fails (w : ConnectionWorld) (outcome : CallOutcome)
    (cb lambda : Nat) (wrote : Bool) (fuel : Nat) (sync : SyncOutcome) :
    DBusConnectionPrivate.callWithCallback ⟨false, wrote⟩ w outcome (some cb) =
      (wrote, { w with loop := { m_methods := w.loop.m_methods ++
        [some { callback := some cb, errorCallback := some cb, outcome := outcome }] } }) ∧
    (∀ self : DBusConnectionPrivate, outcome.sent = true →
      StdMap.find self.m_callbacks outcome.cookie = none →
      execCall { callback := some cb, errorCallback := some cb, outcome := outcome } self =
        (true, { self with
          m_callbacks := StdMap.emplace self.m_callbacks outcome.cookie (some cb) }) ∧
      StdMap.find (StdMap.emplace self.m_callbacks outcome.cookie (some cb)) outcome.cookie =
        some (some cb)) ∧
    (∀ self : DBusConnectionPrivate, outcome.sent = false →
      execCall { callback := some cb, errorCallback := some cb, outcome := outcome } self =
        (false, { self with called := self.called ++ [(cb, DBusMessage.failed)] })) ∧
    (outcome.sent = false → w.loop.m_methods = [] → 1 ≤ fuel →
      (∀ e ∈ w.conn.called, e.1 ≠ lambda) →
      call ⟨false, true⟩ true w MessageType.MethodCallMessage sync outcome lambda
          (ConnectionWorld.drain fuel) =
        (some DBusMessage.failed,
          { conn := { w.conn with called := w.conn.called ++ [(lambda, DBusMessage.failed)] },
            loop := { m_methods := [] } })) := by
  refine ⟨callWithCallback_foreign wrote w outcome (some cb), ?_, ?_, ?_⟩
  · intro self hs hnew
    exact ⟨execCall_sent _ self hs, StdMap.find_emplace_self _ _ _ hnew⟩
  · intro self hs
    rw [execCall_not_sent _ self hs]
    rfl
  · intro hs hq hf hfresh
    have hdrain : ConnectionWorld.drain fuel
        (DBusConnectionPrivate.callWithCallback ⟨false, true⟩ w outcome (some lambda)).2 =
        { conn := { w.conn with called := w.conn.called ++ [(lambda, DBusMessage.failed)] },
          loop := { m_methods := [] } } := by
      rw [callWithCallback_foreign true w outcome (some lambda)]
      rw [ConnectionWorld.drain_one_call fuel _
        { callback := some lambda, errorCallback := some lambda, outcome := outcome }
        (by simp [hq]) hf]
      rw [execCall_not_sent _ _ hs]
      rfl
    have hfind : List.find? (fun (e : Nat × DBusMessage) => decide (e.1 = lambda))
        (w.conn.called ++ [(lambda, DBusMessage.failed)]) = some (lambda, DBusMessage.failed) := by
      rw [List.find?_append]
      have hnone : List.find? (fun (e : Nat × DBusMessage) => decide (e.1 = lambda))
          w.conn.called = none := by
        rw [List.find?_eq_none]
        intro e he
        simpa using hfresh e he
      simp [hnone]
    unfold call
    simp only [ne_eq, not_true_eq_false, if_false, Bool.not_true, Bool.false_eq_true]
    rw [hdrain]
    simp only [callWithCallback_foreign, Bool.not_true, Bool.false_eq_true, if_false, hfind]

/-- C11, at a concrete input: a synchronous call from another thread whose
message cannot be built. -/
theorem callWithCallback_foreign_stores_or_fails_witness :
    call ⟨false, true⟩ true { conn := { m_callbacks := [], called := [] }, loop := { m_methods := [] } }
        MessageType.MethodCallMessage ⟨true, 0, none⟩ ⟨false, 0, 0, 5⟩ 1
        (ConnectionWorld.drain 1) =
      (some DBusMessage.failed,
        { conn := { m_callbacks := [], called := [(1, DBusMessage.failed)] },
          loop := { m_methods := [] } }) :=
  (callWithCallback_foreign_stores_or_fails
    { conn := { m_callbacks := [], called := [] }, loop := { m_methods := [] } }
    ⟨false, 0, 0, 5⟩ 0 1 true 1 ⟨true, 0, none⟩).2.2.2 rfl rfl (le_refl 1)
    (fun e he => by simp at he)

/-- C12: a call whose message type is not method-call is rejected before
anything else is looked at.  The synchronous call returns
`DBusMessage(DBusMessage::Failed)`; the asynchronous call returns false.  In
both cases the world is unchanged (no callback called, nothing added to
`m_callbacks` or to the deferred-work queue), whatever the thread, the state of
the connection and the outcome sd-bus would have produced. -/
theorem non_method_call_rejected (ctx : CallCtx) (connected : Bool) (w : ConnectionWorld)
    (type : MessageType) (sync : SyncOutcome) (outcome : CallOutcome) (lambda : Nat)
    (callback : ReplyCallback) (loopThread : ConnectionWorld → ConnectionWorld)
    (h : type ≠ MessageType.MethodCallMessage) :
    call ctx connected w type sync outcome lambda loopThread = (some DBusMessage.failed, w) ∧
    callWithCallback ctx connected w type outcome callback = (false, w) := by
  simp [call, callWithCallback, h]

/-- C12, at a concrete input: a signal message handed to both call functions. -/
theorem non_method_call_rejected_witness :
    call ⟨false, true⟩ true { conn := { m_callbacks := [], called := [] }, loop := { m_methods := [] } }
        MessageType.SignalMessage ⟨true, 0, some 3⟩ (DBusConnectionPrivate.accepted 5) 1
        (ConnectionWorld.drain 1) =
      (some DBusMessage.failed,
        { conn := { m_callbacks := [], called := [] }, loop := { m_methods := [] } }) ∧
    callWithCallback ⟨false, true⟩ true
        { conn := { m_callbacks := [], called := [] }, loop := { m_methods := [] } }
        MessageType.SignalMessage (DBusConnectionPrivate.accepted 5) (some 2) =
      (false, { conn := { m_callbacks := [], called := [] }, loop := { m_methods := [] } }) :=
  non_method_call_rejected ⟨false, true⟩ true
    { conn := { m_callbacks := [], called := [] }, loop := { m_methods := [] } }
    MessageType.SignalMessage ⟨true, 0, some 3⟩ (DBusConnectionPrivate.accepted 5) 1 (some 2)
    (ConnectionWorld.drain 1) (by decide)

end DBusConnection

/-! ### Parsing a request, replying off the loop thread, canned errors -/

namespace ASRequestPrivate

/-- What `parseRequest` does get right: a message whose signature does not
match, or whose first read fails, is invalid and is answered with the
invalid-arguments error. -/
theorem request_rejects_bad_signature (msg : RequestMessage) (newReply : Option Nat)
    (h : msg.has_signature = false ∨ msg.readFlagsPath < 0) :
    ASServicePrivate.request msg newReply = RequestOutcome.invalidArgs := by
  have hp : (parseRequest msg).1 = false := by
    unfold parseRequest
    rcases h with h | h
    · simp [h]
    · by_cases hs : msg.has_signature = true <;> simp [hs, h]
  simp [ASServicePrivate.request, constructFrom, construct, hp, isValid]

/-- C14, as the code has it: at a concrete input, when `sendReply` called from
another thread returns, nothing has been transmitted (the reply is only queued),
and on a bus where marshalling fails the call still returns true although the
transmit step, when run, returns false. -/
theorem sendReply_foreign_not_transmitted :
    (sendReply Bus.working ⟨false, true⟩ (construct true (some 7)) ReplyWorld.empty
      200 [] "ok").2.2 =
      { loop := { m_methods := [some ⟨some 7, 200, [], "ok"⟩] },
        bus := { handed := [], wire := [] } } ∧
    (sendReply Bus.marshalFails ⟨false, true⟩ (construct true (some 7)) ReplyWorld.empty
      200 [] "ok").1 = true ∧
    (marshallAndSendReply Bus.marshalFails ⟨some 7, 200, [], "ok"⟩
      ReplyWorld.empty.bus).1 = false := by
  decide

/-- C14, amended: when `sendReply` is called from a thread other than the loop
thread on a valid, unanswered request, the marshal-and-transmit step is queued
with the non-blocking `invokeMethod`.  When `sendReply` returns, the request is
marked as answered, the bound `marshallAndSendReply` is at the back of the
deferred-work queue, nothing has been marshalled or transmitted, and the value
returned is the outcome of the wake-up write.  The reply is marshalled and
transmitted when the loop next drains its queue. -/
theorem sendReply_foreign_queues (bus : Bus) (ctx : CallCtx) (reply : Nat) (w : ReplyWorld)
    (code : Nat) (headers : ASRequest.HeaderMap) (body : String) (fuel : Nat)
    (hctx : ctx.onEventLoopThread = false) :
    sendReply bus ctx (construct true (some reply)) w code headers body =
      (ctx.wrote, { m_reply := none, m_sentReply := true },
        { w with loop := { m_methods := w.loop.m_methods ++
            [some { reply := some reply, code := code, headers := headers, body := body }] } }) ∧
    (w.loop.m_methods = [] → 1 ≤ fuel →
      drain bus fuel (sendReply bus ctx (construct true (some reply)) w code headers body).2.2 =
        { loop := { m_methods := [] },
          bus := (marshallAndSendReply bus
            { reply := some reply, code := code, headers := headers, body := body } w.bus).2 }) := by
  have hc : construct true (some reply) = { m_reply := some reply, m_sentReply := false } := rfl
  constructor
  · rw [hc, sendReply_accepted]
    simp only [doSendReply, hctx, EventLoopPrivate.invokeMethod]
    cases ctx.wrote <;> rfl
  · intro hq hf
    rw [hc, sendReply_accepted, drain_doSendReply _ _ _ _ _ _ _ _ hq hf]

/-- C14 amended, at a concrete input. -/
theorem sendReply_foreign_queues_witness :
    sendReply Bus.working ⟨false, true⟩ (construct true (some 7)) ReplyWorld.empty 200 [] "ok" =
      (true, { m_reply := none, m_sentReply := true },
        { loop := { m_methods := [some ⟨some 7, 200, [], "ok"⟩] },
          bus := { handed := [], wire := [] } }) :=
  (sendReply_foreign_queues Bus.working ⟨false, true⟩ 7 ReplyWorld.empty 200 [] "ok" 1 rfl).1

end ASRequestPrivate

namespace ASRequest

/-- What the four-argument `sendErrorReply` leads to on a request that is valid
and not yet answered, once the loop has drained: one call is handed to the
transport, with the status code as reply code, no headers and the formatted
body; with a working bus it is transmitted.  The request is marked answered. -/
theorem sendErrorReplyCodes_handed (bus : Bus) (ctx : CallCtx) (reply : Nat) (w : ReplyWorld)
    (httpCode errorCode : Int) (userMessage developerMessage : String) (fuel : Nat)
    (hm : ∀ c, 0 ≤ bus.marshallReply c) (hs : ∀ c, 0 ≤ bus.sd_bus_send c)
    (hq : w.loop.m_methods = []) (hf : 1 ≤ fuel) :
    (ASRequestPrivate.drain bus fuel
      (sendErrorReplyCodes bus ctx ⟨some reply, false⟩ w httpCode errorCode userMessage
        developerMessage).2.2).bus =
      ⟨w.bus.handed ++ [⟨some reply, (httpCode % 4294967296).toNat, [],
          snprintf 128 (errorReplyText errorCode userMessage developerMessage)⟩],
        w.bus.wire ++ [⟨some reply, (httpCode % 4294967296).toNat, [],
          snprintf 128 (errorReplyText errorCode userMessage developerMessage)⟩]⟩ ∧
    (sendErrorReplyCodes bus ctx ⟨some reply, false⟩ w httpCode errorCode userMessage
      developerMessage).2.1 = ⟨none, true⟩ := by
  unfold sendErrorReplyCodes
  rw [ASRequestPrivate.sendReply_accepted, ASRequestPrivate.drain_doSendReply _ _ _ _ _ _ _ _ hq hf,
    ASRequestPrivate.marshallAndSendReply_ok _ _ _ (hm _) (hs _),
    ASRequestPrivate.doSendReply_sent]
  exact ⟨rfl, rfl⟩

/-- C20: `sendErrorReply(type, developerMessage)` replies with a triple fixed by
the error type alone, whatever the developer message: (404, 101, "Invalid URL")
for `InvalidUrlError`, (400, 102, "Invalid Parameters") for
`InvalidParametersError`, (500, 103, "Generic failure") for `GenericFailureError`
and (404, 104, "Not supported on this device") for `NotSupportedError`.  On a
request that is valid and not yet answered, on whatever thread, with a working
bus and once the loop has drained, exactly one reply has been handed to the
transport and transmitted: its reply code is the status code of the triple, it
has no headers, and its body is the text formatted from the error code and the
user message of the triple (and the developer message, which adds only the
`developerMessage` field), cut to 127 characters; the request is then marked
answered.  For any request the call is `sendReply` with that code and body. -/
theorem sendErrorReply_canned (bus : Bus) (ctx : CallCtx) (self : ASRequestPrivate)
    (reply : Nat) (w : ReplyWorld) (developerMessage : String) (fuel : Nat)
    (hm : ∀ c, 0 ≤ bus.marshallReply c) (hs : ∀ c, 0 ≤ bus.sd_bus_send c)
    (hq : w.loop.m_methods = []) (hf : 1 ≤ fuel) :
    ((sendErrorReply bus ctx ⟨some reply, false⟩ w ErrorType.InvalidUrlError
        developerMessage).map (fun r => ((ASRequestPrivate.drain bus fuel r.2.2).bus, r.2.1)) =
      some (⟨w.bus.handed ++ [⟨some reply, 404, [],
          snprintf 128 (errorReplyText 101 "Invalid URL" developerMessage)⟩],
        w.bus.wire ++ [⟨some reply, 404, [],
          snprintf 128 (errorReplyText 101 "Invalid URL" developerMessage)⟩]⟩,
        ⟨none, true⟩)) ∧
    ((sendErrorReply bus ctx ⟨some reply, false⟩ w ErrorType.InvalidParametersError
        developerMessage).map (fun r => ((ASRequestPrivate.drain bus fuel r.2.2).bus, r.2.1)) =
      some (⟨w.bus.handed ++ [⟨some reply, 400, [],
          snprintf 128 (errorReplyText 102 "Invalid Parameters" developerMessage)⟩],
        w.bus.wire ++ [⟨some reply, 400, [],
          snprintf 128 (errorReplyText 102 "Invalid Parameters" developerMessage)⟩]⟩,
        ⟨none, true⟩)) ∧
    ((sendErrorReply bus ctx ⟨some reply, false⟩ w ErrorType.GenericFailureError
        developerMessage).map (fun r => ((ASRequestPrivate.drain bus fuel r.2.2).bus, r.2.1)) =
      some (⟨w.bus.handed ++ [⟨some reply, 500, [],
          snprintf 128 (errorReplyText 103 "Generic failure" developerMessage)⟩],
        w.bus.wire ++ [⟨some reply, 500, [],
          snprintf 128 (errorReplyText 103 "Generic failure" developerMessage)⟩]⟩,
        ⟨none, true⟩)) ∧
    ((sendErrorReply bus ctx ⟨some reply, false⟩ w ErrorType.NotSupportedError
        developerMessage).map (fun r => ((ASRequestPrivate.drain bus fuel r.2.2).bus, r.2.1)) =
      some (⟨w.bus.handed ++ [⟨some reply, 404, [],
          snprintf 128 (errorReplyText 104 "Not supported on this device" developerMessage)⟩],
        w.bus.wire ++ [⟨some reply, 404, [],
          snprintf 128 (errorReplyText 104 "Not supported on this device"
            developerMessage)⟩]⟩,
        ⟨none, true⟩)) ∧
    sendErrorReply bus ctx self w ErrorType.InvalidUrlError developerMessage =
      some (ASRequestPrivate.sendReply bus ctx self w 404 []
        (snprintf 128 (errorReplyText 101 "Invalid URL" developerMessage))) ∧
    sendErrorReply bus ctx self w ErrorType.InvalidParametersError developerMessage =
      some (ASRequestPrivate.sendReply bus ctx self w 400 []
        (snprintf 128 (errorReplyText 102 "Invalid Parameters" developerMessage))) ∧
    sendErrorReply bus ctx self w ErrorType.GenericFailureError developerMessage =
      some (ASRequestPrivate.sendReply bus ctx self w 500 []
        (snprintf 128 (errorReplyText 103 "Generic failure" developerMessage))) ∧
    sendErrorReply bus ctx self w ErrorType.NotSupportedError developerMessage =
      some (ASRequestPrivate.sendReply bus ctx self w 404 []
        (snprintf 128 (errorReplyText 104 "Not supported on this device" developerMessage))) ∧
    snprintf 128 (errorReplyText 101 "Invalid URL" "") =
      "\x7b \"errorCode\": 101, \"userMessage\": \"Invalid URL\" \x7d" ∧
    snprintf 128 (errorReplyText 102 "Invalid Parameters" "") =
      "\x7b \"errorCode\": 102, \"userMessage\": \"Invalid Parameters\" \x7d" ∧
    snprintf 128 (errorReplyText 103 "Generic failure" "") =
      "\x7b \"errorCode\": 103, \"userMessage\": \"Generic failure\" \x7d" ∧
    snprintf 128 (errorReplyText 104 "Not supported on this device" "") =
      "\x7b \"errorCode\": 104, \"userMessage\": \"Not supported on this device\" \x7d" := by
  have key : ∀ (httpCode errorCode : Int) (userMessage : String),
      (some (sendErrorReplyCodes bus ctx ⟨some reply, false⟩ w httpCode errorCode userMessage
        developerMessage)).map
        (fun r => ((ASRequestPrivate.drain bus fuel r.2.2).bus, r.2.1)) =
      some (⟨w.bus.handed ++ [⟨some reply, (httpCode % 4294967296).toNat, [],
          snprintf 128 (errorReplyText errorCode userMessage developerMessage)⟩],
        w.bus.wire ++ [⟨some reply, (httpCode % 4294967296).toNat, [],
          snprintf 128 (errorReplyText errorCode userMessage developerMessage)⟩]⟩,
        ⟨none, true⟩) := by
    intro httpCode errorCode userMessage
    obtain ⟨h1, h2⟩ := sendErrorReplyCodes_handed bus ctx reply w httpCode errorCode
      userMessage developerMessage fuel hm hs hq hf
    simp only [Option.map_some']
    rw [h1, h2]
  refine ⟨key 404 101 "Invalid URL", key 400 102 "Invalid Parameters",
    key 500 103 "Generic failure", key 404 104 "Not supported on this device",
    rfl, rfl, rfl, rfl, ?_, ?_, ?_, ?_⟩ <;> decide

/-- C20 at a concrete input: `sendErrorReply(InvalidUrlError, "")` called from
another thread on a fresh valid request; after the drain the transport has been
handed, and has transmitted, the reply with code 404 and the canned body. -/
theorem sendErrorReply_canned_witness :
    (sendErrorReply Bus.working ⟨false, true⟩ ⟨some 7, false⟩ ReplyWorld.empty
        ErrorType.InvalidUrlError "").map
        (fun r => ((ASRequestPrivate.drain Bus.working 1 r.2.2).bus, r.2.1)) =
      some (⟨[⟨some 7, 404, [], snprintf 128 (errorReplyText 101 "Invalid URL" "")⟩],
        [⟨some 7, 404, [], snprintf 128 (errorReplyText 101 "Invalid URL" "")⟩]⟩,
        ⟨none, true⟩) ∧
    snprintf 128 (errorReplyText 101 "Invalid URL" "") =
      "\x7b \"errorCode\": 101, \"userMessage\": \"Invalid URL\" \x7d" :=
  ⟨(sendErrorReply_canned Bus.working ⟨false, true⟩ ⟨some 7, false⟩ 7 ReplyWorld.empty "" 1
    (fun _ => le_refl 0) (fun _ => le_refl 0) rfl (by decide)).1,
   (sendErrorReply_canned Bus.working ⟨false, true⟩ ⟨some 7, false⟩ 7 ReplyWorld.empty "" 1
    (fun _ => le_refl 0) (fun _ => le_refl 0) rfl
    (by decide)).2.2.2.2.2.2.2.2.1⟩

end ASRequest

namespace ServiceWorld

open ASServicePrivate

theorem setListeners_listeners (self : ASServicePrivate) (fam : Family) :
    self.setListeners fam (self.listeners fam) = self := by
  cases fam <;> rfl

theorem unregisterListener_unknown (w : ServiceWorld) (msg : MethodCall) (fam : Family)
    (d : Url) (t : Url) (h : (if d.isEmpty then msg.urlArg else some d) = some t)
    (hm : (t, msg.sender) ∉ w.service.listeners fam) :
    unregisterListener w msg fam d =
      (MethodReply.error SD_BUS_ERROR_SERVICE_UNKNOWN, w) := by
  unfold unregisterListener
  rw [h]
  have hany : List.any (ListenerMap.equal_range (w.service.listeners fam) t)
      (fun it => decide (it.2 = msg.sender)) = false := by
    rw [Bool.eq_false_iff]
    exact fun hc => hm ((ListenerMap.any_equal_range _ t msg.sender).mp hc)
  have hfilter : List.filter
      (fun (it : Url × String) => !(decide (it.1 = t) && decide (it.2 = msg.sender)))
      (w.service.listeners fam) = w.service.listeners fam := by
    rw [List.filter_eq_self]
    intro x hx
    simp only [Bool.not_eq_true', Bool.and_eq_false_imp, decide_eq_true_eq, decide_eq_false_iff_not]
    intro h1 h2
    exact hm (by rw [← h1, ← h2]; exact hx)
  simp only [hany, hfilter, setListeners_listeners, Bool.not_false, if_true]

/-- C19: in each of the three topic families, unregistering a (topic, peer) pair
that is not in the family's listener map is answered with
`org.freedesktop.DBus.Error.ServiceUnknown` and leaves the whole world
unchanged: the listener maps, the tracker and the deferred-work queue. -/
theorem unregisterListener_unknown_rejected (w : ServiceWorld) (topic : Url) (peer : String)
    (arg : Option Url) :
    ((topic, peer) ∉ w.service.m_registeredWsClients →
      unregisterWsListener w ⟨peer, some topic⟩ =
        (MethodReply.error "org.freedesktop.DBus.Error.ServiceUnknown", w)) ∧
    ((topic, peer) ∉ w.service.m_registeredUpdatesClients →
      unregisterHttpListener w ⟨peer, some topic⟩ =
        (MethodReply.error "org.freedesktop.DBus.Error.ServiceUnknown", w)) ∧
    (("/as/system/status".data, peer) ∉ w.service.m_registeredSystemStatusClients →
      unregisterSystemStatusListener w ⟨peer, arg⟩ =
        (MethodReply.error "org.freedesktop.DBus.Error.ServiceUnknown", w)) := by
  refine ⟨fun hm => ?_, fun hm => ?_, fun hm => ?_⟩
  · exact unregisterListener_unknown w ⟨peer, some topic⟩ Family.ws [] topic rfl hm
  · exact unregisterListener_unknown w ⟨peer, some topic⟩ Family.updates [] topic rfl hm
  · exact unregisterListener_unknown w ⟨peer, arg⟩ Family.systemStatus _
      "/as/system/status".data rfl hm

/-- C19, at a concrete input: a peer registered for one websocket topic
unregisters another one. -/
theorem unregisterListener_unknown_rejected_witness :
    unregisterWsListener (run [Op.registerWsListener ⟨":1.7", some "/as/a".data⟩ true] init)
        ⟨":1.7", some "/as/b".data⟩ =
      (MethodReply.error "org.freedesktop.DBus.Error.ServiceUnknown",
        run [Op.registerWsListener ⟨":1.7", some "/as/a".data⟩ true] init) :=
  (unregisterListener_unknown_rejected
    (run [Op.registerWsListener ⟨":1.7", some "/as/a".data⟩ true] init)
    "/as/b".data ":1.7" none).1 (by decide)

end ServiceWorld

/-! ### Event listeners -/

namespace EventLoopPrivate

theorem find_mid {V : Type} (pre post : StdMap Int V) (k : Int) (v : V)
    (h : StdMap.Ordered (pre ++ (k, v) :: post)) :
    StdMap.find (pre ++ (k, v) :: post) k = some v := by
  induction pre with
  | nil => simp [StdMap.find]
  | cons e pre ih =>
    have hp := List.pairwise_cons.mp h
    have hlt : e.1 < k := hp.1 (k, v) (by simp)
    simp only [List.cons_append, StdMap.find, ne_of_lt hlt, if_false]
    exact ih hp.2

theorem nextKey_mid {V : Type} (pre post : StdMap Int V) (k : Int) (v : V)
    (h : StdMap.Ordered (pre ++ (k, v) :: post)) :
    nextKey (pre ++ (k, v) :: post) k = beginKey post := by
  induction pre with
  | nil =>
    cases post with
    | nil => simp [nextKey, beginKey]
    | cons p post =>
      have hp := List.pairwise_cons.mp h
      have hlt : k < p.1 := hp.1 p (by simp)
      simp [nextKey, beginKey, hlt]
  | cons e pre ih =>
    have hp := List.pairwise_cons.mp h
    have hlt : e.1 < k := hp.1 (k, v) (by simp)
    simp only [List.cons_append, nextKey, not_lt_of_gt hlt, if_false]
    exact ih hp.2

theorem erase_mid {V : Type} (pre post : StdMap Int V) (k : Int) (v : V)
    (h : StdMap.Ordered (pre ++ (k, v) :: post)) :
    StdMap.erase (pre ++ (k, v) :: post) k = pre ++ post := by
  induction pre with
  | nil => simp [StdMap.erase]
  | cons e pre ih =>
    have hp := List.pairwise_cons.mp h
    have hlt : e.1 < k := hp.1 (k, v) (by simp)
    simp only [List.cons_append, StdMap.erase, ne_of_lt hlt, if_false]
    exact congrArg (List.cons e) (ih hp.2)

theorem exists_mid_of_find {V : Type} (m : StdMap Int V) (k : Int) (v : V)
    (h : StdMap.find m k = some v) : ∃ pre post, m = pre ++ (k, v) :: post := by
  induction m with
  | nil => simp [StdMap.find] at h
  | cons e rest ih =>
    unfold StdMap.find at h
    by_cases he : e.1 = k
    · simp only [he, if_true, Option.some.injEq] at h
      exact ⟨[], rest, by rw [← he, ← h]; rfl⟩
    · simp only [he, if_false] at h
      obtain ⟨pre, post, hm⟩ := ih h
      exact ⟨e :: pre, post, by rw [hm]; rfl⟩

namespace Listeners

theorem matching_append (a b : StdMap Int EventListener) (type : Int) :
    matching (a ++ b) type = matching a type ++ matching b type := by
  simp [matching]

theorem matching_cons (e : Int × EventListener) (m : StdMap Int EventListener) (type : Int) :
    matching (e :: m) type =
      (if e.2.eventType < 0 ∨ e.2.eventType = type then [(e.1, e.2.callback)] else []) ++
        matching m type := by
  by_cases h : e.2.eventType < 0 ∨ e.2.eventType = type <;> simp [matching, h]

theorem walk_quiet (calls : Nat → Int → List ListenerCall) (type : Int)
    (mid : StdMap Int EventListener) :
    ∀ (pre rest : StdMap Int EventListener) (s : Listeners) (fuel : Nat),
      s.m_listenersMap = pre ++ (mid ++ rest) → StdMap.Ordered (pre ++ (mid ++ rest)) →
      (∀ e ∈ mid, e.1 ∉ s.m_removedListenersSet) →
      (∀ e ∈ mid, (e.2.eventType < 0 ∨ e.2.eventType = type) →
        calls e.2.callback type = []) →
      walk calls type (fuel + mid.length) (beginKey (mid ++ rest)) s =
        walk calls type fuel (beginKey rest)
          { s with invoked := s.invoked ++ matching mid type } := by
  induction mid with
  | nil =>
    intro pre rest s fuel _ _ _ _
    simp [matching]
  | cons e mid ih =>
    intro pre rest s fuel hm ho hr hc
    have hm2 : s.m_listenersMap = (pre ++ [e]) ++ (mid ++ rest) := by rw [hm]; simp
    have ho2 : StdMap.Ordered ((pre ++ [e]) ++ (mid ++ rest)) := by
      have : (pre ++ [e]) ++ (mid ++ rest) = pre ++ (e :: mid ++ rest) := by simp
      rw [this]; exact ho
    have hfind : StdMap.find s.m_listenersMap e.1 = some e.2 := by
      rw [hm]; exact find_mid pre (mid ++ rest) e.1 e.2 ho
    have hnext : nextKey s.m_listenersMap e.1 = beginKey (mid ++ rest) := by
      rw [hm]; exact nextKey_mid pre (mid ++ rest) e.1 e.2 ho
    have hnr : e.1 ∉ s.m_removedListenersSet := hr e (List.mem_cons_self _ _)
    have hstep : fuel + (e :: mid).length = (fuel + mid.length) + 1 := by
      simp [Nat.add_assoc]
    rw [hstep, List.cons_append, beginKey, walk]
    simp only [hfind, hnr, if_false]
    by_cases hmt : e.2.eventType < 0 ∨ e.2.eventType = type
    · have hce := hc e (List.mem_cons_self _ _) hmt
      simp only [hmt, if_true, hce, runCalls, hnext]
      rw [ih (pre ++ [e]) rest { s with invoked := s.invoked ++ [(e.1, e.2.callback)] } fuel
        hm2 ho2 (fun x hx => hr x (List.mem_cons_of_mem _ hx))
        (fun x hx => hc x (List.mem_cons_of_mem _ hx))]
      simp [matching_cons, hmt, List.append_assoc, hfind]
    · simp only [hmt, if_false, hnext]
      rw [ih (pre ++ [e]) rest s fuel hm2 ho2
        (fun x hx => hr x (List.mem_cons_of_mem _ hx))
        (fun x hx => hc x (List.mem_cons_of_mem _ hx))]
      simp [matching_cons, hmt, hfind]

end Listeners

end EventLoopPrivate
namespace EventLoopPrivate

namespace Listeners

theorem walk_end (calls : Nat → Int → List ListenerCall) (type : Int) (fuel : Nat)
    (s : Listeners) : walk calls type fuel none s = some s := by
  cases fuel <;> rfl

theorem callListenersLambda_quiet (calls : Nat → Int → List ListenerCall) (type : Int)
    (s : Listeners) (fuel : Nat) (hq : s.m_withinEventHandler = 0)
    (hr : s.m_removedListenersSet = []) (ho : StdMap.Ordered s.m_listenersMap)
    (hc : ∀ e ∈ s.m_listenersMap, (e.2.eventType < 0 ∨ e.2.eventType = type) →
      calls e.2.callback type = [])
    (hfuel : s.m_listenersMap.length ≤ fuel) :
    callListenersLambda calls fuel type s =
      some { s with invoked := s.invoked ++ matching s.m_listenersMap type } := by
  obtain ⟨c, r, tg, mp, inv⟩ := s
  simp only at hq hr ho hc hfuel
  subst hq hr
  obtain ⟨f0, hf⟩ := Nat.exists_eq_add_of_le hfuel
  have hf2 : fuel = f0 + mp.length := by omega
  have hw : walk calls type (f0 + mp.length) (beginKey mp) ⟨1, [], tg, mp, inv⟩ =
      some ⟨1, [], tg, mp, inv ++ matching mp type⟩ := by
    have h := walk_quiet calls type mp [] [] ⟨1, [], tg, mp, inv⟩ f0 (by simp)
      (by simpa using ho) (by simp) hc
    rw [List.append_nil] at h
    rw [h, show beginKey ([] : StdMap Int EventListener) = none from rfl, walk_end]
  simp only [callListenersLambda, hf2, zero_add]
  rw [hw]
  simp

theorem callListenersLambda_self (calls : Nat → Int → List ListenerCall) (type : Int)
    (s : Listeners) (t : Int) (l : EventListener) (fuel : Nat)
    (hq : s.m_withinEventHandler = 0) (hr : s.m_removedListenersSet = [])
    (ho : StdMap.Ordered s.m_listenersMap)
    (ht : StdMap.find s.m_listenersMap t = some l)
    (hmatch : l.eventType < 0 ∨ l.eventType = type)
    (hself : calls l.callback type = [ListenerCall.removeEventListener t])
    (hothers : ∀ e ∈ s.m_listenersMap, e.1 ≠ t →
      (e.2.eventType < 0 ∨ e.2.eventType = type) → calls e.2.callback type = [])
    (hfuel : s.m_listenersMap.length ≤ fuel) :
    callListenersLambda calls fuel type s =
      some { s with
        m_listenersMap := StdMap.erase s.m_listenersMap t,
        invoked := s.invoked ++ matching s.m_listenersMap type } := by
  obtain ⟨c, r, tg, mp, inv⟩ := s
  simp only at hq hr ho ht hothers hfuel
  subst hq hr
  obtain ⟨A, B, hm⟩ := exists_mid_of_find mp t l ht
  subst hm
  have hpw := List.pairwise_append.mp ho
  have hA : ∀ e ∈ A, e.1 < t := fun e he => hpw.2.2 e he (t, l) (by simp)
  have hB : ∀ e ∈ B, t < e.1 := fun e he => (List.pairwise_cons.mp hpw.2.1).1 e he
  obtain ⟨f0, hf⟩ := Nat.exists_eq_add_of_le hfuel
  have hf2 : fuel = ((f0 + B.length) + 1) + A.length := by
    simp only [List.length_append, List.length_cons] at hf
    omega
  have hfind : StdMap.find (A ++ (t, l) :: B) t = some l := find_mid A B t l ho
  have hnext : nextKey (A ++ (t, l) :: B) t = beginKey B := nextKey_mid A B t l ho
  -- the entries behind the listener
  have h3 : walk calls type (f0 + B.length) (beginKey B)
      ⟨1, [t], tg, A ++ (t, l) :: B, inv ++ matching A type ++ [(t, l.callback)]⟩ =
      some ⟨1, [t], tg, A ++ (t, l) :: B,
        inv ++ matching A type ++ [(t, l.callback)] ++ matching B type⟩ := by
    have h := walk_quiet calls type B (A ++ [(t, l)]) []
      ⟨1, [t], tg, A ++ (t, l) :: B, inv ++ matching A type ++ [(t, l.callback)]⟩ f0
      (by simp) (by simpa using ho)
      (fun e he => by simpa using ne_of_gt (hB e he))
      (fun e he hme => hothers e (by simp [he]) (ne_of_gt (hB e he)) hme)
    rw [List.append_nil] at h
    rw [h, show beginKey ([] : StdMap Int EventListener) = none from rfl, walk_end]
  -- the listener itself
  have h2 : walk calls type ((f0 + B.length) + 1) (some t)
      ⟨1, [], tg, A ++ (t, l) :: B, inv ++ matching A type⟩ =
      some ⟨1, [t], tg, A ++ (t, l) :: B,
        inv ++ matching A type ++ [(t, l.callback)] ++ matching B type⟩ := by
    rw [walk]
    simp only [hfind, List.not_mem_nil, if_false, hmatch, if_true, hself, runCalls,
      removeEventListener, setInsert, hnext]
    simp only [show (0 : Int) < 1 by decide, if_true, hfind]
    rw [hnext]
    exact h3
  -- the entries in front of it
  have h1 : walk calls type (((f0 + B.length) + 1) + A.length) (beginKey (A ++ (t, l) :: B))
      ⟨1, [], tg, A ++ (t, l) :: B, inv⟩ =
      some ⟨1, [t], tg, A ++ (t, l) :: B,
        inv ++ matching A type ++ [(t, l.callback)] ++ matching B type⟩ := by
    have h := walk_quiet calls type A [] ((t, l) :: B) ⟨1, [], tg, A ++ (t, l) :: B, inv⟩
      ((f0 + B.length) + 1) (by simp) (by simpa using ho) (by simp)
      (fun e he hme => hothers e (by simp [he]) (ne_of_lt (hA e he)) hme)
    rw [h]
    exact h2
  simp only [callListenersLambda, hf2, zero_add]
  rw [h1]
  simp [StdMap.erase, erase_mid A B t l ho, matching_append, matching_cons, hmatch,
    List.append_assoc]

end Listeners

end EventLoopPrivate
namespace EventLoopPrivate

theorem key_ne_of_mem_erase {V : Type} (m : StdMap Int V) (k : Int) (x : Int × V)
    (h : StdMap.Ordered m) (hx : x ∈ StdMap.erase m k) : x.1 ≠ k := by
  induction m with
  | nil => simp [StdMap.erase] at hx
  | cons e rest ih =>
    have hp := List.pairwise_cons.mp h
    unfold StdMap.erase at hx
    split at hx
    · next hek =>
      have := hp.1 x hx
      rw [hek] at this
      exact ne_of_gt this
    · next hek =>
      rcases List.mem_cons.mp hx with h1 | h1
      · rw [h1]; exact hek
      · exact ih hp.2 h1

theorem length_erase_le {V : Type} (m : StdMap Int V) (k : Int) :
    (StdMap.erase m k).length ≤ m.length := by
  induction m with
  | nil => simp [StdMap.erase]
  | cons e rest ih =>
    unfold StdMap.erase
    split
    · simp
    · simpa using ih

namespace Listeners

theorem mem_matching (m : StdMap Int EventListener) (type : Int) (x : Int × Nat)
    (hx : x ∈ matching m type) : ∃ e ∈ m, e.1 = x.1 := by
  simp only [matching, List.mem_map, List.mem_filter] at hx
  obtain ⟨e, ⟨he, _⟩, hex⟩ := hx
  exact ⟨e, he, by rw [← hex]⟩

theorem matching_once (m : StdMap Int EventListener) (type : Int) (e : Int × EventListener)
    (ho : StdMap.Ordered m) (he : e ∈ m) (hm : e.2.eventType < 0 ∨ e.2.eventType = type) :
    List.countP (fun x => decide (x.1 = e.1)) (matching m type) = 1 := by
  induction m with
  | nil => simp at he
  | cons a rest ih =>
    have hp := List.pairwise_cons.mp ho
    rw [matching_cons, List.countP_append]
    rcases List.mem_cons.mp he with h | h
    · subst h
      have h0 : List.countP (fun x => decide (x.1 = e.1)) (matching rest type) = 0 := by
        rw [List.countP_eq_zero]
        intro x hx hxe
        obtain ⟨y, hy, hyx⟩ := mem_matching rest type x hx
        have := hp.1 y hy
        simp only [decide_eq_true_eq] at hxe
        omega
      simp [hm, h0]
    · have hlt : a.1 < e.1 := hp.1 e h
      have hne : ¬ a.1 = e.1 := ne_of_lt hlt
      by_cases ha : a.2.eventType < 0 ∨ a.2.eventType = type
      · simp [ha, hne, ih hp.2 h]
      · simp [ha, ih hp.2 h]

/-- C15: a listener with tag `t` that an event of type `type` is for, and whose
callback calls `removeEventListener(t)` while it is being invoked, is registered
in a reactor that is not inside a dispatch (counter 0, no removal pending); the
callbacks of the other listeners the event is for make no reactor calls.  Then
the dispatch (`callListenersLambda`, given fuel for one step per entry) returns,
having invoked every listener the event is for exactly once, in tag order, the
removing listener included.  When it returns the listener is absent from
`m_listenersMap`, `m_removedListenersSet` is empty and `m_withinEventHandler` is
0, and the next dispatch of such an event invokes the remaining listeners and not
the listener `t`.  The removal is deferred: `removeEventListener(t)` called in
the state the dispatch has while it walks (counter 1) leaves `m_listenersMap` as
it is, the entry `t` the walk is positioned on included, and puts `t` into
`m_removedListenersSet`; the walk then steps on from that entry. -/
theorem self_removal_during_dispatch (calls : Nat → Int → List ListenerCall) (type : Int)
    (s : Listeners) (t : Int) (l : EventListener) (fuel : Nat)
    (hq : s.m_withinEventHandler = 0) (hr : s.m_removedListenersSet = [])
    (ho : StdMap.Ordered s.m_listenersMap)
    (ht : StdMap.find s.m_listenersMap t = some l)
    (hmatch : l.eventType < 0 ∨ l.eventType = type)
    (hself : calls l.callback type = [ListenerCall.removeEventListener t])
    (hothers : ∀ e ∈ s.m_listenersMap, e.1 ≠ t →
      (e.2.eventType < 0 ∨ e.2.eventType = type) → calls e.2.callback type = [])
    (hfuel : s.m_listenersMap.length ≤ fuel) :
    ∃ s1 s2 : Listeners,
      callListenersLambda calls fuel type s = some s1 ∧
      s1.invoked = s.invoked ++ matching s.m_listenersMap type ∧
      (∀ e ∈ s.m_listenersMap, (e.2.eventType < 0 ∨ e.2.eventType = type) →
        List.countP (fun x => decide (x.1 = e.1)) (matching s.m_listenersMap type) = 1) ∧
      s1.m_listenersMap = StdMap.erase s.m_listenersMap t ∧
      StdMap.find s1.m_listenersMap t = none ∧
      s1.m_removedListenersSet = [] ∧
      s1.m_withinEventHandler = 0 ∧
      callListenersLambda calls fuel type s1 = some s2 ∧
      s2.invoked = s1.invoked ++ matching s1.m_listenersMap type ∧
      (∀ x ∈ matching s1.m_listenersMap type, x.1 ≠ t) ∧
      s2.m_listenersMap = s1.m_listenersMap ∧
      ({ s with m_withinEventHandler := s.m_withinEventHandler + 1 }).removeEventListener t =
        { s with m_withinEventHandler := 1, m_removedListenersSet := [t] } ∧
      StdMap.find
        (({ s with m_withinEventHandler := s.m_withinEventHandler + 1 }).removeEventListener
          t).m_listenersMap t = some l := by
  have h1 := callListenersLambda_self calls type s t l fuel hq hr ho ht hmatch hself hothers
    hfuel
  have ho1 : StdMap.Ordered (StdMap.erase s.m_listenersMap t) :=
    StdMap.ordered_erase _ t ho
  have h2 := callListenersLambda_quiet calls type
    { s with
      m_listenersMap := StdMap.erase s.m_listenersMap t,
      invoked := s.invoked ++ matching s.m_listenersMap type } fuel hq hr ho1
    (fun e he hme => hothers e (StdMap.mem_erase _ t e he)
      (key_ne_of_mem_erase _ t e ho he) hme)
    (le_trans (length_erase_le _ t) hfuel)
  refine ⟨_, _, h1, rfl, fun e he hme => matching_once _ type e ho he hme, rfl,
    StdMap.find_erase_self _ t ho, hr, hq, h2, rfl, ?_, rfl, ?_, ?_⟩
  · intro x hx
    obtain ⟨e, he, hex⟩ := mem_matching _ type x hx
    rw [← hex]
    exact key_ne_of_mem_erase _ t e ho he
  · unfold removeEventListener
    simp [hq, hr, setInsert]
  · unfold removeEventListener
    simp [hq, ht]

/-- C15, at a concrete input: three listeners, the second of which listens for
all events and removes itself; an event of type 5 is dispatched. -/
theorem self_removal_during_dispatch_witness :
    ∃ s1 : Listeners,
      callListenersLambda
        (fun cb _ => if cb = 1 then [ListenerCall.removeEventListener 1001] else []) 3 5
        ⟨0, [], 1003, [(1000, ⟨5, 0⟩), (1001, ⟨-1, 1⟩), (1002, ⟨5, 2⟩)], []⟩ = some s1 ∧
      s1.invoked = [(1000, 0), (1001, 1), (1002, 2)] ∧
      s1.m_listenersMap = [(1000, ⟨5, 0⟩), (1002, ⟨5, 2⟩)] ∧
      (removeEventListener
        ⟨1, [], 1003, [(1000, ⟨5, 0⟩), (1001, ⟨-1, 1⟩), (1002, ⟨5, 2⟩)], []⟩ 1001) =
        ⟨1, [1001], 1003, [(1000, ⟨5, 0⟩), (1001, ⟨-1, 1⟩), (1002, ⟨5, 2⟩)], []⟩ := by
  obtain ⟨s1, _, h1, h2, _, h3, _, _, _, _, _, _, _, h4, _⟩ := self_removal_during_dispatch
    (fun cb _ => if cb = 1 then [ListenerCall.removeEventListener 1001] else []) 5
    ⟨0, [], 1003, [(1000, ⟨5, 0⟩), (1001, ⟨-1, 1⟩), (1002, ⟨5, 2⟩)], []⟩ 1001 ⟨-1, 1⟩ 3
    rfl rfl (by unfold StdMap.Ordered; decide) (by decide) (by decide) (by decide)
    (by decide) (by decide)
  exact ⟨s1, h1, h2.trans (by decide), h3.trans (by decide), h4⟩

end Listeners

end EventLoopPrivate

/-! ### Timers, I/O handlers and signal handlers -/

namespace EventLoopPrivate

namespace SdEvent

theorem set_enabled_next (ev : SdEvent) (source : Nat) (m : SdEnabled) :
    (ev.sd_event_source_set_enabled source m).next = ev.next := by
  unfold sd_event_source_set_enabled
  split <;> rfl

theorem find_set_enabled_ne (ev : SdEvent) (source es : Nat) (m : SdEnabled)
    (hne : es ≠ source) :
    StdMap.find (ev.sd_event_source_set_enabled source m).sources es =
      StdMap.find ev.sources es := by
  unfold sd_event_source_set_enabled
  split
  · rfl
  · exact StdMap.find_assign_ne _ _ _ _ hne

theorem find_set_enabled_self (ev : SdEvent) (es : Nat) (m : SdEnabled) (x : SdSource)
    (hx : StdMap.find ev.sources es = some x) :
    StdMap.find (ev.sd_event_source_set_enabled es m).sources es =
      some { x with enabled := m } := by
  unfold sd_event_source_set_enabled
  rw [hx]
  exact StdMap.find_assign_self _ _ _

/-- Switching a source off leaves a source that is off as it is. -/
theorem set_enabled_off_keeps_off (ev : SdEvent) (source es : Nat)
    (h : ∃ x, StdMap.find ev.sources es = some x ∧ x.enabled = SdEnabled.SD_EVENT_OFF) :
    ∃ x, StdMap.find (ev.sd_event_source_set_enabled source SdEnabled.SD_EVENT_OFF).sources es
      = some x ∧ x.enabled = SdEnabled.SD_EVENT_OFF := by
  obtain ⟨x, hx, hoff⟩ := h
  by_cases hne : es = source
  · subst hne
    exact ⟨_, find_set_enabled_self ev es _ x hx, rfl⟩
  · exact ⟨x, by rw [find_set_enabled_ne ev source es _ hne]; exact hx, hoff⟩

end SdEvent

namespace Sources

open SdEvent

theorem mem_of_find {V : Type} (m : StdMap Int V) (k : Int) (v : V)
    (h : StdMap.find m k = some v) : (k, v) ∈ m := by
  obtain ⟨pre, post, hm⟩ := exists_mid_of_find m k v h
  rw [hm]
  simp

/-- What `installTimerLambda` does when the source is created. -/
theorem installTimerLambda_created (now : Nat) (timeout : Int) (oneShot : Bool)
    (func : Option Nat) (st : Int × Sources) :
    installTimerLambda now timeout oneShot func true st =
      (st.2.m_timerTag, { st.2 with
        m_loop := SdEvent.sd_event_source_set_enabled
          { sources := StdMap.assign st.2.m_loop.sources st.2.m_loop.next
              ⟨SdKind.time (expiryAfter now timeout), SdEnabled.SD_EVENT_ONESHOT⟩,
            next := st.2.m_loop.next + 1 } st.2.m_loop.next
          (if oneShot then SdEnabled.SD_EVENT_ONESHOT else SdEnabled.SD_EVENT_ON),
        m_timerTag := st.2.m_timerTag + 1,
        m_timerMap := StdMap.emplace st.2.m_timerMap st.2.m_timerTag
          ⟨st.2.m_loop.next, func, timeout⟩ }) := by
  simp [installTimerLambda, sd_event_add_time, addSource]

theorem installTimerLambda_failed (now : Nat) (timeout : Int) (oneShot : Bool)
    (func : Option Nat) (st : Int × Sources) :
    installTimerLambda now timeout oneShot func false st = st := by
  simp [installTimerLambda, sd_event_add_time, addSource]

theorem keeps_install (es : Nat) (en : SdEnabled) (tag : Int) (timer : Option TimerSource)
    (self : Sources) (now : Nat) (timeout : Int) (oneShot : Bool) (func : Option Nat)
    (created : Bool) (h : Keeps es en tag timer self) :
    Keeps es en tag timer (installTimerLambda now timeout oneShot func created (-1, self)).2 := by
  cases created with
  | false => rw [installTimerLambda_failed]; exact h
  | true =>
    rw [installTimerLambda_created]
    have hne : es ≠ self.m_loop.next := Nat.ne_of_lt h.next
    refine ⟨?_, ?_, ?_, ?_, ?_, ?_⟩
    · simp only [set_enabled_next]
      exact Nat.lt_succ_of_lt h.next
    · obtain ⟨x, hx, hen⟩ := h.enabled
      refine ⟨x, ?_, hen⟩
      simp only
      rw [find_set_enabled_ne _ _ _ _ hne]
      simp only
      rw [StdMap.find_assign_ne _ _ _ _ hne]
      exact hx
    · exact StdMap.ordered_emplace _ _ _ h.ordered
    · intro e he
      rcases StdMap.mem_emplace _ _ _ e he with h1 | h1
      · rw [h1]; simp
      · have := h.below e h1
        simp only
        omega
    · intro t ht
      have hmem := mem_of_find _ _ _ (h.present t ht)
      have hlt := h.below _ hmem
      simp only
      rw [StdMap.find_emplace_ne _ _ _ _ (ne_of_lt hlt)]
      exact h.present t ht
    · intro e he hes
      rcases StdMap.mem_emplace _ _ _ e he with h1 | h1
      · rw [h1] at hes
        exact absurd hes.symm hne
      · exact h.owner e h1 hes

theorem keeps_remove (es : Nat) (en : SdEnabled) (tag : Int) (timer : Option TimerSource)
    (self : Sources) (k : Int) (h : Keeps es en tag timer self)
    (hk : en = SdEnabled.SD_EVENT_OFF ∧ timer = none ∨ k ≠ tag) :
    Keeps es en tag timer (removeTimerLambda k self) := by
  unfold removeTimerLambda
  split
  · exact h
  · next tm htm =>
    refine ⟨?_, ?_, ?_, ?_, ?_, ?_⟩
    · simp only [set_enabled_next]
      exact h.next
    · rcases hk with ⟨hoff, _⟩ | hk
      · subst hoff
        exact set_enabled_off_keeps_off _ _ _ h.enabled
      · obtain ⟨x, hx, hen⟩ := h.enabled
        have hne : es ≠ tm.source := by
          intro heq
          exact hk (h.owner (k, tm) (mem_of_find _ _ _ htm) heq.symm)
        exact ⟨x, by simp only; rw [find_set_enabled_ne _ _ _ _ hne]; exact hx, hen⟩
    · exact StdMap.ordered_erase _ _ h.ordered
    · intro e he
      exact h.below e (StdMap.mem_erase _ _ e he)
    · intro t ht
      rcases hk with ⟨_, hnone⟩ | hk
      · rw [hnone] at ht; cases ht
      · simp only
        rw [StdMap.find_erase_ne _ _ _ (Ne.symm hk)]
        exact h.present t ht
    · intro e he hes
      exact h.owner e (StdMap.mem_erase _ _ e he) hes

theorem keeps_runTimerCalls (es : Nat) (en : SdEnabled) (tag : Int)
    (timer : Option TimerSource) (now : Nat) (cs : List TimerCall) :
    ∀ (self : Sources), Keeps es en tag timer self →
      (en = SdEnabled.SD_EVENT_OFF ∧ timer = none ∨
        ∀ c ∈ cs, c ≠ TimerCall.removeTimer tag) →
      Keeps es en tag timer (runTimerCalls now self cs) ∧
        (runTimerCalls now self cs).timerCalls = self.timerCalls := by
  induction cs with
  | nil => intro self h _; exact ⟨h, rfl⟩
  | cons c cs ih =>
    intro self h hk
    have hk2 : en = SdEnabled.SD_EVENT_OFF ∧ timer = none ∨
        ∀ c ∈ cs, c ≠ TimerCall.removeTimer tag := by
      rcases hk with hk | hk
      · exact Or.inl hk
      · exact Or.inr (fun c hc => hk c (List.mem_cons_of_mem _ hc))
    cases c with
    | removeTimer k =>
      have hk1 : en = SdEnabled.SD_EVENT_OFF ∧ timer = none ∨ k ≠ tag := by
        rcases hk with hk | hk
        · exact Or.inl hk
        · refine Or.inr (fun heq => hk (TimerCall.removeTimer k) (List.mem_cons_self _ _) ?_)
          rw [heq]
      obtain ⟨h1, h2⟩ := ih (removeTimerLambda k self) (keeps_remove es en tag timer self k h hk1) hk2
      refine ⟨h1, ?_⟩
      simp only [runTimerCalls]
      rw [h2]
      unfold removeTimerLambda
      split <;> rfl
    | addTimer timeout oneShot func created =>
      obtain ⟨h1, h2⟩ := ih _ (keeps_install es en tag timer self now timeout oneShot func
        created h) hk2
      refine ⟨h1, ?_⟩
      simp only [runTimerCalls]
      rw [h2]
      cases created with
      | false => rw [installTimerLambda_failed]
      | true => rw [installTimerLambda_created]

end Sources

end EventLoopPrivate
namespace EventLoopPrivate

namespace Sources

open SdEvent

theorem find_of_mem {V : Type} (m : StdMap Int V) (e : Int × V) (ho : StdMap.Ordered m)
    (he : e ∈ m) : StdMap.find m e.1 = some e.2 := by
  obtain ⟨pre, post, hm⟩ := List.append_of_mem he
  subst hm
  exact find_mid pre post e.1 e.2 ho

/-- The scan of `timerHandler` for the source of a timer finds that timer when no
other timer has the same source. -/
theorem scan_finds (m : StdMap Int TimerSource) (tag : Int) (timer : TimerSource)
    (ho : StdMap.Ordered m) (ht : StdMap.find m tag = some timer)
    (howner : ∀ e ∈ m, e.2.source = timer.source → e.1 = tag) :
    List.find? (fun (e : Int × TimerSource) => decide (e.2.source = timer.source)) m =
      some (tag, timer) := by
  cases hf : List.find? (fun (e : Int × TimerSource) => decide (e.2.source = timer.source)) m with
  | none =>
    have := List.find?_eq_none.mp hf (tag, timer) (mem_of_find m tag timer ht)
    simp at this
  | some e =>
    have hp := List.find?_some hf
    have hmem := List.mem_of_find?_eq_some hf
    simp only [decide_eq_true_eq] at hp
    have hkey := howner e hmem hp
    have hfe := find_of_mem m e ho hmem
    rw [hkey, ht] at hfe
    have h2 : e.2 = timer := (Option.some.inj hfe).symm
    have : e = (tag, timer) := by
      rw [← hkey, ← h2]
    rw [this]

theorem get_enabled_of_find (ev : SdEvent) (es : Nat) (x : SdSource)
    (h : StdMap.find ev.sources es = some x) :
    ev.sd_event_source_get_enabled es =
      (if x.enabled = SdEnabled.SD_EVENT_OFF then 0 else 1, x.enabled) := by
  simp [sd_event_source_get_enabled, h]

/-- The handler of a timer whose callback is set, from a state where the facts of
`Keeps` hold: the callback is called once with the tag; then a source that is
still on gets its new expiry and the timer stays, and a timer whose source is
off is erased. -/
theorem timerHandler_keeps (calls : Nat → Int → List TimerCall) (now : Nat)
    (en : SdEnabled) (tag : Int) (timer : TimerSource) (topt : Option TimerSource) (cb : Nat)
    (s : Sources) (hk : Keeps timer.source en tag topt s)
    (ht : StdMap.find s.m_timerMap tag = some timer) (hcb : timer.callback = some cb)
    (hcalls : en = SdEnabled.SD_EVENT_OFF ∧ topt = none ∨
      ∀ c ∈ calls cb tag, c ≠ TimerCall.removeTimer tag)
    (hen : en ≠ SdEnabled.SD_EVENT_ONESHOT) :
    ∃ s1 : Sources, Keeps timer.source en tag topt s1 ∧
      s1.timerCalls = s.timerCalls ++ [(tag, cb)] ∧
      timerHandler calls now timer.source s =
        (0, if en = SdEnabled.SD_EVENT_ON then
          { s1 with m_loop :=
              s1.m_loop.sd_event_source_set_time timer.source (expiryAfter now timer.interval) }
          else { s1 with m_timerMap := StdMap.erase s1.m_timerMap tag }) := by
  have hscan := scan_finds s.m_timerMap tag timer hk.ordered ht hk.owner
  have hk0 : Keeps timer.source en tag topt { s with timerCalls := s.timerCalls ++ [(tag, cb)] } :=
    ⟨hk.next, hk.enabled, hk.ordered, hk.below, hk.present, hk.owner⟩
  obtain ⟨h1, h2⟩ := keeps_runTimerCalls timer.source en tag topt now (calls cb tag) _ hk0 hcalls
  refine ⟨_, h1, h2, ?_⟩
  obtain ⟨x, hx, hxen⟩ := h1.enabled
  unfold timerHandler
  rw [hscan]
  simp only [hcb]
  rw [get_enabled_of_find _ _ x hx, hxen]
  cases en with
  | SD_EVENT_OFF => simp
  | SD_EVENT_ON => simp
  | SD_EVENT_ONESHOT => exact absurd rfl hen

/-- C16: a tag-based timer `tag` with a callback is in the timer map (well formed:
keys ascending and below the tag counter, the source of the timer known to the
library and owned by this timer only), and the library dispatches its source.
If the source is one-shot, the callback is called exactly once, with the tag,
and after the handler has returned (with code 0) the tag is no longer in
`m_timerMap`, whatever reactor calls the callback made, so also when it never
called `removeTimer`.  If the source is repeating and the callback does not
remove the timer, the callback is called exactly once and the tag is still in
`m_timerMap` with the same record after the handler has returned. -/
theorem timer_fires (calls : Nat → Int → List TimerCall) (now : Nat) (s : Sources)
    (tag : Int) (timer : TimerSource) (cb : Nat) (x : SdSource)
    (ho : StdMap.Ordered s.m_timerMap)
    (hbelow : ∀ e ∈ s.m_timerMap, e.1 < s.m_timerTag)
    (ht : StdMap.find s.m_timerMap tag = some timer)
    (hcb : timer.callback = some cb)
    (howner : ∀ e ∈ s.m_timerMap, e.2.source = timer.source → e.1 = tag)
    (hx : StdMap.find s.m_loop.sources timer.source = some x)
    (hnext : timer.source < s.m_loop.next) :
    (x.enabled = SdEnabled.SD_EVENT_ONESHOT →
      (dispatchTime calls now timer.source s).1 = 0 ∧
      (dispatchTime calls now timer.source s).2.timerCalls = s.timerCalls ++ [(tag, cb)] ∧
      StdMap.find (dispatchTime calls now timer.source s).2.m_timerMap tag = none) ∧
    (x.enabled = SdEnabled.SD_EVENT_ON →
      (∀ c ∈ calls cb tag, c ≠ TimerCall.removeTimer tag) →
      (dispatchTime calls now timer.source s).1 = 0 ∧
      (dispatchTime calls now timer.source s).2.timerCalls = s.timerCalls ++ [(tag, cb)] ∧
      StdMap.find (dispatchTime calls now timer.source s).2.m_timerMap tag = some timer) := by
  constructor
  · intro hen
    have hk : Keeps timer.source SdEnabled.SD_EVENT_OFF tag none
        { s with m_loop :=
            s.m_loop.sd_event_source_set_enabled timer.source SdEnabled.SD_EVENT_OFF } :=
      ⟨by simp only [set_enabled_next]; exact hnext,
        ⟨_, find_set_enabled_self _ _ _ x hx, rfl⟩, ho, hbelow,
        (fun t h => by cases h), howner⟩
    obtain ⟨s1, hk1, hlog, hh⟩ := timerHandler_keeps calls now SdEnabled.SD_EVENT_OFF tag timer
      none cb _ hk ht hcb (Or.inl ⟨rfl, rfl⟩) (by decide)
    have hd : dispatchTime calls now timer.source s =
        (0, { s1 with m_timerMap := StdMap.erase s1.m_timerMap tag }) := by
      unfold dispatchTime
      simp only [hx, hen]
      rw [hh]
      simp
    rw [hd]
    exact ⟨rfl, hlog, StdMap.find_erase_self _ _ hk1.ordered⟩
  · intro hen hcalls
    have hk : Keeps timer.source SdEnabled.SD_EVENT_ON tag (some timer) s :=
      ⟨hnext, ⟨x, hx, hen⟩, ho, hbelow, (fun t h => by cases h; exact ht), howner⟩
    obtain ⟨s1, hk1, hlog, hh⟩ := timerHandler_keeps calls now SdEnabled.SD_EVENT_ON tag timer
      (some timer) cb s hk ht hcb (Or.inr hcalls) (by decide)
    have hd : dispatchTime calls now timer.source s =
        (0, { s1 with m_loop :=
          s1.m_loop.sd_event_source_set_time timer.source (expiryAfter now timer.interval) }) := by
      unfold dispatchTime
      simp only [hx, hen]
      rw [hh]
      simp
    rw [hd]
    exact ⟨rfl, hlog, hk1.present timer rfl⟩

/-- C16, at a concrete input: a one-shot timer (tag 1000) and a repeating timer
(tag 1001) registered with `addTimer`; the one-shot timer fires, its callback
registers another timer. -/
theorem timer_fires_witness :
    (dispatchTime (fun _ _ => [TimerCall.addTimer 10 true none true]) 500 0
      (addTimer true ⟨true, true⟩ 100
        (addTimer true ⟨true, true⟩ 100 (construct 0 0 0) 50 true (some 7) true).2
        60 false (some 8) true).2).2.timerCalls = [(1000, 7)] ∧
    StdMap.find (dispatchTime (fun _ _ => [TimerCall.addTimer 10 true none true]) 500 0
      (addTimer true ⟨true, true⟩ 100
        (addTimer true ⟨true, true⟩ 100 (construct 0 0 0) 50 true (some 7) true).2
        60 false (some 8) true).2).2.m_timerMap 1000 = none :=
  ((timer_fires (fun _ _ => [TimerCall.addTimer 10 true none true]) 500
    (addTimer true ⟨true, true⟩ 100
      (addTimer true ⟨true, true⟩ 100 (construct 0 0 0) 50 true (some 7) true).2
      60 false (some 8) true).2 1000 ⟨0, some 7, 50⟩ 7
    ⟨SdKind.time 150, SdEnabled.SD_EVENT_ONESHOT⟩
    (by unfold StdMap.Ordered; decide) (by decide) (by decide) rfl (by decide) (by decide)
    (by decide)).1 rfl).2

end Sources

end EventLoopPrivate
namespace EventLoopPrivate

namespace Sources

open SdEvent

/-- The lambda is called in the state the call is made in when the loop is not
running, when the caller is on the loop thread, and when the wake-up was written
while no closure was waiting in the queue. -/
theorem callOnEventLoopThread_ran (isLoopExecing : Bool) (ctx : CallCtx)
    (func : SourceMethod) (st : Int × Sources)
    (h : isLoopExecing = false ∨ ctx.onEventLoopThread = true ∨
      (ctx.wrote = true ∧ st.2.m_methods = [])) :
    callOnEventLoopThread isLoopExecing ctx func st = (true, call func st) := by
  unfold callOnEventLoopThread invokeMethod executeAllMethods
  rcases h with h | h | ⟨hw, hq⟩
  · simp [h]
  · cases isLoopExecing <;> simp [h]
  · cases isLoopExecing
    · simp
    · cases hc : ctx.onEventLoopThread
      · simp [hw, hq, runMethods]
      · simp

/-- A call from another thread whose wake-up cannot be written returns false with
the local `tag` and the members as they were, except that the wrapper is in the
queue. -/
theorem callOnEventLoopThread_failed (ctx : CallCtx) (func : SourceMethod)
    (st : Int × Sources) (hoff : ctx.onEventLoopThread = false) (hw : ctx.wrote = false) :
    callOnEventLoopThread true ctx func st =
      (false, (st.1, { st.2 with m_methods := st.2.m_methods ++ [func] })) := by
  unfold callOnEventLoopThread invokeMethod
  simp [hoff, hw]

theorem installIOLambda_failed (fd : Int) (events : Nat) (func : Option Nat)
    (st : Int × Sources) : installIOLambda fd events func false st = st := by
  simp [installIOLambda, sd_event_add_io, addSource]

theorem installSignalLambda_failed (signal : Int) (func : Option Nat) (st : Int × Sources) :
    installSignalLambda signal func false st = st := by
  simp [installSignalLambda, sd_event_add_signal, addSource]

theorem installIOLambda_created (fd : Int) (events : Nat) (func : Option Nat)
    (st : Int × Sources) :
    (installIOLambda fd events func true st).1 = st.2.m_ioTag ∧
      (installIOLambda fd events func true st).2.m_ioMap =
        StdMap.emplace st.2.m_ioMap st.2.m_ioTag ⟨st.2.m_loop.next, func⟩ := by
  simp [installIOLambda, sd_event_add_io, addSource]

theorem installSignalLambda_created (signal : Int) (func : Option Nat) (st : Int × Sources) :
    (installSignalLambda signal func true st).1 = st.2.m_signalTag ∧
      (installSignalLambda signal func true st).2.m_signalMap =
        StdMap.emplace st.2.m_signalMap st.2.m_signalTag ⟨st.2.m_loop.next, func, signal⟩ := by
  simp [installSignalLambda, sd_event_add_signal, addSource]

theorem find_fresh {V : Type} (m : StdMap Int V) (counter : Int) (v : V)
    (h : ∀ e ∈ m, 0 ≤ e.1 ∧ e.1 < counter) :
    StdMap.find (StdMap.emplace m counter v) counter = some v :=
  StdMap.find_emplace_self m counter v
    (StdMap.find_eq_none_of_forall_ne m counter (fun e he => ne_of_lt (h e he).2))

theorem find_minus_one {V : Type} (m : StdMap Int V) (h : ∀ e ∈ m, 0 ≤ e.1) :
    StdMap.find m (-1) = none :=
  StdMap.find_eq_none_of_forall_ne m (-1) (fun e he => by have := h e he; omega)

/-- The three paths of a call, for a reactor with no closure waiting in the
queue: the lambda is called in the state of the call, or (from another thread,
when the wake-up cannot be written) it is not called and its wrapper is left in
the queue. -/
theorem callOnEventLoopThread_paths (isLoopExecing : Bool) (ctx : CallCtx)
    (func : SourceMethod) (st : Int × Sources) (hq : st.2.m_methods = []) :
    callOnEventLoopThread isLoopExecing ctx func st = (true, call func st) ∨
      callOnEventLoopThread isLoopExecing ctx func st =
        (false, (st.1, { st.2 with m_methods := [func] })) := by
  cases hl : isLoopExecing
  · exact Or.inl (callOnEventLoopThread_ran _ _ _ _ (Or.inl rfl))
  · cases hc : ctx.onEventLoopThread
    · cases hw : ctx.wrote
      · right
        rw [callOnEventLoopThread_failed ctx func st hc hw, hq]
        rfl
      · exact Or.inl (callOnEventLoopThread_ran _ _ _ _ (Or.inr (Or.inr ⟨hw, hq⟩)))
    · exact Or.inl (callOnEventLoopThread_ran _ _ _ _ (Or.inr (Or.inl hc)))

/-- What holds of the registration and removal functions on a reactor with
well-formed tags and no closure waiting in the queue.  (1) When the library
fails to create the event source, `addTimer`, `addIoHandler` and
`addSignalHandler` return -1, store nothing in the maps and advance no tag
counter: the members are as they were, but for the wrapper left in the queue
when the wake-up could not be written.  (2) A registration whose lambda ran
during the call and whose source was created returns the value of the tag
counter, which is not -1, and stores the entry under that tag.  (3) A
registration made from another thread while the loop runs, whose wake-up cannot
be written, returns -1 with its wrapper left in the queue; the next drain of
the queue runs the lambda, and when the source is then created the entry is
stored under the value of the tag counter.  (4) Removing a tag that is not in
the map, the tag -1 among them, leaves the maps and counters unchanged. -/
theorem registration_paths (isLoopExecing : Bool) (ctx : CallCtx) (now : Nat)
    (s : Sources) (timeout : Int) (oneShot : Bool) (fd : Int) (events : Nat) (signal : Int)
    (func : Option Nat) (created : Bool) (tag : Int) (hok : TagsOk s)
    (hq : s.m_methods = []) :
    ((addTimer isLoopExecing ctx now s timeout oneShot func false = (-1, s) ∨
        addTimer isLoopExecing ctx now s timeout oneShot func false =
          (-1, { s with m_methods :=
            [SourceMethod.installTimer now timeout oneShot func false] })) ∧
      (addIoHandler isLoopExecing ctx s fd events func false = (-1, s) ∨
        addIoHandler isLoopExecing ctx s fd events func false =
          (-1, { s with m_methods := [SourceMethod.installIO fd events func false] })) ∧
      (addSignalHandler isLoopExecing ctx s signal func false = (-1, s) ∨
        addSignalHandler isLoopExecing ctx s signal func false =
          (-1, { s with m_methods := [SourceMethod.installSignal signal func false] }))) ∧
    ((isLoopExecing = false ∨ ctx.onEventLoopThread = true ∨ ctx.wrote = true) →
      ((addTimer isLoopExecing ctx now s timeout oneShot func true).1 = s.m_timerTag ∧
        (addTimer isLoopExecing ctx now s timeout oneShot func true).1 ≠ -1 ∧
        StdMap.find (addTimer isLoopExecing ctx now s timeout oneShot func true).2.m_timerMap
          s.m_timerTag = some ⟨s.m_loop.next, func, timeout⟩) ∧
      ((addIoHandler isLoopExecing ctx s fd events func true).1 = s.m_ioTag ∧
        (addIoHandler isLoopExecing ctx s fd events func true).1 ≠ -1 ∧
        StdMap.find (addIoHandler isLoopExecing ctx s fd events func true).2.m_ioMap
          s.m_ioTag = some ⟨s.m_loop.next, func⟩) ∧
      ((addSignalHandler isLoopExecing ctx s signal func true).1 = s.m_signalTag ∧
        (addSignalHandler isLoopExecing ctx s signal func true).1 ≠ -1 ∧
        StdMap.find (addSignalHandler isLoopExecing ctx s signal func true).2.m_signalMap
          s.m_signalTag = some ⟨s.m_loop.next, func, signal⟩)) ∧
    ((isLoopExecing = true ∧ ctx.onEventLoopThread = false ∧ ctx.wrote = false) →
      (addTimer isLoopExecing ctx now s timeout oneShot func created).1 = -1 ∧
      (addTimer isLoopExecing ctx now s timeout oneShot func created).2 =
        { s with m_methods := [SourceMethod.installTimer now timeout oneShot func created] } ∧
      executeAllMethods (addTimer isLoopExecing ctx now s timeout oneShot func created).2 =
        (installTimerLambda now timeout oneShot func created (-1, s)).2 ∧
      StdMap.find
        (executeAllMethods
          (addTimer isLoopExecing ctx now s timeout oneShot func true).2).m_timerMap
        s.m_timerTag = some ⟨s.m_loop.next, func, timeout⟩) ∧
    ((StdMap.find s.m_timerMap tag = none →
        removeTimer isLoopExecing ctx s tag = s ∨
        removeTimer isLoopExecing ctx s tag =
          { s with m_methods := [SourceMethod.removeTimer tag] }) ∧
      (StdMap.find s.m_ioMap tag = none →
        removeIoHandler isLoopExecing ctx s tag = s ∨
        removeIoHandler isLoopExecing ctx s tag =
          { s with m_methods := [SourceMethod.removeIO tag] }) ∧
      (StdMap.find s.m_signalMap tag = none →
        removeSignalHandler isLoopExecing ctx s tag = s ∨
        removeSignalHandler isLoopExecing ctx s tag =
          { s with m_methods := [SourceMethod.removeSignal tag] })) ∧
    (StdMap.find s.m_timerMap (-1) = none ∧ StdMap.find s.m_ioMap (-1) = none ∧
      StdMap.find s.m_signalMap (-1) = none) := by
  obtain ⟨⟨ht0, htm⟩, ⟨hi0, him⟩, ⟨hs0, hsm⟩⟩ := hok
  have hadd : ∀ (m : SourceMethod), call m (-1, s) = (-1, s) →
      (callOnEventLoopThread isLoopExecing ctx m (-1, s)).2 = (-1, s) ∨
      (callOnEventLoopThread isLoopExecing ctx m (-1, s)).2 =
        (-1, { s with m_methods := [m] }) := by
    intro m hm
    rcases callOnEventLoopThread_paths isLoopExecing ctx m (-1, s) hq with hc | hc
    · left; rw [hc, hm]
    · right; rw [hc]
  have hrem : ∀ (m : SourceMethod), call m (tag, s) = (tag, s) →
      (callOnEventLoopThread isLoopExecing ctx m (tag, s)).2.2 = s ∨
      (callOnEventLoopThread isLoopExecing ctx m (tag, s)).2.2 =
        { s with m_methods := [m] } := by
    intro m hm
    rcases callOnEventLoopThread_paths isLoopExecing ctx m (tag, s) hq with hc | hc
    · left; rw [hc, hm]
    · right; rw [hc]
  have hran : ∀ (m : SourceMethod),
      (isLoopExecing = false ∨ ctx.onEventLoopThread = true ∨ ctx.wrote = true) →
      callOnEventLoopThread isLoopExecing ctx m (-1, s) = (true, call m (-1, s)) := by
    intro m h
    refine callOnEventLoopThread_ran _ _ _ _ ?_
    rcases h with h | h | h
    · exact Or.inl h
    · exact Or.inr (Or.inl h)
    · exact Or.inr (Or.inr ⟨h, hq⟩)
  have hs0q : ({ s with m_methods := [] } : Sources) = s := by
    rw [← hq]
  refine ⟨⟨?_, ?_, ?_⟩, ?_, ?_, ⟨?_, ?_, ?_⟩, ⟨?_, ?_, ?_⟩⟩
  · exact hadd _ (installTimerLambda_failed now timeout oneShot func (-1, s))
  · exact hadd _ (installIOLambda_failed fd events func (-1, s))
  · exact hadd _ (installSignalLambda_failed signal func (-1, s))
  · intro h
    refine ⟨?_, ?_, ?_⟩
    · have h1 : addTimer isLoopExecing ctx now s timeout oneShot func true =
          installTimerLambda now timeout oneShot func true (-1, s) := by
        unfold addTimer; rw [hran _ h]; rfl
      rw [h1, installTimerLambda_created]
      exact ⟨rfl, by simp only; omega, find_fresh _ _ _ htm⟩
    · have h1 : addIoHandler isLoopExecing ctx s fd events func true =
          installIOLambda fd events func true (-1, s) := by
        unfold addIoHandler; rw [hran _ h]; rfl
      obtain ⟨h2, h3⟩ := installIOLambda_created fd events func (-1, s)
      rw [h1, h2, h3]
      exact ⟨rfl, by simp only; omega, find_fresh _ _ _ him⟩
    · have h1 : addSignalHandler isLoopExecing ctx s signal func true =
          installSignalLambda signal func true (-1, s) := by
        unfold addSignalHandler; rw [hran _ h]; rfl
      obtain ⟨h2, h3⟩ := installSignalLambda_created signal func (-1, s)
      rw [h1, h2, h3]
      exact ⟨rfl, by simp only; omega, find_fresh _ _ _ hsm⟩
  · rintro ⟨hl, hc, hw⟩
    subst hl
    have hf : ∀ c, addTimer true ctx now s timeout oneShot func c =
        (-1, { s with m_methods := [SourceMethod.installTimer now timeout oneShot func c] }) := by
      intro c
      unfold addTimer
      rw [callOnEventLoopThread_failed ctx _ _ hc hw, hq]
      rfl
    have hd : ∀ c, executeAllMethods
        { s with m_methods := [SourceMethod.installTimer now timeout oneShot func c] } =
        (installTimerLambda now timeout oneShot func c (-1, s)).2 := by
      intro c
      simp only [executeAllMethods, runMethods, call]
      rw [hs0q]
    refine ⟨by rw [hf], by rw [hf], by rw [hf, hd], ?_⟩
    rw [hf, hd, installTimerLambda_created]
    exact find_fresh _ _ _ htm
  · intro hk
    exact hrem _ (by simp [call, removeTimerLambda, hk])
  · intro hk
    exact hrem _ (by simp [call, removeIOLambda, hk])
  · intro hk
    exact hrem _ (by simp [call, removeSignalLambda, hk])
  · exact find_minus_one _ (fun e he => (htm e he).1)
  · exact find_minus_one _ (fun e he => (him e he).1)
  · exact find_minus_one _ (fun e he => (hsm e he).1)

end Sources

end EventLoopPrivate

/-! ### Match rules for signals -/

namespace ASService

/-- C17, evaluated where the code departs from it: on the loop thread of a fresh
service, `registerForSignal` is called for the signal `Changed` and the bus
accepts the rule (slot 11).  The private function returns the tag 1 and stores
the rule under it; a signal that matches is passed to the callback with the
tag 1, and `unregisterForSignal(1)` removes the rule.  The public function hands
no value to its caller: it has no `return` statement. -/
theorem registerForSignal_returns_no_tag :
    (registerForSignal ⟨true, true⟩ MatchWorld.init "org.x" "/p" "i.f" "Changed" ""
      (some 4) (some 11)).1 = none ∧
    (ASServicePrivate.registerForSignal ⟨true, true⟩ MatchWorld.init "org.x" "/p" "i.f"
      "Changed" "" (some 4) (some 11)).1 = 1 ∧
    (registerForSignal ⟨true, true⟩ MatchWorld.init "org.x" "/p" "i.f" "Changed" ""
      (some 4) (some 11)).2.service.mMatchSlots = [(11, ⟨1, some 4⟩)] ∧
    ((registerForSignal ⟨true, true⟩ MatchWorld.init "org.x" "/p" "i.f" "Changed" ""
      (some 4) (some 11)).2.service.onRuleMatch (some 11) 77).2.dispatched = [(4, 1, 77)] ∧
    (ASServicePrivate.unregisterForSignal ⟨true, true⟩
      (registerForSignal ⟨true, true⟩ MatchWorld.init "org.x" "/p" "i.f" "Changed" ""
        (some 4) (some 11)).2 1).2.service.mMatchSlots = [] := by
  decide

/-- What the private function does get right: it returns the counter plus one
and leaves the counter at that value, so the tags of successive registrations
increase strictly, on whatever thread the calls are made. -/
theorem private_registerForSignal_tag (ctx : CallCtx) (w : MatchWorld)
    (service path interface signalName extraArgs : String) (cb : Option Nat)
    (slot : Option Nat) :
    (ASServicePrivate.registerForSignal ctx w service path interface signalName extraArgs cb
      slot).1 = w.service.mMatchTagCounter + 1 ∧
    (ASServicePrivate.registerForSignal ctx w service path interface signalName extraArgs cb
      slot).2.service.mMatchTagCounter = w.service.mMatchTagCounter + 1 := by
  unfold ASServicePrivate.registerForSignal
  cases ctx.onEventLoopThread
  · exact ⟨rfl, rfl⟩
  · refine ⟨rfl, ?_⟩
    simp only [if_true]
    unfold MatchState.registerLambda
    cases slot <;> rfl

end ASService

namespace EventLoopPrivate

namespace Sources

open SdEvent

theorem below_emplace {V : Type} (m : StdMap Int V) (c : Int) (v : V) (h0 : 0 ≤ c)
    (h : ∀ e ∈ m, 0 ≤ e.1 ∧ e.1 < c) :
    0 ≤ c + 1 ∧ ∀ e ∈ StdMap.emplace m c v, 0 ≤ e.1 ∧ e.1 < c + 1 := by
  refine ⟨by omega, fun e he => ?_⟩
  rcases StdMap.mem_emplace m c v e he with h1 | h1
  · rw [h1]; exact ⟨h0, by simp⟩
  · have := h e h1
    exact ⟨this.1, by omega⟩

theorem below_erase {V : Type} (m : StdMap Int V) (c k : Int)
    (h : ∀ e ∈ m, 0 ≤ e.1 ∧ e.1 < c) : ∀ e ∈ StdMap.erase m k, 0 ≤ e.1 ∧ e.1 < c :=
  fun e he => h e (StdMap.mem_erase m k e he)

/-- The constructor leaves tags that are not negative. -/
theorem tagsOk_construct (r1 r2 r3 : Nat) : TagsOk (construct r1 r2 r3) := by
  unfold TagsOk construct
  refine ⟨⟨?_, ?_⟩, ⟨?_, ?_⟩, ⟨?_, ?_⟩⟩ <;> simp <;> omega

/-- The lambdas keep the tags not negative and below their counters. -/
theorem tagsOk_call (m : SourceMethod) (t : Int) (s : Sources) (h : TagsOk s) :
    TagsOk (call m (t, s)).2 := by
  obtain ⟨⟨ht0, htm⟩, ⟨hi0, him⟩, ⟨hs0, hsm⟩⟩ := h
  have hs : TagsOk s := ⟨⟨ht0, htm⟩, ⟨hi0, him⟩, ⟨hs0, hsm⟩⟩
  cases m with
  | installTimer now timeout oneShot func created =>
    simp only [call]
    cases created with
    | false => rw [installTimerLambda_failed]; exact hs
    | true =>
      rw [installTimerLambda_created]
      exact ⟨below_emplace _ _ _ ht0 htm, ⟨hi0, him⟩, ⟨hs0, hsm⟩⟩
  | removeTimer tag =>
    simp only [call]
    unfold removeTimerLambda
    split
    · exact hs
    · exact ⟨⟨ht0, below_erase _ _ _ htm⟩, ⟨hi0, him⟩, ⟨hs0, hsm⟩⟩
  | installIO fd events func created =>
    simp only [call]
    cases created with
    | false => rw [installIOLambda_failed]; exact hs
    | true =>
      simp only [installIOLambda, sd_event_add_io, addSource, if_true]
      exact ⟨⟨ht0, htm⟩, below_emplace _ _ _ hi0 him, ⟨hs0, hsm⟩⟩
  | removeIO tag =>
    simp only [call]
    unfold removeIOLambda
    split
    · exact hs
    · exact ⟨⟨ht0, htm⟩, ⟨hi0, below_erase _ _ _ him⟩, ⟨hs0, hsm⟩⟩
  | installSignal signal func created =>
    simp only [call]
    cases created with
    | false => rw [installSignalLambda_failed]; exact hs
    | true =>
      simp only [installSignalLambda, sd_event_add_signal, addSource, if_true]
      exact ⟨⟨ht0, htm⟩, ⟨hi0, him⟩, below_emplace _ _ _ hs0 hsm⟩
  | removeSignal tag =>
    simp only [call]
    unfold removeSignalLambda
    split
    · exact hs
    · exact ⟨⟨ht0, htm⟩, ⟨hi0, him⟩, ⟨hs0, below_erase _ _ _ hsm⟩⟩

/-- A drain of the queue keeps the tags not negative and below their counters. -/
theorem tagsOk_runMethods (q : List SourceMethod) :
    ∀ s : Sources, TagsOk s → TagsOk (runMethods q s) := by
  induction q with
  | nil => intro s h; exact h
  | cons m rest ih =>
    intro s h
    simp only [runMethods]
    exact ih _ (tagsOk_call m (-1) { s with m_methods := rest } h)

theorem tagsOk_callOnEventLoopThread (isLoopExecing : Bool) (ctx : CallCtx)
    (m : SourceMethod) (t : Int) (s : Sources) (h : TagsOk s) :
    TagsOk (callOnEventLoopThread isLoopExecing ctx m (t, s)).2.2 := by
  unfold callOnEventLoopThread invokeMethod
  cases isLoopExecing
  · exact tagsOk_call m t s h
  · cases ctx.onEventLoopThread
    · cases ctx.wrote
      · exact h
      · exact tagsOk_call m t _ (tagsOk_runMethods _ s h)
    · exact tagsOk_call m t s h

/-- Registrations and removals keep the tags not negative and below their
counters. -/
theorem tagsOk_step (isLoopExecing : Bool) (ctx : CallCtx) (now : Nat) (s : Sources)
    (timeout : Int) (oneShot : Bool) (fd : Int) (events : Nat) (signal : Int)
    (func : Option Nat) (created : Bool) (tag : Int) (h : TagsOk s) :
    TagsOk (addTimer isLoopExecing ctx now s timeout oneShot func created).2 ∧
    TagsOk (addIoHandler isLoopExecing ctx s fd events func created).2 ∧
    TagsOk (addSignalHandler isLoopExecing ctx s signal func created).2 ∧
    TagsOk (removeTimer isLoopExecing ctx s tag) ∧
    TagsOk (removeIoHandler isLoopExecing ctx s tag) ∧
    TagsOk (removeSignalHandler isLoopExecing ctx s tag) :=
  ⟨tagsOk_callOnEventLoopThread _ _ _ _ _ h, tagsOk_callOnEventLoopThread _ _ _ _ _ h,
    tagsOk_callOnEventLoopThread _ _ _ _ _ h, tagsOk_callOnEventLoopThread _ _ _ _ _ h,
    tagsOk_callOnEventLoopThread _ _ _ _ _ h, tagsOk_callOnEventLoopThread _ _ _ _ _ h⟩

end Sources

end EventLoopPrivate

/-! ### The timeout handed to the bus -/

namespace DBusConnection

/-- C21, evaluated where the code departs from it: for `msTimeout = 2147484`
(about 36 minutes) the product `msTimeout * 1000` does not fit into an `int`
(the largest is 2147483647).  The value handed to the bus by `call` and by
`callWithCallback` is the wrapped product converted to `uint64_t`,
18446744071562068320 microseconds, not 2147484000. -/
theorem callTimeout_overflows :
    (2147483647 : Int) < 2147484 * 1000 ∧
    callTimeout 2147484 = 18446744071562068320 ∧
    DBusConnectionPrivate.callWithCallbackTimeout 2147484 = 18446744071562068320 ∧
    callTimeout 2147484 ≠ 2147484 * 1000 := by
  decide

/-- What the conversion does get right: up to 2147483 milliseconds the timeout is
`msTimeout * 1000` microseconds, and for every negative `msTimeout` it is
25000000 microseconds, in both functions. -/
theorem callTimeout_in_range (msTimeout : Int) :
    (0 ≤ msTimeout → msTimeout ≤ 2147483 →
      (callTimeout msTimeout : Int) = msTimeout * 1000 ∧
      (DBusConnectionPrivate.callWithCallbackTimeout msTimeout : Int) = msTimeout * 1000) ∧
    (msTimeout < 0 →
      callTimeout msTimeout = 25000000 ∧
      DBusConnectionPrivate.callWithCallbackTimeout msTimeout = 25000000) := by
  constructor
  · intro h0 h1
    have hb : toInt32 (msTimeout * 1000) = msTimeout * 1000 := by
      unfold toInt32 Int.bmod
      have hm : msTimeout * 1000 % ((4294967296 : Nat) : Int) = msTimeout * 1000 :=
        Int.emod_eq_of_lt (by omega) (by norm_num; omega)
      rw [hm]
      norm_num
      omega
    have hu : (toUInt64 (msTimeout * 1000) : Int) = msTimeout * 1000 := by
      unfold toUInt64
      rw [Int.emod_eq_of_lt (by omega) (by omega)]
      exact Int.toNat_of_nonneg (by omega)
    simp only [callTimeout, DBusConnectionPrivate.callWithCallbackTimeout, ge_iff_le, h0,
      if_true, hb]
    exact ⟨hu, hu⟩
  · intro h
    have hn : ¬ msTimeout ≥ 0 := by omega
    simp only [callTimeout, DBusConnectionPrivate.callWithCallbackTimeout, hn, if_false]
    decide

end DBusConnection

/-! ### The deadline of a timed wait -/

namespace SafeSemaphore

/-- C28, evaluated where the code departs from it: at 100 s + 500000000 ns a wait
of 500 ms computes the deadline `tv_sec = 100`, `tv_nsec = 1000000000`.  The
nanoseconds are not below 10^9: the carry is taken only when they are greater
than 10^9 (`>`), not when they are equal to it. -/
theorem waitDeadline_not_normalised :
    waitDeadline ⟨100, 500000000⟩ 500 = some ⟨100, 1000000000⟩ ∧
    ¬ ((1000000000 : Int) < 1000000000) := by
  decide

/-- What the computation does get right: for `timeoutMs ≥ 0` and a normalised
current time the deadline denotes the current time plus `timeoutMs`
milliseconds, and its nanoseconds are between 0 and 10^9, the value 10^9 being
taken exactly when the sum of the nanoseconds is 10^9. -/
theorem waitDeadline_value (now : timespec) (timeoutMs : Int) (h0 : 0 ≤ timeoutMs)
    (h1 : 0 ≤ now.tv_nsec) (h2 : now.tv_nsec < 1000000000) :
    ∃ ts, waitDeadline now timeoutMs = some ts ∧
      nanoseconds ts = nanoseconds now + timeoutMs * 1000000 ∧
      0 ≤ ts.tv_nsec ∧ ts.tv_nsec ≤ 1000000000 ∧
      (ts.tv_nsec = 1000000000 ↔
        now.tv_nsec + timeoutMs % 1000 * 1000000 = 1000000000) := by
  have hd : Int.tdiv timeoutMs 1000 = timeoutMs / 1000 := Int.tdiv_eq_ediv h0 (by norm_num)
  have hm : Int.tmod timeoutMs 1000 = timeoutMs % 1000 := Int.tmod_eq_emod h0 (by norm_num)
  have hn : ¬ timeoutMs < 0 := by omega
  have hr0 : 0 ≤ timeoutMs % 1000 := Int.emod_nonneg _ (by norm_num)
  have hr1 : timeoutMs % 1000 < 1000 := Int.emod_lt_of_pos _ (by norm_num)
  have hsplit : timeoutMs = timeoutMs / 1000 * 1000 + timeoutMs % 1000 := by omega
  unfold waitDeadline
  simp only [hn, if_false, hd, hm]
  by_cases hc : now.tv_nsec + timeoutMs % 1000 * 1000000 > 1000000000
  · simp only [hc, if_true]
    refine ⟨_, rfl, ?_, ?_, ?_, ?_⟩
    · simp only [nanoseconds]; omega
    · simp only; omega
    · simp only; omega
    · simp only; omega
  · simp only [hc, if_false]
    refine ⟨_, rfl, ?_, ?_, ?_, ?_⟩
    · simp only [nanoseconds]; omega
    · simp only; omega
    · simp only; omega
    · simp only

end SafeSemaphore

/-! ### The deferred-work queue: failed wake-ups and work queued during a drain -/

namespace EventLoopPrivate

variable {F σ : Type}

theorem executeAllMethods_queue (run : F → σ → σ × List (Option F)) (q : List (Option F))
    (rest : List (Option F)) (s : σ) (log : List F) (k : Nat) :
    executeAllMethods run (q.length + k)
        { loop := { m_methods := q ++ rest }, state := s, executed := log } =
      executeAllMethods run k
        { loop := { m_methods := rest ++ (runInOrder run q.reduceOption s).2 },
          state := (runInOrder run q.reduceOption s).1,
          executed := log ++ q.reduceOption } := by
  induction q generalizing rest s log with
  | nil => simp [runInOrder]
  | cons c q ih =>
    have hf : (c :: q).length + k = (q.length + k) + 1 := by simp; omega
    rw [hf]
    cases c with
    | none =>
      simp only [executeAllMethods, List.cons_append, List.reduceOption_cons_of_none]
      exact ih rest s log
    | some c =>
      simp only [executeAllMethods, List.cons_append, List.reduceOption_cons_of_some]
      rw [List.append_assoc, ih]
      simp [runInOrder, List.append_assoc]

/-- C22: `invokeMethod` appends the closure at the back of `m_methods` and returns
true exactly when the wake-up write succeeded; the closure is appended whether
or not the write succeeded.  So also after a false return, a drain that makes
one loop iteration per entry of the queue executes the closure, after the
closures that were queued before it. -/
theorem invokeMethod_appends_always (self : EventLoopPrivate F) (func : Option F)
    (wrote : Bool) (fn : F) (run : F → σ → σ × List (Option F)) (s : σ) (log : List F)
    (k : Nat) :
    (self.invokeMethod func wrote).1 = wrote ∧
    (self.invokeMethod func wrote).2.m_methods = self.m_methods ++ [func] ∧
    (∃ later, (executeAllMethods run (self.m_methods.length + 1 + k)
        { loop := (self.invokeMethod (some fn) false).2, state := s, executed := log }).executed =
      log ++ self.m_methods.reduceOption ++ [fn] ++ later) := by
  refine ⟨?_, invokeMethod_methods self func wrote, ?_⟩
  · unfold invokeMethod
    cases wrote <;> rfl
  · have hq : (self.invokeMethod (some fn) false).2 =
        { m_methods := (self.m_methods ++ [some fn]) ++ [] } := by
      simp [invokeMethod]
    have hmain := executeAllMethods_queue run (self.m_methods ++ [some fn]) [] s log k
    simp only [List.length_append, List.length_singleton] at hmain
    rw [hq, hmain]
    obtain ⟨later, hl⟩ := executeAllMethods_executed run k
      { loop := { m_methods := [] ++ (runInOrder run (self.m_methods ++ [some fn]).reduceOption s).2 },
        state := (runInOrder run (self.m_methods ++ [some fn]).reduceOption s).1,
        executed := log ++ (self.m_methods ++ [some fn]).reduceOption }
    refine ⟨later, ?_⟩
    rw [hl]
    simp [List.reduceOption_append]

/-- C24, as the code has it: a drain that starts with the single closure 1 in the
queue, where closure 1 queues closure 2 while it runs; the same drain executes
closure 2 as well. -/
theorem executeAllMethods_runs_new_work :
    executeAllMethods
        (fun (c : Nat) (s : List Nat) => (s ++ [c], if c = 1 then [some 2] else [])) 2
        { loop := { m_methods := [some 1] }, state := [], executed := [] } =
      { loop := { m_methods := [] }, state := [1, 2], executed := [1, 2] } := by
  rfl

/-- C24, amended: a closure that a running closure queues during a drain goes to
the back of the queue and is executed by that same drain, after the closures
that were in the queue when the drain started: the drain goes on until the
queue is empty.  When the closures `cs` queued at the start queue `gs` while
they run, and those queue nothing, a drain with one loop iteration per closure
executes `cs` and then `gs` and leaves the queue empty. -/
theorem executeAllMethods_until_empty (run : F → σ → σ × List (Option F)) (cs gs : List F)
    (s : σ) (k : Nat) (hq : (runInOrder run cs s).2 = gs.map some)
    (hg : (runInOrder run gs (runInOrder run cs s).1).2 = []) :
    executeAllMethods run (cs.length + gs.length + k)
        { loop := { m_methods := cs.map some }, state := s, executed := [] } =
      { loop := { m_methods := [] },
        state := (runInOrder run gs (runInOrder run cs s).1).1,
        executed := cs ++ gs } := by
  have h1 := executeAllMethods_submitted run cs [] s [] (gs.length + k)
  have h2 := executeAllMethods_submitted run gs [] (runInOrder run cs s).1 cs k
  simp only [List.append_nil, List.nil_append] at h1 h2
  rw [Nat.add_assoc, h1, hq, h2, hg]
  exact executeAllMethods_empty run k _ rfl

/-- C24 amended, at a concrete input. -/
theorem executeAllMethods_until_empty_witness :
    executeAllMethods
        (fun (c : Nat) (s : List Nat) => (s ++ [c], if c = 1 then [some 2] else []))
        (1 + 1 + 0) { loop := { m_methods := [some 1] }, state := [], executed := [] } =
      { loop := { m_methods := [] }, state := [1, 2], executed := [1, 2] } :=
  executeAllMethods_until_empty
    (fun (c : Nat) (s : List Nat) => (s ++ [c], if c = 1 then [some 2] else []))
    [1] [2] [] 0 rfl rfl

end EventLoopPrivate

/-! ### The canned error lookup -/

namespace ASRequest

/-- C30, as the code has it: `cannedErrors` has no entry for `None`, so
`cannedErrors.at(None)` throws `std::out_of_range` and `sendErrorReply(None, "")`
returns no boolean. -/
theorem sendErrorReply_none_throws :
    cannedErrorsAt ErrorType.None = none ∧
    sendErrorReply Bus.working ⟨true, true⟩ (ASRequestPrivate.construct true (some 7))
      ReplyWorld.empty ErrorType.None "" = none := by
  decide

/-- C30, amended: the lookup in `sendErrorReply(type, developerMessage)` succeeds
exactly for the four error types `InvalidUrlError`, `InvalidParametersError`,
`GenericFailureError` and `NotSupportedError`, for which the call returns a
boolean; for `None` the table has no entry, `cannedErrors.at` throws
`std::out_of_range` and the call returns nothing. -/
theorem sendErrorReply_defined_iff (bus : Bus) (ctx : CallCtx) (self : ASRequestPrivate)
    (w : ReplyWorld) (type : ErrorType) (developerMessage : String) :
    (sendErrorReply bus ctx self w type developerMessage).isSome = true ↔
      type ≠ ErrorType.None := by
  cases type <;> simp [sendErrorReply, cannedErrorsAt, cannedErrors]

end ASRequest

/-! ### I/O event masks and notifiers -/

namespace EventLoopPrivate

/-- The test `hasBit mask (2 ^ k)` is the test `mask & (1 << k)` of the source. -/
theorem hasBit_iff_land (mask k : Nat) :
    hasBit mask (2 ^ k) = true ↔ mask &&& 2 ^ k ≠ 0 := by
  unfold hasBit
  rw [Nat.and_two_pow, ← Nat.testBit_to_div_mod]
  have hp : 2 ^ k ≠ 0 := by positivity
  cases h : mask.testBit k <;> simp [hp]

namespace Sources

/-- The handlers on the sources as the library dispatches them, enabled: a
tag-based handler registered with `addIoHandler` and told that the descriptor is
readable and has hung up (`EPOLLIN | EPOLLHUP`, 17) passes
`ReadableEvent | UpdateEvent` (9) to its callback; the handler of a notifier
made by `createIONotifier` finds the code of `sd_event_source_get_enabled`
positive and returns -1 without calling the callback. -/
theorem io_handlers_on_enabled_source :
    ioHandler (addIoHandler true ⟨true, true⟩ (construct 0 0 0) 3 1 (some 5) true).2 0 17 =
      (0, some (5, 9)) ∧
    (createIONotifier ⟨[], 0⟩ true 3 1 (some 6)).2.sd_event_source_get_enabled 0 =
      (1, SdEnabled.SD_EVENT_ON) ∧
    IONotifierPrivate.handler (createIONotifier ⟨[], 0⟩ true 3 1 (some 6)).2
      ⟨some 6, some 0, 3, 1⟩ 0 3 17 = (-1, none) := by
  decide

end Sources

/-- C29, evaluated where the code departs from it: `createIONotifier(3,
WritableEvent, f)` hands the mask to `sd_event_add_io` as it is, so the library
holds the interest mask 2 (`EPOLLPRI`), while `convertToEPollEvents(WritableEvent)`
is 4 (`EPOLLOUT`), which is what `setEvents(WritableEvent)` on the same notifier
then installs. -/
theorem createIONotifier_installs_raw_mask :
    (createIONotifier ⟨[], 0⟩ true 3 IONotifier.WritableEvent (some 6)).1 =
      some ⟨some 6, some 0, 3, 2⟩ ∧
    (createIONotifier ⟨[], 0⟩ true 3 IONotifier.WritableEvent (some 6)).2.ioEvents 0 = some 2 ∧
    IONotifierPrivate.convertToEPollEvents IONotifier.WritableEvent = 4 ∧
    (IONotifierPrivate.setEvents
      (createIONotifier ⟨[], 0⟩ true 3 IONotifier.WritableEvent (some 6)).2
      ⟨some 6, some 0, 3, 2⟩ IONotifier.WritableEvent).2.ioEvents 0 = some 4 := by
  decide

end EventLoopPrivate

/-! ### Rescheduling of repeating timers -/

namespace EventLoopPrivate

theorem expiryAfter_eq (now : Nat) (delta : Int) (h0 : 0 ≤ (now : Int) + delta)
    (h1 : (now : Int) + delta < 18446744073709551616) :
    (expiryAfter now delta : Int) = now + delta := by
  unfold expiryAfter
  rw [Int.emod_eq_of_lt h0 h1]
  exact Int.toNat_of_nonneg h0

namespace SdEvent

theorem find_set_time_self (ev : SdEvent) (es : Nat) (usec : Nat) (x : SdSource)
    (hx : StdMap.find ev.sources es = some x) :
    StdMap.find (ev.sd_event_source_set_time es usec).sources es =
      some { x with kind := SdKind.time usec } := by
  unfold sd_event_source_set_time
  rw [hx]
  exact StdMap.find_assign_self _ _ _

end SdEvent

namespace Sources

open SdEvent

/-- The tag-based half of the rescheduling rule: when a repeating timer
registered with `addTimer` fires and its callback does not remove it, its next
expiry is the current monotonic time at handling (`sd_event_now`) plus its
interval, a `uint64_t` sum that is exact when it is below 2^64. -/
theorem tag_timer_next_expiry (calls : Nat → Int → List TimerCall) (now : Nat)
    (s : Sources) (tag : Int) (timer : TimerSource) (cb : Nat) (x : SdSource)
    (ho : StdMap.Ordered s.m_timerMap)
    (hbelow : ∀ e ∈ s.m_timerMap, e.1 < s.m_timerTag)
    (ht : StdMap.find s.m_timerMap tag = some timer)
    (hcb : timer.callback = some cb)
    (howner : ∀ e ∈ s.m_timerMap, e.2.source = timer.source → e.1 = tag)
    (hx : StdMap.find s.m_loop.sources timer.source = some x)
    (hnext : timer.source < s.m_loop.next)
    (hen : x.enabled = SdEnabled.SD_EVENT_ON)
    (hcalls : ∀ c ∈ calls cb tag, c ≠ TimerCall.removeTimer tag) :
    StdMap.find (dispatchTime calls now timer.source s).2.m_loop.sources timer.source =
      some ⟨SdKind.time (expiryAfter now timer.interval), SdEnabled.SD_EVENT_ON⟩ ∧
    (0 ≤ timer.interval → (now : Int) + timer.interval < 18446744073709551616 →
      (expiryAfter now timer.interval : Int) = now + timer.interval) := by
  refine ⟨?_, fun h0 h1 => expiryAfter_eq now _ (by omega) h1⟩
  have hk : Keeps timer.source SdEnabled.SD_EVENT_ON tag (some timer) s :=
    ⟨hnext, ⟨x, hx, hen⟩, ho, hbelow, (fun t h => by cases h; exact ht), howner⟩
  obtain ⟨s1, hk1, _, hh⟩ := timerHandler_keeps calls now SdEnabled.SD_EVENT_ON tag timer
    (some timer) cb s hk ht hcb (Or.inr hcalls) (by decide)
  have hd : dispatchTime calls now timer.source s =
      (0, { s1 with m_loop :=
        s1.m_loop.sd_event_source_set_time timer.source (expiryAfter now timer.interval) }) := by
    unfold dispatchTime
    simp only [hx, hen]
    rw [hh]
    simp
  obtain ⟨x1, hx1, hen1⟩ := hk1.enabled
  rw [hd]
  simp only
  rw [find_set_time_self _ _ _ x1 hx1]
  cases x1 with
  | mk kind enabled =>
    simp only at hen1
    rw [hen1]

end Sources

end EventLoopPrivate

namespace TimerPrivate

open EventLoopPrivate EventLoopPrivate.SdEvent EventLoopPrivate.Sources

/-- C26, evaluated where the code departs from it.  A repeating `Timer` object
made by `createTimer` and started at time 1000 with an interval of 1 ms has the
deadline 2000 and an enabled source, for which `sd_event_source_get_enabled`
returns the positive code 1.  When the library dispatches it, the handler takes
that code for a failure and returns -1, having changed nothing: the expiry is
still 2000 and the callback is not called.  At time 5000 the claim has the
expiry 6000.  A repeating tag-based timer (`addTimer`, interval 60, handled at
time 500) does get the current time plus the interval, 560. -/
theorem repeating_timer_object_not_rescheduled :
    StdMap.find
      (startWith (createTimer ⟨[], 0⟩ true (some 3)).2 1000
        ⟨some 3, some 0, false, 0⟩ 1).2.sources 0 =
      some ⟨SdKind.time 2000, SdEnabled.SD_EVENT_ON⟩ ∧
    (startWith (createTimer ⟨[], 0⟩ true (some 3)).2 1000
      ⟨some 3, some 0, false, 0⟩ 1).2.sd_event_source_get_enabled 0 =
      (1, SdEnabled.SD_EVENT_ON) ∧
    handler
      (startWith (createTimer ⟨[], 0⟩ true (some 3)).2 1000 ⟨some 3, some 0, false, 0⟩ 1).2
      (startWith (createTimer ⟨[], 0⟩ true (some 3)).2 1000 ⟨some 3, some 0, false, 0⟩ 1).1
      0 2000 =
      (-1,
        (startWith (createTimer ⟨[], 0⟩ true (some 3)).2 1000 ⟨some 3, some 0, false, 0⟩ 1).2,
        none) ∧
    (dispatch
      (startWith (createTimer ⟨[], 0⟩ true (some 3)).2 1000 ⟨some 3, some 0, false, 0⟩ 1).2
      (startWith (createTimer ⟨[], 0⟩ true (some 3)).2 1000 ⟨some 3, some 0, false, 0⟩ 1).1
      0).1 = -1 ∧
    (dispatch
      (startWith (createTimer ⟨[], 0⟩ true (some 3)).2 1000 ⟨some 3, some 0, false, 0⟩ 1).2
      (startWith (createTimer ⟨[], 0⟩ true (some 3)).2 1000 ⟨some 3, some 0, false, 0⟩ 1).1
      0).2.2 = none ∧
    (dispatch
      (startWith (createTimer ⟨[], 0⟩ true (some 3)).2 1000 ⟨some 3, some 0, false, 0⟩ 1).2
      (startWith (createTimer ⟨[], 0⟩ true (some 3)).2 1000 ⟨some 3, some 0, false, 0⟩ 1).1
      0).2.1.expiry 0 = some 2000 ∧
    expiryAfter 5000 1000 = 6000 ∧
    StdMap.find (dispatchTime (fun _ _ => []) 500 1
      (addTimer true ⟨true, true⟩ 100
        (addTimer true ⟨true, true⟩ 100 (construct 0 0 0) 50 true (some 7) true).2
        60 false (some 8) true).2).2.m_loop.sources 1 =
      some ⟨SdKind.time 560, SdEnabled.SD_EVENT_ON⟩ := by
  decide

end TimerPrivate

/-! ### Nested event dispatch -/

namespace EventLoopPrivate

namespace Dispatch

/-- C25, evaluated where the code departs from it: the only listener (tag 1000,
all events) removes itself and then emits an event synchronously from inside its
callback.  The nested walk finds the tag in `m_removedListenersSet` and erases
the entry from `m_listenersMap` while `m_withinEventHandler` is 2, and the outer
walk is still positioned on that entry.  When the callback returns, the outer
walk advances an iterator that points at no entry of the map: the next step is
undefined. -/
theorem nested_dispatch_erases_under_walk :
    run (fun _ _ => [NestedCall.removeEventListener 1000, NestedCall.emitEvent 6]) 5
        (emitEvent ⟨⟨0, [], 1001, [(1000, ⟨-1, 1⟩)], []⟩, [], []⟩ 5) =
      some ⟨⟨1, [], 1001, [], [(1000, 1)]⟩, [Frame.inCallback 5 1000 []], [(1000, 2)]⟩ ∧
    run (fun _ _ => [NestedCall.removeEventListener 1000, NestedCall.emitEvent 6]) 6
        (emitEvent ⟨⟨0, [], 1001, [(1000, ⟨-1, 1⟩)], []⟩, [], []⟩ 5) = none := by
  decide

/-- A second way to the same end: the listener 1000 (events of type 5) emits an
event of type 6 from its callback; the listener 1001 (type 6) removes the
listener 1000.  The nested walk erases nothing itself, but at its end
`m_withinEventHandler` goes back to 1 and the pending removal is applied, while
the outer walk is still positioned on the entry 1000. -/
theorem nested_cleanup_erases_under_walk :
    run (fun cb _ => if cb = 1 then [NestedCall.emitEvent 6]
          else [NestedCall.removeEventListener 1000]) 7
        (emitEvent ⟨⟨0, [], 1002, [(1000, ⟨5, 1⟩), (1001, ⟨6, 2⟩)], []⟩, [], []⟩ 5) =
      some ⟨⟨1, [], 1002, [(1001, ⟨6, 2⟩)], [(1000, 1), (1001, 2)]⟩,
        [Frame.inCallback 5 1000 []], [(1000, 1)]⟩ ∧
    run (fun cb _ => if cb = 1 then [NestedCall.emitEvent 6]
          else [NestedCall.removeEventListener 1000]) 8
        (emitEvent ⟨⟨0, [], 1002, [(1000, ⟨5, 1⟩), (1001, ⟨6, 2⟩)], []⟩, [], []⟩ 5) = none := by
  decide

/-- Without nested events the steps end where `callListenersLambda` ends: three
listeners, the second of which removes itself. -/
theorem run_agrees_without_nesting :
    (run (fun cb _ => if cb = 1 then [NestedCall.removeEventListener 1001] else []) 20
        (emitEvent ⟨⟨0, [], 1003, [(1000, ⟨5, 0⟩), (1001, ⟨-1, 1⟩), (1002, ⟨5, 2⟩)], []⟩,
          [], []⟩ 5)).map (fun d => (d.listeners, d.stack)) =
      (Listeners.callListenersLambda
        (fun cb _ => if cb = 1 then [ListenerCall.removeEventListener 1001] else []) 3 5
        ⟨0, [], 1003, [(1000, ⟨5, 0⟩), (1001, ⟨-1, 1⟩), (1002, ⟨5, 2⟩)], []⟩).map
        (fun s => (s, [])) := by
  decide

end Dispatch

end EventLoopPrivate

/-! ### A synchronous call from another thread while the loop is busy -/

namespace ConnectionWorld

open DBusConnectionPrivate EventLoopPrivate

/-- The connection after the queued calls `cs` have been executed in order. -/
theorem runInOrder_runQueued (cs : List ExecCall) (conn : DBusConnectionPrivate) :
    runInOrder runQueued cs conn =
      (cs.foldl (fun c e => (execCall e c).2) conn, []) := by
  induction cs generalizing conn with
  | nil => rfl
  | cons c cs ih => simp [runInOrder, ih, runQueued]

/-- A drain with one loop iteration per entry empties the queue, having executed
the queued calls in order. -/
theorem drain_queue (fuel : Nat) (w : ConnectionWorld)
    (hf : w.loop.m_methods.length ≤ fuel) :
    drain fuel w =
      { conn := w.loop.m_methods.reduceOption.foldl (fun c e => (execCall e c).2) w.conn,
        loop := { m_methods := [] } } := by
  obtain ⟨k, hk⟩ := Nat.exists_eq_add_of_le hf
  have h := executeAllMethods_queue runQueued w.loop.m_methods [] w.conn [] k
  simp only [List.append_nil, List.nil_append, runInOrder_runQueued] at h
  unfold drain
  rw [hk, h, executeAllMethods_empty runQueued k _ rfl]

/-- Calls that neither use the callback `lambda` as their error callback nor get
the cookie `cookie` leave a connection where `lambda` has not been called and
`cookie` is not pending in that state. -/
theorem foldl_execCall_fresh (lambda cookie : Nat) (cs : List ExecCall) :
    ∀ conn : DBusConnectionPrivate,
      (∀ e ∈ conn.called, e.1 ≠ lambda) →
      StdMap.find conn.m_callbacks cookie = none →
      (∀ c ∈ cs, c.errorCallback ≠ some lambda) →
      (∀ c ∈ cs, c.outcome.cookie ≠ cookie) →
      (∀ e ∈ (cs.foldl (fun c e => (execCall e c).2) conn).called, e.1 ≠ lambda) ∧
      StdMap.find (cs.foldl (fun c e => (execCall e c).2) conn).m_callbacks cookie = none := by
  induction cs with
  | nil => intro conn h1 h2 _ _; exact ⟨h1, h2⟩
  | cons c cs ih =>
    intro conn h1 h2 h3 h4
    have hc3 := h3 c (List.mem_cons_self _ _)
    have hc4 := h4 c (List.mem_cons_self _ _)
    simp only [List.foldl_cons]
    apply ih
    · cases hs : c.outcome.sent with
      | true => rw [execCall_sent c conn hs]; exact h1
      | false =>
        rw [execCall_not_sent c conn hs]
        cases he : c.errorCallback with
        | none => simpa [callIfSet] using h1
        | some f =>
          have hf : f ≠ lambda := fun h => hc3 (by rw [he, h])
          intro e hmem
          simp only [callIfSet, List.mem_append, List.mem_singleton] at hmem
          rcases hmem with hmem | hmem
          · exact h1 e hmem
          · rw [hmem]; exact hf
    · cases hs : c.outcome.sent with
      | true =>
        rw [execCall_sent c conn hs]
        simp only
        rw [StdMap.find_emplace_ne _ _ _ _ (Ne.symm hc4)]
        exact h2
      | false =>
        rw [execCall_not_sent c conn hs]
        cases he : c.errorCallback <;> simpa [callIfSet] using h2
    · exact fun x hx => h3 x (List.mem_cons_of_mem _ hx)
    · exact fun x hx => h4 x (List.mem_cons_of_mem _ hx)

theorem find?_append_fresh (called : List (Nat × DBusMessage)) (lambda : Nat)
    (m : DBusMessage) (h : ∀ e ∈ called, e.1 ≠ lambda) :
    List.find? (fun (e : Nat × DBusMessage) => decide (e.1 = lambda))
      (called ++ [(lambda, m)]) = some (lambda, m) := by
  induction called with
  | nil => simp
  | cons e rest ih =>
    have he := h e (List.mem_cons_self _ _)
    simp only [List.cons_append, List.find?_cons, he, decide_False]
    exact ih (fun x hx => h x (List.mem_cons_of_mem _ hx))

theorem find?_fresh_none (called : List (Nat × DBusMessage)) (lambda : Nat)
    (h : ∀ e ∈ called, e.1 ≠ lambda) :
    List.find? (fun (e : Nat × DBusMessage) => decide (e.1 = lambda)) called = none := by
  rw [List.find?_eq_none]
  intro e he
  simpa using h e he

end ConnectionWorld

namespace DBusConnection

open DBusConnectionPrivate ConnectionWorld

/-- C23: a synchronous call is made on a thread other than the loop thread while
the loop thread is busy: calls queued earlier are still waiting in `m_methods`
(none of them uses the semaphore lambda of this call or gets its cookie, and the
wake-up write succeeds).  The caller blocks on its semaphore.  Once the loop
thread is free and drains its queue (one loop iteration per entry suffices, and
the drain leaves the queue empty, so the loop thread is not held up), a call
that fails before it is sent releases the caller with
`DBusMessage(DBusMessage::Failed)`; a call that is sent leaves the caller
waiting for the bus, and the caller is released with the reply as soon as the
loop thread dispatches the reply (or the timeout error of the bus) that carries
the cookie of the call. -/
theorem call_foreign_completes (w : ConnectionWorld) (outcome : CallOutcome)
    (sync : SyncOutcome) (lambda : Nat) (reply : ReplyMessage) (fuel : Nat)
    (hfuel : w.loop.m_methods.length + 1 ≤ fuel)
    (hlam1 : ∀ e ∈ w.conn.called, e.1 ≠ lambda)
    (hlam2 : ∀ c ∈ w.loop.m_methods.reduceOption, c.errorCallback ≠ some lambda)
    (hcookie1 : StdMap.find w.conn.m_callbacks outcome.cookie = none)
    (hcookie2 : ∀ c ∈ w.loop.m_methods.reduceOption, c.outcome.cookie ≠ outcome.cookie)
    (hreply : reply.replyCookie = some outcome.cookie) :
    (outcome.sent = false →
      (call ⟨false, true⟩ true w MessageType.MethodCallMessage sync outcome lambda
        (drain fuel)).1 = some DBusMessage.failed ∧
      (call ⟨false, true⟩ true w MessageType.MethodCallMessage sync outcome lambda
        (drain fuel)).2.loop.m_methods = []) ∧
    (outcome.sent = true →
      (call ⟨false, true⟩ true w MessageType.MethodCallMessage sync outcome lambda
        (drain fuel)).1 = none ∧
      (call ⟨false, true⟩ true w MessageType.MethodCallMessage sync outcome lambda
        (fun w1 => (drain fuel w1).dispatchReply reply)).1 =
          some (DBusMessage.reply reply.msg) ∧
      (call ⟨false, true⟩ true w MessageType.MethodCallMessage sync outcome lambda
        (fun w1 => (drain fuel w1).dispatchReply reply)).2.loop.m_methods = []) := by
  -- the world after `callWithCallback` has queued the call
  have hq := callWithCallback_foreign true w outcome (some lambda)
  -- the connection after the calls queued earlier
  obtain ⟨hf1, hf2⟩ := foldl_execCall_fresh lambda outcome.cookie
    w.loop.m_methods.reduceOption w.conn hlam1 hcookie1 hlam2 hcookie2
  have hd : drain fuel
      (DBusConnectionPrivate.callWithCallback ⟨false, true⟩ w outcome (some lambda)).2 =
      { conn := (execCall ⟨some lambda, some lambda, outcome⟩
          (w.loop.m_methods.reduceOption.foldl (fun c e => (execCall e c).2) w.conn)).2,
        loop := { m_methods := [] } } := by
    rw [hq, drain_queue fuel _ (by simpa using hfuel)]
    simp [List.reduceOption_append, List.foldl_append]
  have hcall : ∀ loopThread : ConnectionWorld → ConnectionWorld,
      call ⟨false, true⟩ true w MessageType.MethodCallMessage sync outcome lambda loopThread =
        (match List.find? (fun (e : Nat × DBusMessage) => decide (e.1 = lambda))
            (loopThread (DBusConnectionPrivate.callWithCallback ⟨false, true⟩ w outcome
              (some lambda)).2).conn.called with
          | some e => (some e.2, loopThread (DBusConnectionPrivate.callWithCallback
              ⟨false, true⟩ w outcome (some lambda)).2)
          | none => (none, loopThread (DBusConnectionPrivate.callWithCallback
              ⟨false, true⟩ w outcome (some lambda)).2)) := by
    intro loopThread
    simp [call, hq]
  have hsent : outcome.sent = true →
      execCall ⟨some lambda, some lambda, outcome⟩
          (w.loop.m_methods.reduceOption.foldl (fun c e => (execCall e c).2) w.conn) =
        (true, { (w.loop.m_methods.reduceOption.foldl (fun c e => (execCall e c).2) w.conn) with
          m_callbacks := StdMap.emplace
            (w.loop.m_methods.reduceOption.foldl (fun c e => (execCall e c).2) w.conn).m_callbacks
            outcome.cookie (some lambda) }) :=
    fun hs => execCall_sent ⟨some lambda, some lambda, outcome⟩ _ hs
  have hfail : outcome.sent = false →
      execCall ⟨some lambda, some lambda, outcome⟩
          (w.loop.m_methods.reduceOption.foldl (fun c e => (execCall e c).2) w.conn) =
        (false, callIfSet
          (w.loop.m_methods.reduceOption.foldl (fun c e => (execCall e c).2) w.conn)
          (some lambda) DBusMessage.failed) :=
    fun hs => execCall_not_sent ⟨some lambda, some lambda, outcome⟩ _ hs
  constructor
  · intro hs
    rw [hcall, hd, hfail hs]
    simp only [callIfSet]
    rw [find?_append_fresh _ lambda _ hf1]
    exact ⟨rfl, rfl⟩
  · intro hs
    refine ⟨?_, ?_, ?_⟩
    · rw [hcall, hd, hsent hs]
      simp only
      rw [find?_fresh_none _ lambda hf1]
    · rw [hcall]
      simp only [dispatchReply, hd, hsent hs, methodCallCallback, hreply,
        StdMap.find_emplace_self _ _ _ hf2, callIfSet]
      rw [find?_append_fresh _ lambda _ hf1]
    · rw [hcall]
      simp only [dispatchReply, hd]
      split <;> rfl

/-- C23, at a concrete input: two earlier calls are waiting in the queue (the
first fails before it is sent, the second is sent with cookie 4) when the
synchronous call is made; it is sent with cookie 5 and answered with message
9. -/
theorem call_foreign_completes_witness :
    (call ⟨false, true⟩ true
      { conn := { m_callbacks := [], called := [] },
        loop := { m_methods := [some ⟨some 1, some 1, ⟨false, 0, 0, 0⟩⟩,
          some ⟨some 2, some 2, accepted 4⟩] } }
      MessageType.MethodCallMessage ⟨true, 0, none⟩ (accepted 5) 3
      (fun w1 => (drain 3 w1).dispatchReply ⟨9, some 5⟩)).1 = some (DBusMessage.reply 9) :=
  ((call_foreign_completes
    { conn := { m_callbacks := [], called := [] },
      loop := { m_methods := [some ⟨some 1, some 1, ⟨false, 0, 0, 0⟩⟩,
        some ⟨some 2, some 2, accepted 4⟩] } }
    (accepted 5) ⟨true, 0, none⟩ 3 ⟨9, some 5⟩ 3 (by decide) (by decide) (by decide)
    (by decide) (by decide) rfl).2 rfl).2.1

end DBusConnection
